import Mathlib

/-!
The user-api service: event notification delivery and the user service.

A shallow embedding of the Go packages `internal/domain`, `internal/notifier`
and `internal/service`.

Conventions of the embedding

* Go `string` and `[]byte` are both byte sequences; they are represented by
  `String`, and the conversions `[]byte(s)` / `string(b)` are the identity.
* A Go `error` is `Option GoError`; `none` is `nil`.
* A Go pointer `*T` that the code tests against `nil` is `Option T`.
* Effects (transport writes, sleeps, dead-letter saves, log calls) are
  appended to a trace held in `State`; the behaviour of the collaborators
  that live outside the repository (the Kafka writer, `uuid.New`, `time.Now`,
  `json.Marshal`, the dead-letter store behind its interface) is supplied by
  `Env` and by the interface values, indexed by the number of earlier calls.
* A function that can panic returns an `Outcome`.
-/

namespace UserApi

/-! ## Basic Go values -/

/-- Result of running a Go function body: it returns a value or it panics. -/
inductive Outcome (α : Type) where
  | ret (v : α)
  | panic (reason : String)
  deriving DecidableEq, Repr

/-- Non-nil values of the Go `error` interface. The three sentinels of
`domain/errors.go` are compared by identity, so an unrelated error carrying the
same text is a different value (`other`). `wrap` is an error that unwraps to
another one. -/
inductive GoError where
  | ErrUserNotFound
  | ErrEmailExists
  | ErrInvalidInput
  | other (msg : String)
  | wrap (msg : String) (inner : GoError)
  deriving DecidableEq, Repr

/-- The method `Error()` of an error value. -/
def GoError.Error : GoError → String
  | .ErrUserNotFound => "user not found"
  | .ErrEmailExists => "email already exists"
  | .ErrInvalidInput => "invalid input"
  | .other msg => msg
  | .wrap msg _ => msg

/-- `errors.Is(err, target)` for a non-nil `err`: walk the unwrap chain. -/
def GoError.Is : GoError → GoError → Bool
  | .wrap msg inner, target =>
      decide (GoError.wrap msg inner = target) || GoError.Is inner target
  | e, target => decide (e = target)

/-- `errors.Is(err, target)`. -/
def errorsIs (err : Option GoError) (target : GoError) : Bool :=
  match err with
  | none => false
  | some e => e.Is target

/-- A `uuid.UUID`: sixteen bytes, held as one number below `2 ^ 128`. -/
structure UUID where
  val : Nat
  isLt : val < 2 ^ 128
  deriving DecidableEq, Repr

/-- Build a UUID from a number (reduced modulo `2 ^ 128`). -/
def UUID.ofNat (n : Nat) : UUID :=
  ⟨n % 2 ^ 128, Nat.mod_lt _ (by decide)⟩

/-- The zero value `uuid.Nil`. -/
def UUID.Nil : UUID := UUID.ofNat 0

/-- Lower-case hexadecimal rendering of `n`, left-padded with `0` to `width`. -/
def hexPad (width n : Nat) : List Char :=
  let ds := Nat.toDigits 16 n
  List.replicate (width - ds.length) '0' ++ ds

/-- The method `UUID.String()`: the canonical form
`xxxxxxxx-xxxx-xxxx-xxxx-xxxxxxxxxxxx`. -/
def UUID.String (u : UUID) : String :=
  let h := hexPad 32 u.val
  String.mk (h.take 8 ++ ['-'] ++ (h.drop 8).take 4 ++ ['-'] ++ (h.drop 12).take 4
    ++ ['-'] ++ (h.drop 16).take 4 ++ ['-'] ++ h.drop 20)

/-- Location of a `time.Time`. -/
inductive Location where
  | utc
  | zone (name : String) (offsetSeconds : Int)
  deriving DecidableEq, Repr

/-- A `time.Time`: an instant and the location it is presented in. -/
structure Time where
  unixNano : Int
  loc : Location
  deriving DecidableEq, Repr

/-- The method `Time.UTC()`: same instant, location UTC. -/
def Time.UTC (t : Time) : Time := { t with loc := Location.utc }

/-- A `context.Context`, as far as the collaborators may look at it: whether it
is already cancelled, and its deadline if it has one. -/
structure Context where
  done : Bool
  deadline : Option Int
  deriving DecidableEq, Repr

/-- The value `context.Background()`. -/
def Context.Background : Context := ⟨false, none⟩

/-- Reduce an integer to the range of a Go `int64` (two's complement wrap). -/
def wrapInt64 (x : Int) : Int :=
  (x + 2 ^ 63) % 2 ^ 64 - 2 ^ 63

/-- The constant `time.Second`, in nanoseconds (a `time.Duration`). -/
def Second : Int := 1000000000

/-! ## `internal/domain/event.go` -/

/-- Go: `type EventType string`. -/
abbrev EventType := String

def EventTypeUserCreated : EventType := "user.created"
def EventTypeUserUpdated : EventType := "user.updated"
def EventTypeUserDeleted : EventType := "user.deleted"

structure EventData where
  UserID : UUID
  deriving DecidableEq, Repr

structure UserEvent where
  EventID : UUID
  EventType : EventType
  Timestamp : Time
  Data : EventData
  deriving DecidableEq, Repr

structure FailedEvent where
  ID : UUID
  EventID : UUID
  EventType : EventType
  UserID : UUID
  Payload : String
  Error : String
  Attempts : Int
  CreatedAt : Time
  LastError : Time
  deriving DecidableEq, Repr

/-- The interface `domain.FailedEventRepository`, as far as the notifier uses
it: `Save`. The first argument is the number of `Save` calls made before this
one, so an implementation may answer every call differently. -/
structure FailedEventRepository where
  Save : Nat → Context → FailedEvent → Option GoError

/-! ## The Kafka writer and the effect trace -/

/-- A `kafka.Header`. -/
structure Header where
  Key : String
  Value : String
  deriving DecidableEq, Repr

/-- A `kafka.Message`, with the fields the notifier sets. -/
structure Message where
  Key : String
  Value : String
  Headers : List Header
  deriving DecidableEq, Repr

/-- The fields of `kafka.Writer` that `NewKafkaNotifier` sets. -/
structure KafkaWriter where
  Addr : List String
  Topic : String
  Balancer : String
  RequiredAcks : Int
  Async : Bool
  deriving DecidableEq, Repr

/-- A `*slog.Logger` handle. -/
structure Logger where
  handle : Nat
  deriving DecidableEq, Repr

/-- Level of a log call. -/
inductive Level where
  | info
  | warn
  | error
  deriving DecidableEq, Repr

/-- A `slog.Attr` built by `slog.String` or `slog.Int`. -/
inductive Attr where
  | String (key value : String)
  | Int (key : String) (value : Int)
  deriving DecidableEq, Repr

/-- One observable effect. -/
inductive Effect where
  | write (w : KafkaWriter) (ctx : Context) (msg : Message)
  | sleep (d : Int)
  | save (ctx : Context) (ev : FailedEvent)
  | log (lvl : Level) (msg : String) (attrs : List Attr)
  | close (w : KafkaWriter)
  deriving DecidableEq, Repr

/-- Behaviour of what lies outside the repository. -/
structure Env where
  /-- Value returned by the `k`-th call of `uuid.New()`. -/
  uuidNew : Nat → UUID
  /-- Value returned by the `k`-th call of `time.Now()`. -/
  timeNow : Nat → Time
  /-- The function `json.Marshal` on a `domain.UserEvent`. -/
  jsonMarshal : UserEvent → Except GoError String
  /-- Result of the `k`-th call of `(*kafka.Writer).WriteMessages`. -/
  WriteMessages : KafkaWriter → Nat → Context → Message → Option GoError
  /-- Result of `(*kafka.Writer).Close`. -/
  WriterClose : KafkaWriter → Option GoError
  /-- The function `strings.ToLower` (Unicode lower-casing). -/
  stringsToLower : String → String

/-- Mutable state: how often each collaborator has been called, and the trace
of effects, oldest first. -/
structure State where
  uuidCalls : Nat
  nowCalls : Nat
  writeCalls : Nat
  saveCalls : Nat
  trace : List Effect
  deriving DecidableEq, Repr

/-- The initial state: nothing has happened. -/
def State.init : State := ⟨0, 0, 0, 0, []⟩

/-- The transport writes recorded in a trace. -/
def writesOf : List Effect → List Message
  | [] => []
  | .write _ _ m :: t => m :: writesOf t
  | _ :: t => writesOf t

/-- The sleeps recorded in a trace. -/
def sleepsOf : List Effect → List Int
  | [] => []
  | .sleep d :: t => d :: sleepsOf t
  | _ :: t => sleepsOf t

/-- The dead-letter records handed to `Save`, as recorded in a trace. -/
def savesOf : List Effect → List FailedEvent
  | [] => []
  | .save _ ev :: t => ev :: savesOf t
  | _ :: t => savesOf t

/-- Call of `uuid.New()`. -/
def uuidNew (env : Env) (s : State) : UUID × State :=
  (env.uuidNew s.uuidCalls, { s with uuidCalls := s.uuidCalls + 1 })

/-- Call of `time.Now()`. -/
def timeNow (env : Env) (s : State) : Time × State :=
  (env.timeNow s.nowCalls, { s with nowCalls := s.nowCalls + 1 })

/-- Call of a logger method. -/
def logCall (lvl : Level) (msg : String) (attrs : List Attr) (s : State) : State :=
  { s with trace := s.trace ++ [Effect.log lvl msg attrs] }

/-- Call of `time.Sleep(d)`. -/
def timeSleep (d : Int) (s : State) : State :=
  { s with trace := s.trace ++ [Effect.sleep d] }

/-- Call of `writer.WriteMessages(ctx, msg)`. -/
def writeMessages (env : Env) (w : KafkaWriter) (ctx : Context) (msg : Message)
    (s : State) : Option GoError × State :=
  (env.WriteMessages w s.writeCalls ctx msg,
    { s with writeCalls := s.writeCalls + 1, trace := s.trace ++ [Effect.write w ctx msg] })

/-- Call of `failedEventRepo.Save(ctx, event)`. -/
def repoSave (repo : FailedEventRepository) (ctx : Context) (ev : FailedEvent)
    (s : State) : Option GoError × State :=
  (repo.Save s.saveCalls ctx ev,
    { s with saveCalls := s.saveCalls + 1, trace := s.trace ++ [Effect.save ctx ev] })

/-! ## `internal/notifier/kafka.go` -/

def maxRetries : Nat := 3
def initialDelay : Int := 1 * Second
def backoffFactor : Int := 2

structure KafkaNotifier where
  writer : KafkaWriter
  logger : Logger
  failedEventRepo : FailedEventRepository

/-- `strings.Split(s, ",")` for the one-byte separator used by the notifier. -/
def stringsSplit (s : String) (sep : String) : List String :=
  s.splitOn sep

/-- The constructor of the notifier. `Addr` holds the arguments given to
`kafka.TCP`, as they are: what the library makes of an address without a port
is not modelled. -/
def NewKafkaNotifier (brokers topic : String) (logger : Logger)
    (failedEventRepo : FailedEventRepository) (s : State) : KafkaNotifier × State :=
  let writer : KafkaWriter :=
    { Addr := stringsSplit brokers ","
      Topic := topic
      Balancer := "Hash"
      RequiredAcks := 1
      Async := false }
  let s1 := logCall Level.info "kafka notifier initialized"
    [Attr.String "brokers" brokers, Attr.String "topic" topic] s
  ({ writer := writer, logger := logger, failedEventRepo := failedEventRepo }, s1)

/-- `saveToDLQ`, with the package constant `maxRetries` passed as `limit`.
A nil `lastErr` makes `lastErr.Error()` panic. -/
def saveToDLQWith (limit : Nat) (env : Env) (n : KafkaNotifier) (ctx : Context)
    (event : UserEvent) (payload : String) (lastErr : Option GoError) (s : State) :
    Outcome Unit × State :=
  match lastErr with
  | none => (Outcome.panic "nil pointer dereference", s)
  | some le =>
    let (createdAt, s1) := timeNow env s
    let (lastError, s2) := timeNow env s1
    let failedEvent : FailedEvent :=
      { ID := UUID.Nil
        EventID := event.EventID
        EventType := event.EventType
        UserID := event.Data.UserID
        Payload := payload
        Error := le.Error
        Attempts := (limit : Int)
        CreatedAt := createdAt.UTC
        LastError := lastError.UTC }
    let (err, s3) := repoSave n.failedEventRepo ctx failedEvent s2
    match err with
    | some e =>
      (Outcome.ret (), logCall Level.error "failed to save event to DLQ"
        [Attr.String "event_id" event.EventID.String,
         Attr.String "event_type" event.EventType,
         Attr.String "user_id" event.Data.UserID.String,
         Attr.String "error" e.Error] s3)
    | none =>
      (Outcome.ret (), logCall Level.warn "event saved to DLQ"
        [Attr.String "event_id" event.EventID.String,
         Attr.String "event_type" event.EventType,
         Attr.String "user_id" event.Data.UserID.String,
         Attr.Int "attempts" (limit : Int)] s3)

def saveToDLQ (env : Env) (n : KafkaNotifier) (ctx : Context)
    (event : UserEvent) (payload : String) (lastErr : Option GoError) (s : State) :
    Outcome Unit × State :=
  saveToDLQWith maxRetries env n ctx event payload lastErr s

/-- The retry loop of `publish` and what follows it:
`for attempt := 1; attempt <= limit; attempt++ { ... }; n.saveToDLQ(...); return nil`.
The list holds the values `attempt` still has to take; `delay` and `lastErr`
are the loop-carried variables. -/
def publishLoop (limit : Nat) (env : Env) (n : KafkaNotifier) (ctx : Context)
    (event : UserEvent) (payload : String) (msg : Message) :
    List Nat → Int → Option GoError → State → Outcome (Option GoError) × State
  | [], _, lastErr, s =>
    match saveToDLQWith limit env n ctx event payload lastErr s with
    | (Outcome.panic r, s1) => (Outcome.panic r, s1)
    | (Outcome.ret _, s1) => (Outcome.ret none, s1)
  | attempt :: rest, delay, _, s =>
    match writeMessages env n.writer ctx msg s with
    | (none, s1) =>
      (Outcome.ret none, logCall Level.info "event published"
        [Attr.String "event_id" event.EventID.String,
         Attr.String "event_type" event.EventType,
         Attr.String "user_id" event.Data.UserID.String] s1)
    | (some err, s1) =>
      let s2 := logCall Level.error "failed to publish event"
        [Attr.String "event_type" event.EventType,
         Attr.String "user_id" event.Data.UserID.String,
         Attr.Int "attempt" (attempt : Int),
         Attr.String "error" err.Error] s1
      if attempt < limit then
        publishLoop limit env n ctx event payload msg rest
          (wrapInt64 (delay * backoffFactor)) (some err) (timeSleep delay s2)
      else
        publishLoop limit env n ctx event payload msg rest delay (some err) s2

/-- `publish`, with the package constant `maxRetries` passed as `limit`. -/
def publishWith (limit : Nat) (env : Env) (n : KafkaNotifier) (ctx : Context)
    (eventType : EventType) (userID : UUID) (s : State) :
    Outcome (Option GoError) × State :=
  let (eventID, s1) := uuidNew env s
  let (now, s2) := timeNow env s1
  let event : UserEvent :=
    { EventID := eventID
      EventType := eventType
      Timestamp := now.UTC
      Data := { UserID := userID } }
  match env.jsonMarshal event with
  | Except.error err =>
    (Outcome.ret none, logCall Level.error "failed to marshal event"
      [Attr.String "event_type" eventType,
       Attr.String "user_id" userID.String,
       Attr.String "error" err.Error] s2)
  | Except.ok payload =>
    let msg : Message :=
      { Key := userID.String
        Value := payload
        Headers := [⟨"content-type", "application/json"⟩, ⟨"event-type", eventType⟩] }
    publishLoop limit env n ctx event payload msg (List.range' 1 limit) initialDelay none s2

def KafkaNotifier.publish (env : Env) (n : KafkaNotifier) (ctx : Context)
    (eventType : EventType) (userID : UUID) (s : State) :
    Outcome (Option GoError) × State :=
  publishWith maxRetries env n ctx eventType userID s

def KafkaNotifier.NotifyCreated (env : Env) (n : KafkaNotifier) (ctx : Context)
    (userID : UUID) (s : State) : Outcome (Option GoError) × State :=
  n.publish env ctx EventTypeUserCreated userID s

def KafkaNotifier.NotifyUpdated (env : Env) (n : KafkaNotifier) (ctx : Context)
    (userID : UUID) (s : State) : Outcome (Option GoError) × State :=
  n.publish env ctx EventTypeUserUpdated userID s

def KafkaNotifier.NotifyDeleted (env : Env) (n : KafkaNotifier) (ctx : Context)
    (userID : UUID) (s : State) : Outcome (Option GoError) × State :=
  n.publish env ctx EventTypeUserDeleted userID s

def KafkaNotifier.Close (env : Env) (n : KafkaNotifier) (s : State) :
    Outcome (Option GoError) × State :=
  (Outcome.ret (env.WriterClose n.writer),
    { s with trace := s.trace ++ [Effect.close n.writer] })

/-! ## `internal/notifier/noop.go` -/

structure NoopNotifier where
  logger : Logger
  deriving DecidableEq, Repr

def NewNoopNotifier (logger : Logger) (s : State) : NoopNotifier × State :=
  ({ logger := logger },
    logCall Level.info "notifications disabled: KAFKA_BROKERS not configured" [] s)

def NoopNotifier.NotifyCreated (_n : NoopNotifier) (_ctx : Context) (_userID : UUID)
    (s : State) : Outcome (Option GoError) × State :=
  (Outcome.ret none, s)

def NoopNotifier.NotifyUpdated (_n : NoopNotifier) (_ctx : Context) (_userID : UUID)
    (s : State) : Outcome (Option GoError) × State :=
  (Outcome.ret none, s)

def NoopNotifier.NotifyDeleted (_n : NoopNotifier) (_ctx : Context) (_userID : UUID)
    (s : State) : Outcome (Option GoError) × State :=
  (Outcome.ret none, s)

def NoopNotifier.Close (_n : NoopNotifier) (s : State) : Outcome (Option GoError) × State :=
  (Outcome.ret none, s)

/-! ## `internal/config/config.go` and `internal/notifier/factory.go` -/

/-- Modelled from the spec: the fields `KafkaBrokers` (the transport endpoint;
empty when none is configured) and `KafkaTopic`, two strings that `NewNotifier`
reads and that the declaration of `config.Config` in `config.go` lacks. The
other fields are those of `config.Config`; durations are in nanoseconds. -/
structure Config where
  Port : String
  DatabaseURL : String
  LogLevel : String
  ReadTimeout : Int
  WriteTimeout : Int
  KafkaBrokers : String
  KafkaTopic : String
  deriving DecidableEq, Repr

/-- A value of the interface `domain.UserNotifier` built by this package: its
dynamic type is `*NoopNotifier` or `*KafkaNotifier`. -/
inductive Notifier where
  | noop (n : NoopNotifier)
  | kafka (n : KafkaNotifier)

def NewNotifier (cfg : Config) (logger : Logger) (failedEventRepo : FailedEventRepository)
    (s : State) : Notifier × State :=
  if cfg.KafkaBrokers = "" then
    let (n, s1) := NewNoopNotifier logger s
    (Notifier.noop n, s1)
  else
    let (n, s1) := NewKafkaNotifier cfg.KafkaBrokers cfg.KafkaTopic logger failedEventRepo s
    (Notifier.kafka n, s1)

/-- Method dispatch of the interface value. -/
def Notifier.NotifyCreated (env : Env) (n : Notifier) (ctx : Context) (userID : UUID)
    (s : State) : Outcome (Option GoError) × State :=
  match n with
  | Notifier.noop x => x.NotifyCreated ctx userID s
  | Notifier.kafka x => x.NotifyCreated env ctx userID s

def Notifier.NotifyUpdated (env : Env) (n : Notifier) (ctx : Context) (userID : UUID)
    (s : State) : Outcome (Option GoError) × State :=
  match n with
  | Notifier.noop x => x.NotifyUpdated ctx userID s
  | Notifier.kafka x => x.NotifyUpdated env ctx userID s

def Notifier.NotifyDeleted (env : Env) (n : Notifier) (ctx : Context) (userID : UUID)
    (s : State) : Outcome (Option GoError) × State :=
  match n with
  | Notifier.noop x => x.NotifyDeleted ctx userID s
  | Notifier.kafka x => x.NotifyDeleted env ctx userID s

/-! ## `internal/domain/user.go` -/

/-- Go: `type UserStatus string`. -/
abbrev UserStatus := String

def UserStatusActive : UserStatus := "active"
def UserStatusInactive : UserStatus := "inactive"
def UserStatusSuspended : UserStatus := "suspended"

/-- The zero value of `time.Time`: 1 January of year 1, 00:00 UTC. -/
def Time.zero : Time := ⟨-62135596800 * 1000000000, Location.utc⟩

structure User where
  ID : UUID
  Email : String
  FirstName : String
  LastName : String
  Status : UserStatus
  CreatedAt : Time
  UpdatedAt : Time
  deriving DecidableEq, Repr

structure CreateUserRequest where
  Email : String
  FirstName : String
  LastName : String
  deriving DecidableEq, Repr

structure UpdateUserRequest where
  Email : Option String
  FirstName : Option String
  LastName : Option String
  Status : Option UserStatus
  deriving DecidableEq, Repr

structure Pagination where
  Total : Int
  Limit : Int
  Offset : Int
  deriving DecidableEq, Repr

structure UserList where
  Data : List User
  Pagination : Pagination
  deriving DecidableEq, Repr

/-- The interface `domain.UserRepository`, over a repository state `ρ`. A
method that takes a `*User` and may write through it returns the pointee as it
is after the call; values cross the interface by copy. -/
structure UserRepository (ρ : Type) where
  Create : Context → User → ρ → (User × Option GoError) × ρ
  GetByID : Context → UUID → ρ → (Option User × Option GoError) × ρ
  GetByEmail : Context → String → ρ → (Option User × Option GoError) × ρ
  List : Context → Int → Int → ρ → (List User × Int × Option GoError) × ρ
  Update : Context → User → ρ → (User × Option GoError) × ρ
  Delete : Context → UUID → ρ → Option GoError × ρ

/-- The interface `domain.UserNotifier`, over a notifier state `ν`. An
implementation may return an error or panic. -/
structure UserNotifier (ν : Type) where
  NotifyCreated : Context → UUID → ν → Outcome (Option GoError) × ν
  NotifyUpdated : Context → UUID → ν → Outcome (Option GoError) × ν
  NotifyDeleted : Context → UUID → ν → Outcome (Option GoError) × ν
  Close : ν → Outcome (Option GoError) × ν

/-! ## `internal/service/user.go` -/

/-- The predicate `unicode.IsSpace`. -/
def unicodeIsSpace (c : Char) : Bool :=
  let n := c.toNat
  (0x09 ≤ n && n ≤ 0x0D) || n == 0x20 || n == 0x85 || n == 0xA0 || n == 0x1680 ||
    (0x2000 ≤ n && n ≤ 0x200A) || n == 0x2028 || n == 0x2029 || n == 0x202F ||
    n == 0x205F || n == 0x3000

/-- The function `strings.TrimSpace`. -/
def stringsTrimSpace (s : String) : String :=
  String.mk ((s.toList.dropWhile unicodeIsSpace).reverse.dropWhile unicodeIsSpace).reverse

/-- The function `strings.Contains`. -/
def stringsContains (s substr : String) : Bool :=
  s.toList.tails.any (fun t => substr.toList.isPrefixOf t)

/-- Go `len(s)`: the number of bytes of the string. -/
def goLen (s : String) : Nat := s.utf8ByteSize

def validateEmail (email : String) : Option GoError :=
  if email = "" then some GoError.ErrInvalidInput
  else if goLen email > 255 then some GoError.ErrInvalidInput
  else if !stringsContains email "@" || !stringsContains email "." then
    some GoError.ErrInvalidInput
  else none

def validateName (name : String) (_field : String) : Option GoError :=
  if name = "" then some GoError.ErrInvalidInput
  else if goLen name > 100 then some GoError.ErrInvalidInput
  else none

def validateStatus (status : UserStatus) : Option GoError :=
  if status = UserStatusActive ∨ status = UserStatusInactive ∨ status = UserStatusSuspended then
    none
  else some GoError.ErrInvalidInput

structure UserService (ρ ν : Type) where
  repo : UserRepository ρ
  notifier : UserNotifier ν

def NewUserService {ρ ν : Type} (repo : UserRepository ρ) (notifier : UserNotifier ν) :
    UserService ρ ν :=
  { repo := repo, notifier := notifier }

/-- Reason of the panic raised by a read or write through a nil pointer. -/
def nilDereference : String := "invalid memory address or nil pointer dereference"

/-- Control flow inside a function body: the function has returned with `r`,
or execution goes on with `v`. -/
inductive Flow (α β : Type) where
  | done (r : α)
  | next (v : β)

def UserService.Create {ρ ν : Type} (env : Env) (svc : UserService ρ ν) (ctx : Context)
    (req : CreateUserRequest) (st : ρ × ν) :
    Outcome (Option User × Option GoError) × (ρ × ν) :=
  let email := stringsTrimSpace (env.stringsToLower req.Email)
  let firstName := stringsTrimSpace req.FirstName
  let lastName := stringsTrimSpace req.LastName
  match validateEmail email with
  | some err => (Outcome.ret (none, some err), st)
  | none =>
  match validateName firstName "firstName" with
  | some err => (Outcome.ret (none, some err), st)
  | none =>
  match validateName lastName "lastName" with
  | some err => (Outcome.ret (none, some err), st)
  | none =>
  match svc.repo.GetByEmail ctx email st.1 with
  | ((existingUser, err), r1) =>
    if err.isSome && !errorsIs err GoError.ErrUserNotFound then
      (Outcome.ret (none, err), (r1, st.2))
    else if existingUser.isSome then
      (Outcome.ret (none, some GoError.ErrEmailExists), (r1, st.2))
    else
      let user : User :=
        { ID := UUID.Nil
          Email := email
          FirstName := firstName
          LastName := lastName
          Status := UserStatusActive
          CreatedAt := Time.zero
          UpdatedAt := Time.zero }
      match svc.repo.Create ctx user r1 with
      | ((_, some err), r2) => (Outcome.ret (none, some err), (r2, st.2))
      | ((user1, none), r2) =>
        match svc.notifier.NotifyCreated ctx user1.ID st.2 with
        | (Outcome.panic p, n1) => (Outcome.panic p, (r2, n1))
        | (Outcome.ret _, n1) => (Outcome.ret (some user1, none), (r2, n1))

def UserService.GetByID {ρ ν : Type} (svc : UserService ρ ν) (ctx : Context) (id : UUID)
    (st : ρ × ν) : Outcome (Option User × Option GoError) × (ρ × ν) :=
  match svc.repo.GetByID ctx id st.1 with
  | (res, r1) => (Outcome.ret res, (r1, st.2))

def UserService.List {ρ ν : Type} (svc : UserService ρ ν) (ctx : Context) (limit offset : Int)
    (st : ρ × ν) : Outcome (Option UserList × Option GoError) × (ρ × ν) :=
  let limit1 := if limit ≤ 0 then 20 else limit
  let limit2 := if limit1 > 100 then 100 else limit1
  let offset1 := if offset < 0 then 0 else offset
  match svc.repo.List ctx limit2 offset1 st.1 with
  | ((_, _, some err), r1) => (Outcome.ret (none, some err), (r1, st.2))
  | ((users, total, none), r1) =>
    (Outcome.ret (some { Data := users
                         Pagination := { Total := total, Limit := limit2, Offset := offset1 } },
        none), (r1, st.2))

/-- `Update`. When `GetByID` returns a nil user together with a nil error, the
first read or write through `user` panics; both repositories of this code base
read `user` at once in their `Update`, so a nil `user` that reaches
`repo.Update` is a panic as well. -/
def UserService.Update {ρ ν : Type} (env : Env) (svc : UserService ρ ν) (ctx : Context)
    (id : UUID) (req : UpdateUserRequest) (st : ρ × ν) :
    Outcome (Option User × Option GoError) × (ρ × ν) :=
  match svc.repo.GetByID ctx id st.1 with
  | ((_, some err), r1) => (Outcome.ret (none, some err), (r1, st.2))
  | ((user0, none), r1) =>
  let emailBlock : Flow (Outcome (Option User × Option GoError) × ρ) (Option User × ρ) :=
    match req.Email with
    | none => Flow.next (user0, r1)
    | some reqEmail =>
      let email := stringsTrimSpace (env.stringsToLower reqEmail)
      match validateEmail email with
      | some err => Flow.done (Outcome.ret (none, some err), r1)
      | none =>
        match user0 with
        | none => Flow.done (Outcome.panic nilDereference, r1)
        | some u =>
          if email ≠ u.Email then
            match svc.repo.GetByEmail ctx email r1 with
            | ((existingUser, err), r2) =>
              if err.isSome && !errorsIs err GoError.ErrUserNotFound then
                Flow.done (Outcome.ret (none, err), r2)
              else if existingUser.isSome then
                Flow.done (Outcome.ret (none, some GoError.ErrEmailExists), r2)
              else Flow.next (some { u with Email := email }, r2)
          else Flow.next (some u, r1)
  match emailBlock with
  | Flow.done (out, r) => (out, (r, st.2))
  | Flow.next (user1, r2) =>
  let firstNameBlock : Flow (Outcome (Option User × Option GoError)) (Option User) :=
    match req.FirstName with
    | none => Flow.next user1
    | some reqFirstName =>
      let firstName := stringsTrimSpace reqFirstName
      match validateName firstName "firstName" with
      | some err => Flow.done (Outcome.ret (none, some err))
      | none =>
        match user1 with
        | none => Flow.done (Outcome.panic nilDereference)
        | some u => Flow.next (some { u with FirstName := firstName })
  match firstNameBlock with
  | Flow.done out => (out, (r2, st.2))
  | Flow.next user2 =>
  let lastNameBlock : Flow (Outcome (Option User × Option GoError)) (Option User) :=
    match req.LastName with
    | none => Flow.next user2
    | some reqLastName =>
      let lastName := stringsTrimSpace reqLastName
      match validateName lastName "lastName" with
      | some err => Flow.done (Outcome.ret (none, some err))
      | none =>
        match user2 with
        | none => Flow.done (Outcome.panic nilDereference)
        | some u => Flow.next (some { u with LastName := lastName })
  match lastNameBlock with
  | Flow.done out => (out, (r2, st.2))
  | Flow.next user3 =>
  let statusBlock : Flow (Outcome (Option User × Option GoError)) (Option User) :=
    match req.Status with
    | none => Flow.next user3
    | some status =>
      match validateStatus status with
      | some err => Flow.done (Outcome.ret (none, some err))
      | none =>
        match user3 with
        | none => Flow.done (Outcome.panic nilDereference)
        | some u => Flow.next (some { u with Status := status })
  match statusBlock with
  | Flow.done out => (out, (r2, st.2))
  | Flow.next user4 =>
  match user4 with
  | none => (Outcome.panic nilDereference, (r2, st.2))
  | some u4 =>
    match svc.repo.Update ctx u4 r2 with
    | ((_, some err), r3) => (Outcome.ret (none, some err), (r3, st.2))
    | ((user5, none), r3) =>
      match svc.notifier.NotifyUpdated ctx user5.ID st.2 with
      | (Outcome.panic p, n1) => (Outcome.panic p, (r3, n1))
      | (Outcome.ret _, n1) => (Outcome.ret (some user5, none), (r3, n1))

def UserService.Delete {ρ ν : Type} (svc : UserService ρ ν) (ctx : Context) (id : UUID)
    (st : ρ × ν) : Outcome (Option GoError) × (ρ × ν) :=
  match svc.repo.Delete ctx id st.1 with
  | (some err, r1) => (Outcome.ret (some err), (r1, st.2))
  | (none, r1) =>
    match svc.notifier.NotifyDeleted ctx id st.2 with
    | (Outcome.panic p, n1) => (Outcome.panic p, (r1, n1))
    | (Outcome.ret _, n1) => (Outcome.ret none, (r1, n1))

/-- The Kafka notifier as a value of the interface `domain.UserNotifier`. -/
def KafkaNotifier.toUserNotifier (env : Env) (n : KafkaNotifier) : UserNotifier State :=
  { NotifyCreated := fun ctx id s => n.NotifyCreated env ctx id s
    NotifyUpdated := fun ctx id s => n.NotifyUpdated env ctx id s
    NotifyDeleted := fun ctx id s => n.NotifyDeleted env ctx id s
    Close := fun s => n.Close env s }

/-- The no-op notifier as a value of the interface `domain.UserNotifier`. -/
def NoopNotifier.toUserNotifier (n : NoopNotifier) : UserNotifier State :=
  { NotifyCreated := fun ctx id s => n.NotifyCreated ctx id s
    NotifyUpdated := fun ctx id s => n.NotifyUpdated ctx id s
    NotifyDeleted := fun ctx id s => n.NotifyDeleted ctx id s
    Close := fun s => n.Close s }

/-! ## Test doubles used to evaluate the model -/

/-- A dead-letter store whose `Save` always succeeds. -/
def okRepo : FailedEventRepository := ⟨fun _ _ _ => none⟩

/-- A dead-letter store whose `Save` always fails (as in
`TestKafkaNotifier_DLQSaveError_LogsButDoesNotPanic`). -/
def failingRepo : FailedEventRepository := ⟨fun _ _ _ => some (GoError.other "database error")⟩

/-- An environment whose marshaller returns a fixed payload and whose
transport answers the `k`-th write with `script k`. -/
def scriptedEnv (script : Nat → Option GoError) : Env :=
  { uuidNew := fun k => UUID.ofNat (k + 1)
    timeNow := fun k => ⟨(k : Int), Location.zone "CET" 3600⟩
    jsonMarshal := fun _ => Except.ok "payload"
    WriteMessages := fun _ k _ _ => script k
    WriterClose := fun _ => none
    stringsToLower := fun x => x.map Char.toLower }

/-- An environment in which `json.Marshal` fails. -/
def brokenMarshalEnv : Env :=
  { uuidNew := fun k => UUID.ofNat (k + 1)
    timeNow := fun k => ⟨(k : Int), Location.utc⟩
    jsonMarshal := fun _ => Except.error (GoError.other "unsupported value")
    WriteMessages := fun _ _ _ _ => none
    WriterClose := fun _ => none
    stringsToLower := fun x => x.map Char.toLower }

/-- An environment whose transport honours the context: a write under a
cancelled context fails with the context's error, any other write succeeds. -/
def ctxAwareEnv : Env :=
  { uuidNew := fun k => UUID.ofNat (k + 1)
    timeNow := fun k => ⟨(k : Int), Location.utc⟩
    jsonMarshal := fun _ => Except.ok "payload"
    WriteMessages := fun _ _ ctx _ =>
      if ctx.done then some (GoError.other "context canceled") else none
    WriterClose := fun _ => none
    stringsToLower := fun x => x.map Char.toLower }

/-- A context that has been cancelled. -/
def cancelledCtx : Context := ⟨true, none⟩

/-- ASCII lower-casing, character by character. -/
def asciiToLower (s : String) : String :=
  String.mk (s.toList.map Char.toLower)

/-- An environment for running the service: lower-casing is ASCII
lower-casing, and the transport accepts every write. -/
def serviceEnv : Env :=
  { uuidNew := fun k => UUID.ofNat (k + 1)
    timeNow := fun k => ⟨(k : Int), Location.utc⟩
    jsonMarshal := fun _ => Except.ok "payload"
    WriteMessages := fun _ _ _ _ => none
    WriterClose := fun _ => none
    stringsToLower := asciiToLower }

/-- A notifier value with an empty writer configuration. -/
def testNotifier (repo : FailedEventRepository) : KafkaNotifier :=
  { writer := ⟨["localhost:9092"], "user-events", "Hash", 1, false⟩
    logger := ⟨0⟩
    failedEventRepo := repo }

/-- An in-memory user repository, after `mockUserRepository` of
`service/user_test.go`: the state is the list of stored users, and `Create`
gives the new user the next unused number as ID. -/
def memRepo : UserRepository (List User) :=
  { Create := fun _ user us =>
      let u : User := { user with ID := UUID.ofNat (us.length + 1) }
      ((u, none), us ++ [u])
    GetByID := fun _ id us =>
      match us.find? (fun u => u.ID = id) with
      | some u => ((some u, none), us)
      | none => ((none, some GoError.ErrUserNotFound), us)
    GetByEmail := fun _ email us =>
      match us.find? (fun u => u.Email = email) with
      | some u => ((some u, none), us)
      | none => ((none, some GoError.ErrUserNotFound), us)
    List := fun _ limit offset us =>
      (((us.drop offset.toNat).take limit.toNat, (us.length : Int), none), us)
    Update := fun _ user us =>
      if us.any (fun u => u.ID = user.ID) then
        ((user, none), us.map (fun u => if u.ID = user.ID then user else u))
      else ((user, some GoError.ErrUserNotFound), us)
    Delete := fun _ id us =>
      if us.any (fun u => u.ID = id) then (none, us.filter (fun u => u.ID ≠ id))
      else (some GoError.ErrUserNotFound, us) }

/-- A notifier whose operations all return an error; its state counts the
calls. -/
def erroringNotifier : UserNotifier Nat :=
  { NotifyCreated := fun _ _ k => (Outcome.ret (some (GoError.other "broker down")), k + 1)
    NotifyUpdated := fun _ _ k => (Outcome.ret (some (GoError.other "broker down")), k + 1)
    NotifyDeleted := fun _ _ k => (Outcome.ret (some (GoError.other "broker down")), k + 1)
    Close := fun k => (Outcome.ret none, k) }

/-- A notifier that does nothing and returns nil. -/
def silentNotifier : UserNotifier Unit :=
  { NotifyCreated := fun _ _ u => (Outcome.ret none, u)
    NotifyUpdated := fun _ _ u => (Outcome.ret none, u)
    NotifyDeleted := fun _ _ u => (Outcome.ret none, u)
    Close := fun u => (Outcome.ret none, u) }


/-! ## Vocabulary for stating properties -/

/-- The effects appended to the trace between two states. -/
def newEffects (before after : State) : List Effect :=
  after.trace.drop before.trace.length

/-- The envelope `publish` builds when it is entered in state `s`. -/
def envelopeAt (env : Env) (s : State) (eventType : EventType) (userID : UUID) : UserEvent :=
  { EventID := env.uuidNew s.uuidCalls
    EventType := eventType
    Timestamp := (env.timeNow s.nowCalls).UTC
    Data := { UserID := userID } }

/-- The message `publish` builds for a serialized payload. -/
def messageFor (eventType : EventType) (userID : UUID) (payload : String) : Message :=
  { Key := userID.String
    Value := payload
    Headers := [⟨"content-type", "application/json"⟩, ⟨"event-type", eventType⟩] }

/-- Whether an effect is a log call. -/
def Effect.isLog : Effect → Bool
  | Effect.log _ _ _ => true
  | _ => false

/-- The effects of a trace that are not log calls: writes, sleeps and saves,
in the order in which they happened. -/
def ioOf (l : List Effect) : List Effect :=
  l.filter (fun e => !e.isLog)

/-- The log call `publish` makes after a failed attempt. -/
def attemptFailedLog (eventType : EventType) (userID : UUID) (attempt : Nat) (err : GoError) :
    Effect :=
  Effect.log Level.error "failed to publish event"
    [Attr.String "event_type" eventType,
     Attr.String "user_id" userID.String,
     Attr.Int "attempt" (attempt : Int),
     Attr.String "error" err.Error]

/-- The log call `publish` makes after a successful attempt. -/
def publishedLog (eventID : UUID) (eventType : EventType) (userID : UUID) : Effect :=
  Effect.log Level.info "event published"
    [Attr.String "event_id" eventID.String,
     Attr.String "event_type" eventType,
     Attr.String "user_id" userID.String]

/-- The dead-letter record `publish` hands to `Save` after the last failure
`lastErr`, when `publish` was entered in state `s` and serialized the envelope
to `payload`. -/
def dlqRecordAt (env : Env) (s : State) (eventType : EventType) (userID : UUID)
    (payload : String) (lastErr : GoError) : FailedEvent :=
  { ID := UUID.Nil
    EventID := (envelopeAt env s eventType userID).EventID
    EventType := (envelopeAt env s eventType userID).EventType
    UserID := (envelopeAt env s eventType userID).Data.UserID
    Payload := payload
    Error := lastErr.Error
    Attempts := 3
    CreatedAt := (env.timeNow (s.nowCalls + 1)).UTC
    LastError := (env.timeNow (s.nowCalls + 2)).UTC }

/-- The log call `saveToDLQ` makes after `Save` has returned `saveErr`. -/
def dlqLog (event : UserEvent) (saveErr : Option GoError) : Effect :=
  match saveErr with
  | some e =>
    Effect.log Level.error "failed to save event to DLQ"
      [Attr.String "event_id" event.EventID.String,
       Attr.String "event_type" event.EventType,
       Attr.String "user_id" event.Data.UserID.String,
       Attr.String "error" e.Error]
  | none =>
    Effect.log Level.warn "event saved to DLQ"
      [Attr.String "event_id" event.EventID.String,
       Attr.String "event_type" event.EventType,
       Attr.String "user_id" event.Data.UserID.String,
       Attr.Int "attempts" 3]

/-- A notifier whose three notify operations always return (with or without an
error) rather than panic. -/
def UserNotifier.Returns {ν : Type} (n : UserNotifier ν) : Prop :=
  ∀ (ctx : Context) (id : UUID) (x : ν),
    (∃ e, (n.NotifyCreated ctx id x).1 = Outcome.ret e) ∧
    (∃ e, (n.NotifyUpdated ctx id x).1 = Outcome.ret e) ∧
    (∃ e, (n.NotifyDeleted ctx id x).1 = Outcome.ret e)

/-- A run started in state `s` has published the event type `eventType` for
`userID`: every message it wrote carries `eventType` in the `event-type` header
and has as value the serialization of an envelope with that event type and with
`userID` as `Data.UserID`; every dead-letter record it saved carries that event
type and user ID; and if the envelope serializes, at least one message was
written. -/
def PublishedAs (env : Env) (s : State) (run : Outcome (Option GoError) × State)
    (eventType : EventType) (userID : UUID) : Prop :=
  (∀ m ∈ writesOf (newEffects s run.2),
    m.Headers = [⟨"content-type", "application/json"⟩, ⟨"event-type", eventType⟩] ∧
    ∃ e : UserEvent, e.EventType = eventType ∧ e.Data.UserID = userID ∧
      env.jsonMarshal e = Except.ok m.Value) ∧
  (∀ r ∈ savesOf (newEffects s run.2), r.EventType = eventType ∧ r.UserID = userID) ∧
  ((∃ payload, env.jsonMarshal (envelopeAt env s eventType userID) = Except.ok payload) →
    writesOf (newEffects s run.2) ≠ [])

/-- The delays of `j` successive backoff sleeps that start at `d`: each is the
previous one times `backoffFactor`, in 64-bit arithmetic. -/
def backoffDelays : Nat → Int → List Int
  | 0, _ => []
  | j + 1, d => d :: backoffDelays j (wrapInt64 (d * backoffFactor))

/-- Writes of one message separated by sleeps of the given delays: one write
more than there are delays, and no sleep after the last write. -/
def writesSeparatedBy (w : KafkaWriter) (ctx : Context) (msg : Message) : List Int → List Effect
  | [] => [Effect.write w ctx msg]
  | d :: ds => Effect.write w ctx msg :: Effect.sleep d :: writesSeparatedBy w ctx msg ds

/-- The effects of the retry loop while every attempt fails: for each value
of `attempt` in the list a write, the log call for the failure, and a sleep
unless `attempt` has reached `limit`. `k` is the number of the write and `d`
the current delay. -/
def failedAttempts (limit : Nat) (w : KafkaWriter) (ctx : Context) (msg : Message)
    (eventType : EventType) (userID : UUID) (errs : Nat → GoError) :
    List Nat → Nat → Int → List Effect
  | [], _, _ => []
  | a :: rest, k, d =>
    Effect.write w ctx msg :: attemptFailedLog eventType userID a (errs k) ::
      (if a < limit then
        Effect.sleep d ::
          failedAttempts limit w ctx msg eventType userID errs rest (k + 1)
            (wrapInt64 (d * backoffFactor))
      else failedAttempts limit w ctx msg eventType userID errs rest (k + 1) d)

/-- The dead-letter record `publishWith limit` hands to `Save` after the last
failure `lastErr`, when entered in state `s`. -/
def dlqRecordWith (limit : Nat) (env : Env) (s : State) (eventType : EventType) (userID : UUID)
    (payload : String) (lastErr : GoError) : FailedEvent :=
  { ID := UUID.Nil
    EventID := env.uuidNew s.uuidCalls
    EventType := eventType
    UserID := userID
    Payload := payload
    Error := lastErr.Error
    Attempts := (limit : Int)
    CreatedAt := (env.timeNow (s.nowCalls + 1)).UTC
    LastError := (env.timeNow (s.nowCalls + 2)).UTC }

/-- The value of the loop variable `lastErr` after attempts that all failed:
the error of the last one, or the initial value if there was no attempt. `k`
is the number of the next write. -/
def lastErrAfter (errs : Nat → GoError) : List Nat → Nat → Option GoError → Option GoError
  | [], _, le => le
  | _ :: rest, k, _ => lastErrAfter errs rest (k + 1) (some (errs k))

/-- A call of one of the three mutating methods of the user repository:
`Create` and `Update` with the user as the call left it, `Delete` with the ID,
each with the error the call returned. -/
inductive RepoCall where
  | create (after : User) (err : Option GoError)
  | update (after : User) (err : Option GoError)
  | delete (id : UUID) (err : Option GoError)
  deriving DecidableEq, Repr

/-- A call of one of the three notify operations, with the user ID passed. -/
inductive NotifyCall where
  | created (id : UUID)
  | updated (id : UUID)
  | deleted (id : UUID)
  deriving DecidableEq, Repr

/-- The repository `repo` with a log of its mutating calls added to the state:
every method answers and changes the state of `repo` as `repo` does. -/
def recordingRepo {ρ : Type} (repo : UserRepository ρ) : UserRepository (ρ × List RepoCall) :=
  { Create := fun ctx user st =>
      ((repo.Create ctx user st.1).1,
        ((repo.Create ctx user st.1).2,
          st.2 ++ [RepoCall.create (repo.Create ctx user st.1).1.1
            (repo.Create ctx user st.1).1.2]))
    GetByID := fun ctx id st => ((repo.GetByID ctx id st.1).1, ((repo.GetByID ctx id st.1).2, st.2))
    GetByEmail := fun ctx email st =>
      ((repo.GetByEmail ctx email st.1).1, ((repo.GetByEmail ctx email st.1).2, st.2))
    List := fun ctx limit offset st =>
      ((repo.List ctx limit offset st.1).1, ((repo.List ctx limit offset st.1).2, st.2))
    Update := fun ctx user st =>
      ((repo.Update ctx user st.1).1,
        ((repo.Update ctx user st.1).2,
          st.2 ++ [RepoCall.update (repo.Update ctx user st.1).1.1
            (repo.Update ctx user st.1).1.2]))
    Delete := fun ctx id st =>
      ((repo.Delete ctx id st.1).1,
        ((repo.Delete ctx id st.1).2, st.2 ++ [RepoCall.delete id (repo.Delete ctx id st.1).1])) }

/-- A notifier that returns nil and whose state is the log of the calls made
to it. -/
def recordingNotifier : UserNotifier (List NotifyCall) :=
  { NotifyCreated := fun _ id log => (Outcome.ret none, log ++ [NotifyCall.created id])
    NotifyUpdated := fun _ id log => (Outcome.ret none, log ++ [NotifyCall.updated id])
    NotifyDeleted := fun _ id log => (Outcome.ret none, log ++ [NotifyCall.deleted id])
    Close := fun log => (Outcome.ret none, log) }

/-- The notification that belongs to a repository mutation: the operation of
the same name with the ID of the mutated user if the mutation succeeded, none
if it failed. -/
def RepoCall.notification : RepoCall → List NotifyCall
  | RepoCall.create after none => [NotifyCall.created after.ID]
  | RepoCall.update after none => [NotifyCall.updated after.ID]
  | RepoCall.delete id none => [NotifyCall.deleted id]
  | _ => []

/-- The state of the notifier `n` after the given calls, made in order under
the context `ctx`, starting from the state `x`. -/
def notifierAfter {ν : Type} (n : UserNotifier ν) (ctx : Context) : List NotifyCall → ν → ν
  | [], x => x
  | NotifyCall.created id :: rest, x => notifierAfter n ctx rest (n.NotifyCreated ctx id x).2
  | NotifyCall.updated id :: rest, x => notifierAfter n ctx rest (n.NotifyUpdated ctx id x).2
  | NotifyCall.deleted id :: rest, x => notifierAfter n ctx rest (n.NotifyDeleted ctx id x).2

/-! ## The calendar and RFC 3339, as package `time` computes them -/

/-- Offset of a location east of UTC, in seconds. -/
def Location.offset : Location → Int
  | Location.utc => 0
  | Location.zone _ o => o

/-- The method `Time.Unix()`: whole seconds since the Unix epoch. -/
def Time.Unix (t : Time) : Int := t.unixNano / 1000000000

/-- The method `Time.Nanosecond()`: the nanoseconds within the second. -/
def Time.Nanosecond (t : Time) : Nat := (t.unixNano % 1000000000).toNat

/-- Number of the day of `t` in its location, counted from 1 January of
year 1 (day 0). -/
def Time.absDay (t : Time) : Int := (t.Unix + t.loc.offset) / 86400 + 719162

/-- Second of the day of `t` in its location. -/
def Time.secOfDay (t : Time) : Nat := ((t.Unix + t.loc.offset) % 86400).toNat

/-- Year, and day within the year (from 0), of day number `d`: cycles of 400,
100, 4 and 1 years are split off in turn. -/
def civilYearDay (d : Int) : Int × Nat :=
  let n400 := d / 146097
  let r400 := d % 146097
  let n100 := min (r400 / 36524) 3
  let r100 := r400 - n100 * 36524
  let n4 := r100 / 1461
  let r4 := r100 % 1461
  let n1 := min (r4 / 365) 3
  (400 * n400 + 100 * n100 + 4 * n4 + n1 + 1, (r4 - n1 * 365).toNat)

/-- Leap years of the Gregorian calendar. -/
def isLeap (year : Int) : Bool :=
  year % 4 = 0 && (year % 100 ≠ 0 || year % 400 = 0)

/-- Number of days from 1 January of year 1 to 1 January of `year`. -/
def daysBeforeYear (year : Int) : Int :=
  365 * (year - 1) + (year - 1) / 4 - (year - 1) / 100 + (year - 1) / 400

/-- Lengths of the twelve months. -/
def monthDays (leap : Bool) : List Nat :=
  [31, if leap then 29 else 28, 31, 30, 31, 30, 31, 31, 30, 31, 30, 31]

/-- Walk through the months: month and day of the month (both from 1) of the
day `yday` (from 0) counted from the start of month `m`. -/
def monthDayAux : List Nat → Nat → Nat → Nat × Nat
  | [], m, yday => (m, yday + 1)
  | len :: rest, m, yday =>
    if yday < len then (m, yday + 1) else monthDayAux rest (m + 1) (yday - len)

/-- Month and day of the month of the day `yday` of a year. -/
def monthDay (leap : Bool) (yday : Nat) : Nat × Nat :=
  monthDayAux (monthDays leap) 1 yday

/-- Day of the year (from 0) of a month and day of the month. -/
def dayOfYear (leap : Bool) (month day : Nat) : Nat :=
  ((monthDays leap).take (month - 1)).sum + (day - 1)

/-- The method `Time.Date()`: year, month, day in the time's location. -/
def Time.Date (t : Time) : Int × Nat × Nat :=
  let yd := civilYearDay t.absDay
  let md := monthDay (isLeap yd.1) yd.2
  (yd.1, md.1, md.2)

/-- The method `Time.Year()`. -/
def Time.Year (t : Time) : Int := t.Date.1

/-- The method `Time.Clock()`: hour, minute, second in the time's location. -/
def Time.Clock (t : Time) : Nat × Nat × Nat :=
  (t.secOfDay / 3600, t.secOfDay % 3600 / 60, t.secOfDay % 60)

/-- Digits of `n` in base `b`, left-padded with `0` to at least `width`
digits. -/
def padDigits (b width n : Nat) : List Char :=
  List.replicate (width - (Nat.toDigits b n).length) '0' ++ Nat.toDigits b n

/-- The function `appendInt` of package `time`: a minus sign for a negative
number, then its decimal digits padded with zeros to `width`. -/
def appendInt (x : Int) (width : Nat) : List Char :=
  (if x < 0 then ['-'] else []) ++ padDigits 10 width x.natAbs

/-- Drop the zeros at the end of a digit string. -/
def dropTrailingZeros (l : List Char) : List Char :=
  (l.reverse.dropWhile (fun c => c == '0')).reverse

/-- The function `appendNano` for the layout `.999999999`: nothing for zero
nanoseconds, else a dot and the nine digits without trailing zeros. -/
def appendNano (nsec : Nat) : List Char :=
  if nsec = 0 then [] else '.' :: dropTrailingZeros (padDigits 10 9 nsec)

/-- The zone suffix of RFC 3339: `Z` for offset 0, else `±hh:mm`. -/
def appendZone (offset : Int) : List Char :=
  if offset = 0 then ['Z']
  else if offset ≤ -60 then
    '-' :: (appendInt ((-offset) / 60 / 60) 2 ++ ':' :: appendInt ((-offset) / 60 % 60) 2)
  else
    '+' :: (appendInt (offset.natAbs / 60 / 60) 2 ++ ':' :: appendInt (offset.natAbs / 60 % 60) 2)

/-- The method `Time.appendFormatRFC3339(b, true)`: layout
`2006-01-02T15:04:05.999999999Z07:00`. -/
def Time.appendFormatRFC3339 (t : Time) : List Char :=
  appendInt t.Date.1 4 ++ '-' :: (appendInt t.Date.2.1 2 ++ '-' :: (appendInt t.Date.2.2 2 ++
    'T' :: (appendInt t.Clock.1 2 ++ ':' :: (appendInt t.Clock.2.1 2 ++
    ':' :: (appendInt t.Clock.2.2 2 ++ (appendNano t.Nanosecond ++
    appendZone t.loc.offset))))))

/-- Value of a two-digit decimal number given by its two characters. -/
def num2 (c1 c2 : Char) : Nat := 10 * (c1.toNat - '0'.toNat) + (c2.toNat - '0'.toNat)

/-- The method `Time.appendStrictRFC3339`: the RFC 3339 text, or an error when
the year does not take exactly four digits or the zone hour exceeds 23. -/
def Time.appendStrictRFC3339 (t : Time) : Except GoError (List Char) :=
  let b := t.appendFormatRFC3339
  if b.get? 4 ≠ some '-' then
    Except.error (GoError.other "year outside of range [0,9999]")
  else if b.getLast? ≠ some 'Z' then
    let c := b.getD (b.length - 6) '0'
    if c.isDigit || num2 (b.getD (b.length - 5) '0') (b.getD (b.length - 4) '0') ≥ 24 then
      Except.error (GoError.other "timezone hour outside of range [0,23]")
    else Except.ok b
  else Except.ok b

/-- The method `Time.MarshalJSON`, without the surrounding quotes: the content
of the JSON string. -/
def Time.MarshalJSON (t : Time) : Except GoError String :=
  match t.appendStrictRFC3339 with
  | Except.error err => Except.error (GoError.other ("Time.MarshalJSON: " ++ err.Error))
  | Except.ok b => Except.ok (String.mk b)

/-! ## JSON values and the encoding of `domain.UserEvent` -/

/-- A JSON value, as far as the events need it: null, a string, or an object
with its members in order. Encoder and decoder meet at this value: the text
`encoding/json` writes for it (quoting, escaping) is not modelled, and a
string is Unicode text. -/
inductive Json where
  | null
  | str (s : String)
  | obj (members : List (String × Json))

/-- The function `json.Marshal` on a `domain.UserEvent`, as a JSON value: the
struct tags of `event.go` name the members, `uuid.UUID` is written by its
`MarshalText` (the canonical string), `time.Time` by its `MarshalJSON`, and an
error of the latter is wrapped in a `json.MarshalerError`. -/
def UserEvent.toJson (e : UserEvent) : Except GoError Json :=
  match e.Timestamp.MarshalJSON with
  | Except.error err =>
    Except.error (GoError.wrap
      ("json: error calling MarshalJSON for type time.Time: " ++ err.Error) err)
  | Except.ok ts =>
    Except.ok (Json.obj
      [("eventId", Json.str e.EventID.String),
       ("eventType", Json.str e.EventType),
       ("timestamp", Json.str ts),
       ("data", Json.obj [("userId", Json.str e.Data.UserID.String)])])

/-! ## Decoding: `uuid.Parse`, RFC 3339 parsing, and `json.Unmarshal` of an event -/

/-- The digits of `n` in base `b` on exactly `w` places, most significant
first. -/
def fixedDigits (b : Nat) : Nat → Nat → List Char
  | 0, _ => []
  | w + 1, n => fixedDigits b w (n / b) ++ [Nat.digitChar (n % b)]

/-- Value of a decimal digit. -/
def decValue (c : Char) : Option Nat :=
  if '0' ≤ c ∧ c ≤ '9' then some (c.toNat - '0'.toNat) else none

/-- Value of a hexadecimal digit of either case (the table `xvalues` of
package `uuid`). -/
def hexValue (c : Char) : Option Nat :=
  if '0' ≤ c ∧ c ≤ '9' then some (c.toNat - '0'.toNat)
  else if 'a' ≤ c ∧ c ≤ 'f' then some (c.toNat - 'a'.toNat + 10)
  else if 'A' ≤ c ∧ c ≤ 'F' then some (c.toNat - 'A'.toNat + 10)
  else none

/-- Read a digit string in base `b` after the digits already read, whose
value is `acc`; `none` if a character is not a digit. -/
def parseDigits (b : Nat) (value : Char → Option Nat) : Nat → List Char → Option Nat
  | acc, [] => some acc
  | acc, c :: cs =>
    match value c with
    | none => none
    | some v => parseDigits b value (acc * b + v) cs

/-- The closure `parseUint` of `parseRFC3339`: a decimal number within
`[lo, hi]`. -/
def parseUint (cs : List Char) (lo hi : Nat) : Option Nat :=
  match parseDigits 10 decValue 0 cs with
  | none => none
  | some x => if x < lo ∨ hi < x then none else some x

/-- The canonical 36-character form `xxxxxxxx-xxxx-xxxx-xxxx-xxxxxxxxxxxx`:
dashes at places 8, 13, 18 and 23, hexadecimal digits elsewhere. -/
def parseUUID36 (cs : List Char) : Option UUID :=
  if cs.get? 8 ≠ some '-' ∨ cs.get? 13 ≠ some '-' ∨ cs.get? 18 ≠ some '-' ∨
      cs.get? 23 ≠ some '-' then none
  else
    match parseDigits 16 hexValue 0
      (cs.take 8 ++ (cs.drop 9).take 4 ++ (cs.drop 14).take 4 ++ (cs.drop 19).take 4 ++
        (cs.drop 24).take 12) with
    | none => none
    | some v => some (UUID.ofNat v)

/-- The function `uuid.Parse` (and `UUID.UnmarshalText`): the canonical form,
the same with the prefix `urn:uuid:` or within braces, or 32 hexadecimal
digits; `none` where it returns an error. A string holding a byte outside ASCII
is rejected in every form. -/
def uuidParse (s : String) : Option UUID :=
  let cs := s.toList
  if !cs.all (fun c => c.toNat < 128) then none
  else if cs.length = 36 then parseUUID36 cs
  else if cs.length = 36 + 9 then
    if (cs.take 9).map Char.toLower = "urn:uuid:".toList then parseUUID36 (cs.drop 9) else none
  else if cs.length = 36 + 2 then parseUUID36 (cs.drop 1)
  else if cs.length = 32 then
    match parseDigits 16 hexValue 0 cs with
    | none => none
    | some v => some (UUID.ofNat v)
  else none

/-- The function `daysIn` of package `time`. -/
def daysIn (month : Nat) (year : Int) : Nat :=
  (monthDays (isLeap year)).getD (month - 1) 0

/-- The function `time.Date(year, month, day, hour, min, sec, nsec, time.UTC)`
for a date and a clock reading that are in range. -/
def goDate (year : Int) (month day hour min sec nsec : Nat) : Time :=
  { unixNano :=
      ((daysBeforeYear year + (dayOfYear (isLeap year) month day : Nat) - 719162) * 86400 +
        (hour * 3600 + min * 60 + sec : Nat)) * 1000000000 + (nsec : Nat)
    loc := Location.utc }

/-- The function `parseNanoseconds` on the digits after the dot: at most nine
digits count, scaled to nanoseconds. -/
def parseNanoseconds (digits : List Char) : Option Nat :=
  match parseDigits 10 decValue 0 (digits.take 9) with
  | none => none
  | some v => some (v * 10 ^ (9 - (digits.take 9).length))

/-- The zone of RFC 3339 after the seconds: `Z`, or `±hh:mm` as an offset in
seconds. -/
def parseZone (cs : List Char) : Option Location :=
  if cs = ['Z'] then some Location.utc
  else if cs.length ≠ 6 then none
  else
    match parseUint ((cs.drop 1).take 2) 0 23, parseUint ((cs.drop 4).take 2) 0 59 with
    | some hr, some mm =>
      if (cs.get? 0 = some '-' ∨ cs.get? 0 = some '+') ∧ cs.get? 3 = some ':' then
        if cs.get? 0 = some '-' then some (Location.zone "" (-(((hr * 60 + mm) * 60 : Nat) : Int)))
        else some (Location.zone "" (((hr * 60 + mm) * 60 : Nat) : Int))
      else none
    | _, _ => none

/-- The fraction of a second in `parseRFC3339`: a dot followed by a digit
starts it, and all the digits that follow belong to it. The result is the
nanoseconds and the text left over; `none` if the digits cannot be read. -/
def parseFraction (rest : List Char) : Option (Nat × List Char) :=
  if 2 ≤ rest.length ∧ rest.get? 0 = some '.' ∧ (rest.getD 1 'x').isDigit then
    match parseNanoseconds ((rest.drop 1).takeWhile Char.isDigit) with
    | some ns => some (ns, (rest.drop 1).dropWhile Char.isDigit)
    | none => none
  else some (0, rest)

/-- The function `parseRFC3339` of package `time`. -/
def parseRFC3339 (cs : List Char) : Option Time :=
  if cs.length < 19 then none
  else
    match parseUint (cs.take 4) 0 9999, parseUint ((cs.drop 5).take 2) 1 12 with
    | some year, some month =>
      match parseUint ((cs.drop 8).take 2) 1 (daysIn month year),
        parseUint ((cs.drop 11).take 2) 0 23, parseUint ((cs.drop 14).take 2) 0 59,
        parseUint ((cs.drop 17).take 2) 0 59 with
      | some day, some hour, some min, some sec =>
        if cs.get? 4 = some '-' ∧ cs.get? 7 = some '-' ∧ cs.get? 10 = some 'T' ∧
            cs.get? 13 = some ':' ∧ cs.get? 16 = some ':' then
          match parseFraction (cs.drop 19) with
          | none => none
          | some (nsec, zone) =>
            match parseZone zone with
            | none => none
            | some loc =>
              some { unixNano :=
                       (goDate year month day hour min sec nsec).unixNano -
                         loc.offset * 1000000000
                     loc := loc }
        else none
      | _, _, _, _ => none
    | _, _ => none

/-- The method `Time.UnmarshalJSON` on the content of a JSON string. When
`parseRFC3339` rejects the text, Go falls back on `time.Parse(time.RFC3339, _)`;
that function is the parameter `timeParse`. -/
def timeUnmarshalJSON (timeParse : String → Except GoError Time) (s : String) :
    Except GoError Time :=
  match parseRFC3339 s.toList with
  | some t => Except.ok t
  | none => timeParse s

/-- Folding of ASCII letters, for matching a member name against a struct tag.
Go folds under Unicode simple case folding, which agrees with this on ASCII
names; a name with a letter outside ASCII that folds to an ASCII one is matched
by Go and not here. -/
def equalFold (a b : String) : Bool :=
  a.toList.map Char.toLower = b.toList.map Char.toLower

/-- Decoding of a JSON value into a `uuid.UUID` field (`UnmarshalText`); null
leaves the field as it is. -/
def decodeUUID (j : Json) (old : UUID) : Except GoError UUID :=
  match j with
  | Json.null => Except.ok old
  | Json.str s =>
    match uuidParse s with
    | some u => Except.ok u
    | none => Except.error (GoError.other "invalid UUID")
  | Json.obj _ => Except.error (GoError.other "json: cannot unmarshal object into uuid.UUID")

/-- Decoding of the member `data` into `domain.EventData`. -/
def decodeEventData (j : Json) (old : EventData) : Except GoError EventData :=
  match j with
  | Json.null => Except.ok old
  | Json.str _ => Except.error (GoError.other "json: cannot unmarshal string into EventData")
  | Json.obj members =>
    members.foldlM
      (fun (d : EventData) (kv : String × Json) =>
        if equalFold kv.1 "userId" then
          match decodeUUID kv.2 d.UserID with
          | Except.ok u => Except.ok { d with UserID := u }
          | Except.error err => Except.error err
        else Except.ok d)
      old

/-- The zero value of `domain.UserEvent`. -/
def UserEvent.zero : UserEvent :=
  { EventID := UUID.Nil, EventType := "", Timestamp := Time.zero, Data := { UserID := UUID.Nil } }

/-- Decoding of one member of the object into the event. A member whose name
matches no struct tag is skipped. -/
def decodeEventMember (timeParse : String → Except GoError Time) (e : UserEvent)
    (kv : String × Json) : Except GoError UserEvent :=
  if equalFold kv.1 "eventId" then
    match decodeUUID kv.2 e.EventID with
    | Except.ok u => Except.ok { e with EventID := u }
    | Except.error err => Except.error err
  else if equalFold kv.1 "eventType" then
    match kv.2 with
    | Json.null => Except.ok e
    | Json.str s => Except.ok { e with EventType := s }
    | Json.obj _ => Except.error (GoError.other "json: cannot unmarshal object into string")
  else if equalFold kv.1 "timestamp" then
    match kv.2 with
    | Json.null => Except.ok e
    | Json.str s =>
      match timeUnmarshalJSON timeParse s with
      | Except.ok t => Except.ok { e with Timestamp := t }
      | Except.error err => Except.error err
    | Json.obj _ => Except.error (GoError.other "Time.UnmarshalJSON: input is not a JSON string")
  else if equalFold kv.1 "data" then
    match decodeEventData kv.2 e.Data with
    | Except.ok d => Except.ok { e with Data := d }
    | Except.error err => Except.error err
  else Except.ok e

/-- The function `json.Unmarshal` into a zero `domain.UserEvent`, from the JSON
value the text stands for. -/
def UserEvent.ofJson (timeParse : String → Except GoError Time) (j : Json) :
    Except GoError UserEvent :=
  match j with
  | Json.null => Except.ok UserEvent.zero
  | Json.str _ => Except.error (GoError.other "json: cannot unmarshal string into UserEvent")
  | Json.obj members => members.foldlM (decodeEventMember timeParse) UserEvent.zero

/-! ## Vocabulary of the wire shape -/

/-- The text `YYYY-MM-DDThh:mm:ss[.f]Z` of ISO 8601 (RFC 3339) for a time in
UTC: year on four digits, the other fields on two, the fraction of a second
(one to nine digits, no trailing zero) only when it is not zero, and `Z` for
the zone. -/
def rfc3339UTC (t : Time) : List Char :=
  fixedDigits 10 4 t.Date.1.toNat ++ '-' :: (fixedDigits 10 2 t.Date.2.1 ++
    '-' :: (fixedDigits 10 2 t.Date.2.2 ++ 'T' :: (fixedDigits 10 2 t.Clock.1 ++
    ':' :: (fixedDigits 10 2 t.Clock.2.1 ++ ':' :: (fixedDigits 10 2 t.Clock.2.2 ++
    (appendNano t.Nanosecond ++ ['Z']))))))

/-! ## `internal/handler/response.go` -/

structure ErrorResponse where
  Code : String
  Message : String
  Details : List String
  deriving DecidableEq, Repr

def ErrCodeInvalidRequest : String := "INVALID_REQUEST"
def ErrCodeInvalidID : String := "INVALID_ID"
def ErrCodeUserNotFound : String := "USER_NOT_FOUND"
def ErrCodeEmailExists : String := "EMAIL_EXISTS"
def ErrCodeInternalError : String := "INTERNAL_ERROR"

/-- The status codes of `net/http` that `Error` uses. -/
def StatusBadRequest : Int := 400
def StatusNotFound : Int := 404
def StatusConflict : Int := 409
def StatusInternalServerError : Int := 500

/-- An `http.ResponseWriter`, as `httptest.ResponseRecorder` keeps what is
written to it: the header map, the status code once the header has been
written, and the values encoded to the body, in order. -/
structure ResponseWriter (α : Type) where
  header : List (String × String)
  status : Option Int
  body : List α

/-- The call `w.Header().Set(key, value)`. -/
def ResponseWriter.headerSet {α : Type} (w : ResponseWriter α) (key value : String) :
    ResponseWriter α :=
  { w with header := w.header.filter (fun kv => kv.1 ≠ key) ++ [(key, value)] }

/-- The method `WriteHeader`: the first call fixes the status code, a later
call changes nothing. -/
def ResponseWriter.WriteHeader {α : Type} (w : ResponseWriter α) (status : Int) :
    ResponseWriter α :=
  match w.status with
  | some _ => w
  | none => { w with status := some status }

/-- The call `json.NewEncoder(w).Encode(data)`: the value goes to the body; a
write before any `WriteHeader` sends the status 200 first. -/
def ResponseWriter.encode {α : Type} (w : ResponseWriter α) (data : α) : ResponseWriter α :=
  let w1 := w.WriteHeader 200
  { w1 with body := w1.body ++ [data] }

/-- The function `JSON`; `data` is `none` for a nil interface value. -/
def JSON {α : Type} (w : ResponseWriter α) (status : Int) (data : Option α) :
    ResponseWriter α :=
  let w1 := w.headerSet "Content-Type" "application/json"
  let w2 := w1.WriteHeader status
  match data with
  | some d => w2.encode d
  | none => w2

/-- The function `Error` of package `handler`. -/
def Error (w : ResponseWriter ErrorResponse) (err : Option GoError) :
    ResponseWriter ErrorResponse :=
  let chosen : Int × ErrorResponse :=
    if errorsIs err GoError.ErrUserNotFound then
      (StatusNotFound, { Code := ErrCodeUserNotFound, Message := "User not found", Details := [] })
    else if errorsIs err GoError.ErrEmailExists then
      (StatusConflict,
        { Code := ErrCodeEmailExists, Message := "Email already exists", Details := [] })
    else if errorsIs err GoError.ErrInvalidInput then
      (StatusBadRequest,
        { Code := ErrCodeInvalidRequest, Message := "Invalid request data", Details := [] })
    else
      (StatusInternalServerError,
        { Code := ErrCodeInternalError, Message := "Internal server error", Details := [] })
  JSON w chosen.1 (some chosen.2)

/-! ## `internal/repository/postgres` -/

/-- An error returned by the database driver. It is a value of the driver, so
it is never one of the sentinels of `domain/errors.go`; as a Go `error` it is
the unrelated error with its message. -/
structure PgError where
  msg : String
  deriving DecidableEq, Repr

/-- The driver error as a value of the interface `error`. -/
def PgError.toError (e : PgError) : GoError := GoError.other e.msg

/-- The result `pgconn.CommandTag` of a statement, as far as it is read. -/
structure CommandTag where
  RowsAffected : Int
  deriving DecidableEq, Repr

/-- The connection pool `pgxpool.Pool` over a database state `δ`, as far as
`Delete` uses it: `Exec` with the statement text and the one argument. -/
structure Pool (δ : Type) where
  Exec : Context → String → UUID → δ → (CommandTag × Option PgError) × δ

/-- The type `postgres.FailedEventRepository`. -/
structure Postgres.FailedEventRepository (δ : Type) where
  pool : Pool δ

def Postgres.NewFailedEventRepository {δ : Type} (pool : Pool δ) : Postgres.FailedEventRepository δ :=
  { pool := pool }

/-- The method `Delete` of `postgres.FailedEventRepository`. -/
def Postgres.FailedEventRepository.Delete {δ : Type} (r : Postgres.FailedEventRepository δ) (ctx : Context)
    (id : UUID) (db : δ) : Option GoError × δ :=
  let query := "DELETE FROM failed_events WHERE id = $1"
  match r.pool.Exec ctx query id db with
  | ((_, some err), db1) => (some err.toError, db1)
  | ((result, none), db1) =>
    if result.RowsAffected = 0 then (some GoError.ErrUserNotFound, db1)
    else (none, db1)

/-- The bytes of a Go string. -/
def goBytes (s : String) : List UInt8 := s.toList.flatMap String.utf8EncodeChar

/-- The slice expression `s[lo:hi]` on a string: `none` where Go panics
because the bounds are out of range. -/
def goSlice (s : List UInt8) (lo hi : Int) : Option (List UInt8) :=
  if 0 ≤ lo ∧ lo ≤ hi ∧ hi ≤ s.length then some ((s.drop lo.toNat).take (hi - lo).toNat)
  else none

/-- The loop of `searchString` over the values of `i` still to come. -/
def searchStringLoop (s substr : List UInt8) : List Nat → Outcome Bool
  | [] => Outcome.ret false
  | i :: rest =>
    match goSlice s i (i + substr.length) with
    | none => Outcome.panic "slice bounds out of range"
    | some window =>
      if window = substr then Outcome.ret true else searchStringLoop s substr rest

/-- The function `searchString`: `i` runs from 0 while
`i <= len(s)-len(substr)`. -/
def searchString (s substr : List UInt8) : Outcome Bool :=
  searchStringLoop s substr (List.range (((s.length : Int) - substr.length) + 1).toNat)

/-- The function `contains` of `postgres/user.go`. -/
def contains (s substr : List UInt8) : Outcome Bool :=
  if s.length ≥ substr.length then searchString s substr else Outcome.ret false

/-- The function `isDuplicateKeyError`. -/
def isDuplicateKeyError (err : Option GoError) : Outcome Bool :=
  match err with
  | none => Outcome.ret false
  | some e =>
    if e.Error ≠ "" then
      match contains (goBytes e.Error) (goBytes "duplicate key") with
      | Outcome.panic p => Outcome.panic p
      | Outcome.ret true => Outcome.ret true
      | Outcome.ret false => contains (goBytes e.Error) (goBytes "unique constraint")
    else Outcome.ret false

/-- A database that holds the table `failed_events` as the list of its rows and
carries out the statement `DELETE FROM failed_events WHERE id = $1`: the rows
with the given id go, and the command tag counts them. With `fault` set the
statement fails and the table stays as it is. -/
def tablePool (fault : Option PgError) : Pool (List FailedEvent) :=
  { Exec := fun _ _ id rows =>
      match fault with
      | some e => ((⟨0⟩, some e), rows)
      | none =>
        ((⟨((rows.filter (fun e => e.ID = id)).length : Int)⟩, none),
          rows.filter (fun e => e.ID ≠ id)) }

/-- The byte string `substr` occurs in `s` as a contiguous piece. -/
def occursIn (substr s : List UInt8) : Prop :=
  ∃ pre post : List UInt8, s = pre ++ substr ++ post

/-- A stored user for evaluating the service. -/
def ada : User :=
  { ID := UUID.ofNat 1
    Email := "ada@example.com"
    FirstName := "Ada"
    LastName := "Lovelace"
    Status := UserStatusActive
    CreatedAt := Time.zero
    UpdatedAt := Time.zero }

/-! ## Helper lemmas -/

theorem range'_one_three : List.range' 1 3 = [1, 2, 3] := by decide

theorem newEffects_append (s s' : State) (d : List Effect) (h : s'.trace = s.trace ++ d) :
    newEffects s s' = d := by
  simp [newEffects, h]

theorem saveToDLQWith_fst (limit : Nat) (env : Env) (n : KafkaNotifier) (ctx : Context)
    (event : UserEvent) (payload : String) (le : GoError) (s : State) :
    (saveToDLQWith limit env n ctx event payload (some le) s).1 = Outcome.ret () := by
  simp only [saveToDLQWith, timeNow, repoSave]
  split <;> rfl

theorem publishLoop_fst (limit : Nat) (env : Env) (n : KafkaNotifier) (ctx : Context)
    (event : UserEvent) (payload : String) (msg : Message) (l : List Nat) :
    ∀ (delay : Int) (lastErr : Option GoError) (s : State), (l ≠ [] ∨ lastErr ≠ none) →
      (publishLoop limit env n ctx event payload msg l delay lastErr s).1 = Outcome.ret none := by
  induction l with
  | nil =>
    intro delay lastErr s h
    cases lastErr with
    | none => simp at h
    | some le =>
      have h1 := saveToDLQWith_fst limit env n ctx event payload le s
      simp only [publishLoop]
      split
      · rename_i r s1 heq
        rw [heq] at h1
        cases h1
      · rfl
  | cons a rest ih =>
    intro delay lastErr s _
    simp only [publishLoop, writeMessages]
    split
    · rfl
    · split
      · exact ih _ _ _ (Or.inr (by simp))
      · exact ih _ _ _ (Or.inr (by simp))

theorem publishWith_fst (limit : Nat) (hl : 1 ≤ limit) (env : Env) (n : KafkaNotifier)
    (ctx : Context) (eventType : EventType) (userID : UUID) (s : State) :
    (publishWith limit env n ctx eventType userID s).1 = Outcome.ret none := by
  simp only [publishWith, uuidNew, timeNow]
  split
  · rfl
  · apply publishLoop_fst
    left
    intro h
    have := congrArg List.length h
    simp at this
    omega


theorem delay_second : wrapInt64 (initialDelay * backoffFactor) = 2 * Second := by decide

theorem dlqLog_isLog (event : UserEvent) (saveErr : Option GoError) :
    (dlqLog event saveErr).isLog = true := by
  cases saveErr <;> rfl

/-- The complete run of `publish` when all three attempts fail. -/
theorem publish_exhausted_run (env : Env) (n : KafkaNotifier) (ctx : Context)
    (eventType : EventType) (userID : UUID) (s : State) (payload : String) (e1 e2 e3 : GoError)
    (hm : env.jsonMarshal (envelopeAt env s eventType userID) = Except.ok payload)
    (h1 : env.WriteMessages n.writer s.writeCalls ctx (messageFor eventType userID payload)
      = some e1)
    (h2 : env.WriteMessages n.writer (s.writeCalls + 1) ctx (messageFor eventType userID payload)
      = some e2)
    (h3 : env.WriteMessages n.writer (s.writeCalls + 2) ctx (messageFor eventType userID payload)
      = some e3) :
    n.publish env ctx eventType userID s =
      (Outcome.ret none,
        { uuidCalls := s.uuidCalls + 1
          nowCalls := s.nowCalls + 3
          writeCalls := s.writeCalls + 3
          saveCalls := s.saveCalls + 1
          trace := s.trace ++
            [Effect.write n.writer ctx (messageFor eventType userID payload),
             attemptFailedLog eventType userID 1 e1,
             Effect.sleep Second,
             Effect.write n.writer ctx (messageFor eventType userID payload),
             attemptFailedLog eventType userID 2 e2,
             Effect.sleep (2 * Second),
             Effect.write n.writer ctx (messageFor eventType userID payload),
             attemptFailedLog eventType userID 3 e3,
             Effect.save ctx (dlqRecordAt env s eventType userID payload e3),
             dlqLog (envelopeAt env s eventType userID)
               (n.failedEventRepo.Save s.saveCalls ctx
                 (dlqRecordAt env s eventType userID payload e3))] }) := by
  simp only [envelopeAt, messageFor] at hm h1 h2 h3
  simp only [KafkaNotifier.publish, publishWith, uuidNew, timeNow, hm, maxRetries,
    range'_one_three, publishLoop, writeMessages, h1, h2, h3, logCall, timeSleep,
    Nat.reduceLT, Nat.reduceAdd, Nat.add_assoc, ↓reduceIte, Nat.lt_irrefl, delay_second,
    saveToDLQWith, repoSave, envelopeAt, messageFor, attemptFailedLog, dlqRecordAt, dlqLog,
    List.append_assoc, List.singleton_append, List.cons_append, List.nil_append]
  have hS : initialDelay = Second := by decide
  rw [hS]
  cases hsave : n.failedEventRepo.Save s.saveCalls ctx _ with
  | none => rfl
  | some e => rfl

/-- The complete run of `publish` when the first two attempts fail and the
third succeeds. -/
theorem publish_third_run (env : Env) (n : KafkaNotifier) (ctx : Context)
    (eventType : EventType) (userID : UUID) (s : State) (payload : String) (e1 e2 : GoError)
    (hm : env.jsonMarshal (envelopeAt env s eventType userID) = Except.ok payload)
    (h1 : env.WriteMessages n.writer s.writeCalls ctx (messageFor eventType userID payload)
      = some e1)
    (h2 : env.WriteMessages n.writer (s.writeCalls + 1) ctx (messageFor eventType userID payload)
      = some e2)
    (h3 : env.WriteMessages n.writer (s.writeCalls + 2) ctx (messageFor eventType userID payload)
      = none) :
    n.publish env ctx eventType userID s =
      (Outcome.ret none,
        { uuidCalls := s.uuidCalls + 1
          nowCalls := s.nowCalls + 1
          writeCalls := s.writeCalls + 3
          saveCalls := s.saveCalls
          trace := s.trace ++
            [Effect.write n.writer ctx (messageFor eventType userID payload),
             attemptFailedLog eventType userID 1 e1,
             Effect.sleep Second,
             Effect.write n.writer ctx (messageFor eventType userID payload),
             attemptFailedLog eventType userID 2 e2,
             Effect.sleep (2 * Second),
             Effect.write n.writer ctx (messageFor eventType userID payload),
             publishedLog (envelopeAt env s eventType userID).EventID eventType userID] }) := by
  simp only [envelopeAt, messageFor] at hm h1 h2 h3
  simp only [KafkaNotifier.publish, publishWith, uuidNew, timeNow, hm, maxRetries,
    range'_one_three, publishLoop, writeMessages, h1, h2, h3, logCall, timeSleep,
    Nat.reduceLT, Nat.reduceAdd, Nat.add_assoc, ↓reduceIte, Nat.lt_irrefl, delay_second,
    envelopeAt, messageFor, attemptFailedLog, publishedLog,
    List.append_assoc, List.singleton_append, List.cons_append, List.nil_append]
  have hS : initialDelay = Second := by decide
  rw [hS]

/-- The complete run of `publish` when `json.Marshal` fails. -/
theorem publish_marshal_error_run (env : Env) (n : KafkaNotifier) (ctx : Context)
    (eventType : EventType) (userID : UUID) (s : State) (err : GoError)
    (hm : env.jsonMarshal (envelopeAt env s eventType userID) = Except.error err) :
    n.publish env ctx eventType userID s =
      (Outcome.ret none,
        { uuidCalls := s.uuidCalls + 1
          nowCalls := s.nowCalls + 1
          writeCalls := s.writeCalls
          saveCalls := s.saveCalls
          trace := s.trace ++
            [Effect.log Level.error "failed to marshal event"
              [Attr.String "event_type" eventType,
               Attr.String "user_id" userID.String,
               Attr.String "error" err.Error]] }) := by
  simp only [envelopeAt] at hm
  simp only [KafkaNotifier.publish, publishWith, uuidNew, timeNow, hm, logCall]

/-- The complete run of `saveToDLQ` for a non-nil `lastErr`. -/
theorem saveToDLQ_run (env : Env) (n : KafkaNotifier) (ctx : Context) (event : UserEvent)
    (payload : String) (le : GoError) (s : State) :
    saveToDLQ env n ctx event payload (some le) s =
      (Outcome.ret (),
        { uuidCalls := s.uuidCalls
          nowCalls := s.nowCalls + 2
          writeCalls := s.writeCalls
          saveCalls := s.saveCalls + 1
          trace := s.trace ++
            [Effect.save ctx
               { ID := UUID.Nil
                 EventID := event.EventID
                 EventType := event.EventType
                 UserID := event.Data.UserID
                 Payload := payload
                 Error := le.Error
                 Attempts := 3
                 CreatedAt := (env.timeNow s.nowCalls).UTC
                 LastError := (env.timeNow (s.nowCalls + 1)).UTC },
             dlqLog event (n.failedEventRepo.Save s.saveCalls ctx
               { ID := UUID.Nil
                 EventID := event.EventID
                 EventType := event.EventType
                 UserID := event.Data.UserID
                 Payload := payload
                 Error := le.Error
                 Attempts := 3
                 CreatedAt := (env.timeNow s.nowCalls).UTC
                 LastError := (env.timeNow (s.nowCalls + 1)).UTC })] }) := by
  simp only [saveToDLQ, saveToDLQWith, timeNow, repoSave, logCall, maxRetries, dlqLog,
    Nat.add_assoc, Nat.reduceAdd, List.append_assoc, List.singleton_append]
  cases hsave : n.failedEventRepo.Save s.saveCalls ctx _ with
  | none => rfl
  | some e => rfl

/-- The writes of `publish` when all three attempts fail. -/
theorem publish_exhausted_writes (env : Env) (n : KafkaNotifier) (ctx : Context)
    (eventType : EventType) (userID : UUID) (s : State) (payload : String) (e1 e2 e3 : GoError)
    (hm : env.jsonMarshal (envelopeAt env s eventType userID) = Except.ok payload)
    (h1 : env.WriteMessages n.writer s.writeCalls ctx (messageFor eventType userID payload)
      = some e1)
    (h2 : env.WriteMessages n.writer (s.writeCalls + 1) ctx (messageFor eventType userID payload)
      = some e2)
    (h3 : env.WriteMessages n.writer (s.writeCalls + 2) ctx (messageFor eventType userID payload)
      = some e3) :
    writesOf (newEffects s (n.publish env ctx eventType userID s).2) =
      [messageFor eventType userID payload, messageFor eventType userID payload,
       messageFor eventType userID payload] := by
  rw [publish_exhausted_run env n ctx eventType userID s payload e1 e2 e3 hm h1 h2 h3]
  simp [newEffects, writesOf, attemptFailedLog]
  cases n.failedEventRepo.Save s.saveCalls ctx _ <;> simp [dlqLog, writesOf]

/-! ## The notifier: claims C1 to C9 -/

/-- C1: for every event type, user ID, transport behaviour and dead-letter
store behaviour, `publish`, `NotifyCreated`, `NotifyUpdated` and
`NotifyDeleted` of the Kafka notifier return and the error they return is nil. -/
theorem notify_returns_nil (env : Env) (n : KafkaNotifier) (ctx : Context)
    (eventType : EventType) (userID : UUID) (s : State) :
    (n.publish env ctx eventType userID s).1 = Outcome.ret none ∧
    (n.NotifyCreated env ctx userID s).1 = Outcome.ret none ∧
    (n.NotifyUpdated env ctx userID s).1 = Outcome.ret none ∧
    (n.NotifyDeleted env ctx userID s).1 = Outcome.ret none := by
  have h : ∀ et, (n.publish env ctx et userID s).1 = Outcome.ret none := fun et =>
    publishWith_fst maxRetries (by decide) env n ctx et userID s
  exact ⟨h _, h _, h _, h _⟩

/-- C2: when the serialized message is refused by the transport on the first
and second attempts and accepted on the third, `publish` makes exactly three
writes (all of that message), ends with the "event published" log call,
returns nil, and never calls `Save`. -/
theorem publish_two_failures_then_success (env : Env) (n : KafkaNotifier) (ctx : Context)
    (eventType : EventType) (userID : UUID) (s : State) (payload : String) (e1 e2 : GoError)
    (hm : env.jsonMarshal (envelopeAt env s eventType userID) = Except.ok payload)
    (h1 : env.WriteMessages n.writer s.writeCalls ctx (messageFor eventType userID payload)
      = some e1)
    (h2 : env.WriteMessages n.writer (s.writeCalls + 1) ctx (messageFor eventType userID payload)
      = some e2)
    (h3 : env.WriteMessages n.writer (s.writeCalls + 2) ctx (messageFor eventType userID payload)
      = none) :
    (n.publish env ctx eventType userID s).1 = Outcome.ret none ∧
    writesOf (newEffects s (n.publish env ctx eventType userID s).2) =
      [messageFor eventType userID payload, messageFor eventType userID payload,
       messageFor eventType userID payload] ∧
    (n.publish env ctx eventType userID s).2.writeCalls = s.writeCalls + 3 ∧
    (newEffects s (n.publish env ctx eventType userID s).2).getLast? =
      some (publishedLog (envelopeAt env s eventType userID).EventID eventType userID) ∧
    savesOf (newEffects s (n.publish env ctx eventType userID s).2) = [] ∧
    (n.publish env ctx eventType userID s).2.saveCalls = s.saveCalls := by
  rw [publish_third_run env n ctx eventType userID s payload e1 e2 hm h1 h2 h3]
  simp [newEffects, writesOf, savesOf, attemptFailedLog, publishedLog]

theorem publish_two_failures_then_success_witness :
    (KafkaNotifier.publish (scriptedEnv fun k => if k < 2 then some (GoError.other "down") else none)
      (testNotifier okRepo) Context.Background EventTypeUserCreated (UUID.ofNat 7)
      State.init).2.writeCalls = 3 ∧
    savesOf (newEffects State.init
      (KafkaNotifier.publish (scriptedEnv fun k => if k < 2 then some (GoError.other "down") else none)
        (testNotifier okRepo) Context.Background EventTypeUserCreated (UUID.ofNat 7)
        State.init).2) = [] :=
  have h := publish_two_failures_then_success
    (scriptedEnv fun k => if k < 2 then some (GoError.other "down") else none)
    (testNotifier okRepo) Context.Background EventTypeUserCreated (UUID.ofNat 7) State.init
    "payload" (GoError.other "down") (GoError.other "down") rfl rfl rfl rfl
  ⟨h.2.2.1, h.2.2.2.2.1⟩

/-- C3: when all three attempts fail, with whatever errors `e1`, `e2`, `e3`,
`publish` makes exactly three writes and then calls `Save` exactly once, as its
last effect apart from logging, with a record whose `Attempts` is 3 and whose
`Error` is the description of the third attempt's error. -/
theorem publish_exhausted_saves_once (env : Env) (n : KafkaNotifier) (ctx : Context)
    (eventType : EventType) (userID : UUID) (s : State) (payload : String) (e1 e2 e3 : GoError)
    (hm : env.jsonMarshal (envelopeAt env s eventType userID) = Except.ok payload)
    (h1 : env.WriteMessages n.writer s.writeCalls ctx (messageFor eventType userID payload)
      = some e1)
    (h2 : env.WriteMessages n.writer (s.writeCalls + 1) ctx (messageFor eventType userID payload)
      = some e2)
    (h3 : env.WriteMessages n.writer (s.writeCalls + 2) ctx (messageFor eventType userID payload)
      = some e3) :
    writesOf (newEffects s (n.publish env ctx eventType userID s).2) =
      [messageFor eventType userID payload, messageFor eventType userID payload,
       messageFor eventType userID payload] ∧
    (n.publish env ctx eventType userID s).2.writeCalls = s.writeCalls + 3 ∧
    (n.publish env ctx eventType userID s).2.saveCalls = s.saveCalls + 1 ∧
    ∃ r : FailedEvent,
      savesOf (newEffects s (n.publish env ctx eventType userID s).2) = [r] ∧
      (ioOf (newEffects s (n.publish env ctx eventType userID s).2)).getLast? =
        some (Effect.save ctx r) ∧
      r.Attempts = 3 ∧ r.Error = e3.Error := by
  rw [publish_exhausted_run env n ctx eventType userID s payload e1 e2 e3 hm h1 h2 h3]
  refine ⟨?_, rfl, rfl, dlqRecordAt env s eventType userID payload e3, ?_, ?_, rfl, rfl⟩
  · simp [newEffects, writesOf, attemptFailedLog]
    cases n.failedEventRepo.Save s.saveCalls ctx _ <;> simp [dlqLog, writesOf]
  · simp [newEffects, savesOf, attemptFailedLog]
    cases n.failedEventRepo.Save s.saveCalls ctx _ <;> simp [dlqLog, savesOf]
  · cases n.failedEventRepo.Save s.saveCalls ctx _ <;>
      simp [newEffects, ioOf, attemptFailedLog, Effect.isLog, dlqLog]

theorem publish_exhausted_saves_once_witness :
    ∃ r : FailedEvent,
      savesOf (newEffects State.init
        (KafkaNotifier.publish (scriptedEnv fun _ => some (GoError.other "connection refused"))
          (testNotifier okRepo) Context.Background EventTypeUserCreated (UUID.ofNat 7)
          State.init).2) = [r] ∧
      r.Attempts = 3 ∧ r.Error = "connection refused" :=
  have h := publish_exhausted_saves_once
    (scriptedEnv fun _ => some (GoError.other "connection refused"))
    (testNotifier okRepo) Context.Background EventTypeUserCreated (UUID.ofNat 7) State.init
    "payload" (GoError.other "connection refused") (GoError.other "connection refused")
    (GoError.other "connection refused") rfl rfl rfl rfl
  match h.2.2.2 with
  | ⟨r, hr, _, ha, he⟩ => ⟨r, hr, ha, he⟩

/-- C4: when all three attempts fail, the sleeps of `publish` are exactly
1 second then 2 seconds; the effects other than logging are, in order, write,
sleep 1s, write, sleep 2s, write, save: one sleep between consecutive attempts
and none after the last attempt. -/
theorem publish_exhausted_backoff (env : Env) (n : KafkaNotifier) (ctx : Context)
    (eventType : EventType) (userID : UUID) (s : State) (payload : String) (e1 e2 e3 : GoError)
    (hm : env.jsonMarshal (envelopeAt env s eventType userID) = Except.ok payload)
    (h1 : env.WriteMessages n.writer s.writeCalls ctx (messageFor eventType userID payload)
      = some e1)
    (h2 : env.WriteMessages n.writer (s.writeCalls + 1) ctx (messageFor eventType userID payload)
      = some e2)
    (h3 : env.WriteMessages n.writer (s.writeCalls + 2) ctx (messageFor eventType userID payload)
      = some e3) :
    sleepsOf (newEffects s (n.publish env ctx eventType userID s).2) = [Second, 2 * Second] ∧
    ioOf (newEffects s (n.publish env ctx eventType userID s).2) =
      [Effect.write n.writer ctx (messageFor eventType userID payload),
       Effect.sleep Second,
       Effect.write n.writer ctx (messageFor eventType userID payload),
       Effect.sleep (2 * Second),
       Effect.write n.writer ctx (messageFor eventType userID payload),
       Effect.save ctx (dlqRecordAt env s eventType userID payload e3)] := by
  rw [publish_exhausted_run env n ctx eventType userID s payload e1 e2 e3 hm h1 h2 h3]
  constructor
  · simp [newEffects, sleepsOf, attemptFailedLog]
    cases n.failedEventRepo.Save s.saveCalls ctx _ <;> simp [dlqLog, sleepsOf]
  · cases n.failedEventRepo.Save s.saveCalls ctx _ <;>
      simp [newEffects, ioOf, attemptFailedLog, Effect.isLog, dlqLog]

theorem publish_exhausted_backoff_witness :
    sleepsOf (newEffects State.init
      (KafkaNotifier.publish (scriptedEnv fun _ => some (GoError.other "connection refused"))
        (testNotifier okRepo) Context.Background EventTypeUserCreated (UUID.ofNat 7)
        State.init).2) = [1000000000, 2000000000] :=
  (publish_exhausted_backoff
    (scriptedEnv fun _ => some (GoError.other "connection refused"))
    (testNotifier okRepo) Context.Background EventTypeUserCreated (UUID.ofNat 7) State.init
    "payload" (GoError.other "connection refused") (GoError.other "connection refused")
    (GoError.other "connection refused") rfl rfl rfl rfl).1

/-- C5: the dead-letter record handed to `Save` copies the failed envelope:
its `Payload` is the serialized payload that every write carried as message
value, it is the serialization of the envelope (so any decoder that inverts
the serializer gives the envelope back), and `EventID`, `EventType`, `UserID`
are the envelope's. The same holds for `saveToDLQ` called on its own. -/
theorem dlq_record_copies_envelope (env : Env) (n : KafkaNotifier) (ctx : Context)
    (eventType : EventType) (userID : UUID) (s : State) (payload : String) (e1 e2 e3 : GoError)
    (hm : env.jsonMarshal (envelopeAt env s eventType userID) = Except.ok payload)
    (h1 : env.WriteMessages n.writer s.writeCalls ctx (messageFor eventType userID payload)
      = some e1)
    (h2 : env.WriteMessages n.writer (s.writeCalls + 1) ctx (messageFor eventType userID payload)
      = some e2)
    (h3 : env.WriteMessages n.writer (s.writeCalls + 2) ctx (messageFor eventType userID payload)
      = some e3) :
    (∃ r : FailedEvent,
      savesOf (newEffects s (n.publish env ctx eventType userID s).2) = [r] ∧
      (∀ m ∈ writesOf (newEffects s (n.publish env ctx eventType userID s).2),
        m.Value = r.Payload) ∧
      env.jsonMarshal (envelopeAt env s eventType userID) = Except.ok r.Payload ∧
      (∀ decode : String → Option UserEvent,
        (∀ e p, env.jsonMarshal e = Except.ok p → decode p = some e) →
        decode r.Payload = some (envelopeAt env s eventType userID)) ∧
      r.EventID = (envelopeAt env s eventType userID).EventID ∧
      r.EventType = eventType ∧
      r.UserID = userID) ∧
    (∀ (event : UserEvent) (p : String) (le : GoError) (t : State),
      ∃ r : FailedEvent,
        savesOf (newEffects t (saveToDLQ env n ctx event p (some le) t).2) = [r] ∧
        r.Payload = p ∧ r.EventID = event.EventID ∧ r.EventType = event.EventType ∧
        r.UserID = event.Data.UserID) := by
  constructor
  · rw [publish_exhausted_run env n ctx eventType userID s payload e1 e2 e3 hm h1 h2 h3]
    refine ⟨dlqRecordAt env s eventType userID payload e3, ?_, ?_, hm, ?_, rfl, rfl, rfl⟩
    · simp [newEffects, savesOf, attemptFailedLog]
      cases n.failedEventRepo.Save s.saveCalls ctx _ <;> simp [dlqLog, savesOf]
    · intro m hmem
      have hw := publish_exhausted_writes env n ctx eventType userID s payload e1 e2 e3
        hm h1 h2 h3
      rw [publish_exhausted_run env n ctx eventType userID s payload e1 e2 e3 hm h1 h2 h3] at hw
      rw [hw] at hmem
      simp at hmem
      rw [hmem]
      rfl
    · intro decode hdec
      exact hdec _ _ hm
  · intro event p le t
    rw [saveToDLQ_run]
    refine ⟨{ ID := UUID.Nil
              EventID := event.EventID
              EventType := event.EventType
              UserID := event.Data.UserID
              Payload := p
              Error := le.Error
              Attempts := 3
              CreatedAt := (env.timeNow t.nowCalls).UTC
              LastError := (env.timeNow (t.nowCalls + 1)).UTC }, ?_, rfl, rfl, rfl, rfl⟩
    simp [newEffects, savesOf]
    cases n.failedEventRepo.Save t.saveCalls ctx _ <;> simp [dlqLog, savesOf]

theorem dlq_record_copies_envelope_witness :
    ∃ r : FailedEvent,
      savesOf (newEffects State.init
        (KafkaNotifier.publish (scriptedEnv fun _ => some (GoError.other "connection refused"))
          (testNotifier okRepo) Context.Background EventTypeUserDeleted (UUID.ofNat 9)
          State.init).2) = [r] ∧
      r.Payload = "payload" ∧ r.EventType = "user.deleted" ∧ r.UserID = UUID.ofNat 9 :=
  have h := dlq_record_copies_envelope
    (scriptedEnv fun _ => some (GoError.other "connection refused"))
    (testNotifier okRepo) Context.Background EventTypeUserDeleted (UUID.ofNat 9) State.init
    "payload" (GoError.other "connection refused") (GoError.other "connection refused")
    (GoError.other "connection refused") rfl rfl rfl rfl
  match h.1 with
  | ⟨r, hr, _, hp, _, _, ht, hu⟩ =>
    ⟨r, hr, (Except.ok.inj hp).symm, ht, hu⟩

/-- C6: if the `Save` call fails, `saveToDLQ` still returns normally, having
called `Save` exactly once and logged the failure as its last effect; and a
`publish` whose three attempts all failed still returns nil, having called
`Save` exactly once. -/
theorem dlq_save_error_not_surfaced (env : Env) (n : KafkaNotifier) (ctx : Context)
    (event : UserEvent) (p : String) (le : GoError)
    (eventType : EventType) (userID : UUID) (s : State) (payload : String) (e1 e2 e3 : GoError)
    (hsave : ∀ r, n.failedEventRepo.Save s.saveCalls ctx r ≠ none)
    (hm : env.jsonMarshal (envelopeAt env s eventType userID) = Except.ok payload)
    (h1 : env.WriteMessages n.writer s.writeCalls ctx (messageFor eventType userID payload)
      = some e1)
    (h2 : env.WriteMessages n.writer (s.writeCalls + 1) ctx (messageFor eventType userID payload)
      = some e2)
    (h3 : env.WriteMessages n.writer (s.writeCalls + 2) ctx (messageFor eventType userID payload)
      = some e3) :
    ((saveToDLQ env n ctx event p (some le) s).1 = Outcome.ret () ∧
      (savesOf (newEffects s (saveToDLQ env n ctx event p (some le) s).2)).length = 1 ∧
      (saveToDLQ env n ctx event p (some le) s).2.saveCalls = s.saveCalls + 1 ∧
      ∃ e : GoError, (newEffects s (saveToDLQ env n ctx event p (some le) s).2).getLast? =
        some (dlqLog event (some e))) ∧
    ((n.publish env ctx eventType userID s).1 = Outcome.ret none ∧
      (savesOf (newEffects s (n.publish env ctx eventType userID s).2)).length = 1 ∧
      (n.publish env ctx eventType userID s).2.saveCalls = s.saveCalls + 1 ∧
      ∃ e : GoError, (newEffects s (n.publish env ctx eventType userID s).2).getLast? =
        some (dlqLog (envelopeAt env s eventType userID) (some e))) := by
  constructor
  · rw [saveToDLQ_run]
    refine ⟨rfl, ?_, rfl, ?_⟩
    · simp [newEffects, savesOf]
      cases n.failedEventRepo.Save s.saveCalls ctx _ <;> simp [dlqLog, savesOf]
    · cases hs : n.failedEventRepo.Save s.saveCalls ctx _ with
      | none => exact absurd hs (hsave _)
      | some e => exact ⟨e, by simp [newEffects]⟩
  · rw [publish_exhausted_run env n ctx eventType userID s payload e1 e2 e3 hm h1 h2 h3]
    refine ⟨rfl, ?_, rfl, ?_⟩
    · simp [newEffects, savesOf, attemptFailedLog]
      cases n.failedEventRepo.Save s.saveCalls ctx _ <;> simp [dlqLog, savesOf]
    · cases hs : n.failedEventRepo.Save s.saveCalls ctx _ with
      | none => exact absurd hs (hsave _)
      | some e => exact ⟨e, by simp [newEffects]⟩

theorem dlq_save_error_not_surfaced_witness :
    (saveToDLQ (scriptedEnv fun _ => some (GoError.other "kafka error")) (testNotifier failingRepo)
      Context.Background ⟨UUID.ofNat 1, EventTypeUserCreated, ⟨0, Location.utc⟩, ⟨UUID.ofNat 2⟩⟩
      "\x7b\x7d" (some (GoError.other "kafka error")) State.init).1 = Outcome.ret () ∧
    (KafkaNotifier.publish (scriptedEnv fun _ => some (GoError.other "kafka error"))
      (testNotifier failingRepo) Context.Background EventTypeUserCreated (UUID.ofNat 7)
      State.init).2.saveCalls = 1 :=
  have h := dlq_save_error_not_surfaced
    (scriptedEnv fun _ => some (GoError.other "kafka error")) (testNotifier failingRepo)
    Context.Background ⟨UUID.ofNat 1, EventTypeUserCreated, ⟨0, Location.utc⟩, ⟨UUID.ofNat 2⟩⟩
    "\x7b\x7d" (GoError.other "kafka error")
    EventTypeUserCreated (UUID.ofNat 7) State.init "payload"
    (GoError.other "kafka error") (GoError.other "kafka error") (GoError.other "kafka error")
    (fun _ hc => Option.noConfusion hc) rfl rfl rfl rfl
  ⟨h.1.1, h.2.2.2.1⟩

/-- C7: for every context, user ID and state, the three notify operations and
`Close` of the no-op notifier return nil and leave the state as it was: no
write, no sleep, no save, no log call. -/
theorem noop_notifier_does_nothing (n : NoopNotifier) (ctx : Context) (userID : UUID)
    (s : State) :
    n.NotifyCreated ctx userID s = (Outcome.ret none, s) ∧
    n.NotifyUpdated ctx userID s = (Outcome.ret none, s) ∧
    n.NotifyDeleted ctx userID s = (Outcome.ret none, s) ∧
    n.Close s = (Outcome.ret none, s) ∧
    newEffects s (n.NotifyCreated ctx userID s).2 = [] ∧
    newEffects s (n.NotifyUpdated ctx userID s).2 = [] ∧
    newEffects s (n.NotifyDeleted ctx userID s).2 = [] ∧
    newEffects s (n.Close s).2 = [] := by
  simp [NoopNotifier.NotifyCreated, NoopNotifier.NotifyUpdated, NoopNotifier.NotifyDeleted,
    NoopNotifier.Close, newEffects]

/-- C8: `NewNotifier` returns a no-op notifier exactly when `cfg.KafkaBrokers`
is the empty string, and exactly otherwise a Kafka notifier, whose dead-letter
store is the `failedEventRepo` passed in. -/
theorem newNotifier_selects_variant (cfg : Config) (logger : Logger)
    (failedEventRepo : FailedEventRepository) (s : State) :
    ((∃ x : NoopNotifier, (NewNotifier cfg logger failedEventRepo s).1 = Notifier.noop x) ↔
      cfg.KafkaBrokers = "") ∧
    ((∃ k : KafkaNotifier, (NewNotifier cfg logger failedEventRepo s).1 = Notifier.kafka k ∧
        k.failedEventRepo = failedEventRepo) ↔
      cfg.KafkaBrokers ≠ "") := by
  by_cases h : cfg.KafkaBrokers = ""
  · simp [NewNotifier, NewNoopNotifier, h]
  · simp only [NewNotifier, NewKafkaNotifier, h, ↓reduceIte, ne_eq, not_false_eq_true,
      iff_true, iff_false, not_exists]
    refine ⟨fun x hx => Notifier.noConfusion hx, ⟨_, rfl, rfl⟩⟩

/-- C9: if serializing the envelope fails, `publish` returns nil and its only
effect is one log call: no write on the transport, no sleep, no `Save`. -/
theorem publish_marshal_failure_skips_delivery (env : Env) (n : KafkaNotifier) (ctx : Context)
    (eventType : EventType) (userID : UUID) (s : State) (err : GoError)
    (hm : env.jsonMarshal (envelopeAt env s eventType userID) = Except.error err) :
    (n.publish env ctx eventType userID s).1 = Outcome.ret none ∧
    ioOf (newEffects s (n.publish env ctx eventType userID s).2) = [] ∧
    writesOf (newEffects s (n.publish env ctx eventType userID s).2) = [] ∧
    sleepsOf (newEffects s (n.publish env ctx eventType userID s).2) = [] ∧
    savesOf (newEffects s (n.publish env ctx eventType userID s).2) = [] ∧
    (n.publish env ctx eventType userID s).2.writeCalls = s.writeCalls ∧
    (n.publish env ctx eventType userID s).2.saveCalls = s.saveCalls := by
  rw [publish_marshal_error_run env n ctx eventType userID s err hm]
  simp [newEffects, ioOf, Effect.isLog, writesOf, sleepsOf, savesOf]

theorem publish_marshal_failure_skips_delivery_witness :
    (KafkaNotifier.publish brokenMarshalEnv (testNotifier okRepo) Context.Background
      EventTypeUserUpdated (UUID.ofNat 5) State.init).1 = Outcome.ret none ∧
    ioOf (newEffects State.init (KafkaNotifier.publish brokenMarshalEnv (testNotifier okRepo)
      Context.Background EventTypeUserUpdated (UUID.ofNat 5) State.init).2) = [] :=
  have h := publish_marshal_failure_skips_delivery brokenMarshalEnv (testNotifier okRepo)
    Context.Background EventTypeUserUpdated (UUID.ofNat 5) State.init
    (GoError.other "unsupported value") rfl
  ⟨h.1, h.2.1⟩


/-! ## The service: claim C10 -/

theorem silentNotifier_returns : silentNotifier.Returns :=
  fun _ _ _ => ⟨⟨none, rfl⟩, ⟨none, rfl⟩, ⟨none, rfl⟩⟩

theorem erroringNotifier_returns : erroringNotifier.Returns :=
  fun _ _ _ => ⟨⟨_, rfl⟩, ⟨_, rfl⟩, ⟨_, rfl⟩⟩

theorem noopNotifier_returns (n : NoopNotifier) : n.toUserNotifier.Returns :=
  fun _ _ _ => ⟨⟨none, rfl⟩, ⟨none, rfl⟩, ⟨none, rfl⟩⟩

theorem kafkaNotifier_returns (env : Env) (n : KafkaNotifier) : (n.toUserNotifier env).Returns :=
  fun ctx id s =>
    ⟨⟨none, publishWith_fst maxRetries (by decide) env n ctx EventTypeUserCreated id s⟩,
     ⟨none, publishWith_fst maxRetries (by decide) env n ctx EventTypeUserUpdated id s⟩,
     ⟨none, publishWith_fst maxRetries (by decide) env n ctx EventTypeUserDeleted id s⟩⟩

/-- With a notifier that returns, `Create` gives the result and leaves the
repository in the state it does with the silent notifier. -/
theorem create_silent {ρ ν : Type} (env : Env) (repo : UserRepository ρ) (n : UserNotifier ν)
    (hn : n.Returns) (ctx : Context) (req : CreateUserRequest) (r : ρ) (x : ν) :
    (UserService.Create env ⟨repo, n⟩ ctx req (r, x)).1 =
      (UserService.Create env ⟨repo, silentNotifier⟩ ctx req (r, ())).1 ∧
    (UserService.Create env ⟨repo, n⟩ ctx req (r, x)).2.1 =
      (UserService.Create env ⟨repo, silentNotifier⟩ ctx req (r, ())).2.1 := by
  simp only [UserService.Create, silentNotifier]
  repeat' first | exact ⟨rfl, rfl⟩ | split
  all_goals
    rename_i u1 r2 hq1 xo p n1 heq
    obtain ⟨e, he⟩ := (hn ctx u1.ID x).1
    rw [heq] at he
    cases he

/-- With a notifier that returns, `Delete` gives the result and leaves the
repository in the state it does with the silent notifier. -/
theorem delete_silent {ρ ν : Type} (repo : UserRepository ρ) (n : UserNotifier ν)
    (hn : n.Returns) (ctx : Context) (id : UUID) (r : ρ) (x : ν) :
    (UserService.Delete ⟨repo, n⟩ ctx id (r, x)).1 =
      (UserService.Delete ⟨repo, silentNotifier⟩ ctx id (r, ())).1 ∧
    (UserService.Delete ⟨repo, n⟩ ctx id (r, x)).2.1 =
      (UserService.Delete ⟨repo, silentNotifier⟩ ctx id (r, ())).2.1 := by
  simp only [UserService.Delete, silentNotifier]
  repeat' first | exact ⟨rfl, rfl⟩ | split
  all_goals
    rename_i p n1 heq
    obtain ⟨e, he⟩ := (hn ctx id x).2.2
    rw [heq] at he
    cases he

/-- With a notifier that returns, `Update` gives the result and leaves the
repository in the state it does with the silent notifier. -/
theorem update_silent {ρ ν : Type} (env : Env) (repo : UserRepository ρ) (n : UserNotifier ν)
    (hn : n.Returns) (ctx : Context) (id : UUID) (req : UpdateUserRequest) (r : ρ) (x : ν) :
    (UserService.Update env ⟨repo, n⟩ ctx id req (r, x)).1 =
      (UserService.Update env ⟨repo, silentNotifier⟩ ctx id req (r, ())).1 ∧
    (UserService.Update env ⟨repo, n⟩ ctx id req (r, x)).2.1 =
      (UserService.Update env ⟨repo, silentNotifier⟩ ctx id req (r, ())).2.1 := by
  simp only [UserService.Update, silentNotifier]
  repeat' first | exact ⟨rfl, rfl⟩ | split
  all_goals
    rename_i u5 r3 hq1 xo p n1 heq
    obtain ⟨e, he⟩ := (hn ctx u5.ID x).2.1
    rw [heq] at he
    cases he

/-- C10: the result of `Create`, `Update` and `Delete`, and the state they
leave the repository in, are the same for any two notifiers that return,
whatever error they return and whatever state they are in: for the same
request and the same repository state only the repository decides. -/
theorem service_result_independent_of_notifier {ρ ν₁ ν₂ : Type} (env : Env)
    (repo : UserRepository ρ) (n₁ : UserNotifier ν₁) (n₂ : UserNotifier ν₂)
    (h₁ : n₁.Returns) (h₂ : n₂.Returns) (ctx : Context) (r : ρ) (x₁ : ν₁) (x₂ : ν₂) :
    (∀ req : CreateUserRequest,
      (UserService.Create env ⟨repo, n₁⟩ ctx req (r, x₁)).1 =
        (UserService.Create env ⟨repo, n₂⟩ ctx req (r, x₂)).1 ∧
      (UserService.Create env ⟨repo, n₁⟩ ctx req (r, x₁)).2.1 =
        (UserService.Create env ⟨repo, n₂⟩ ctx req (r, x₂)).2.1) ∧
    (∀ (id : UUID) (req : UpdateUserRequest),
      (UserService.Update env ⟨repo, n₁⟩ ctx id req (r, x₁)).1 =
        (UserService.Update env ⟨repo, n₂⟩ ctx id req (r, x₂)).1 ∧
      (UserService.Update env ⟨repo, n₁⟩ ctx id req (r, x₁)).2.1 =
        (UserService.Update env ⟨repo, n₂⟩ ctx id req (r, x₂)).2.1) ∧
    (∀ id : UUID,
      (UserService.Delete ⟨repo, n₁⟩ ctx id (r, x₁)).1 =
        (UserService.Delete ⟨repo, n₂⟩ ctx id (r, x₂)).1 ∧
      (UserService.Delete ⟨repo, n₁⟩ ctx id (r, x₁)).2.1 =
        (UserService.Delete ⟨repo, n₂⟩ ctx id (r, x₂)).2.1) := by
  refine ⟨fun req => ?_, fun id req => ?_, fun id => ?_⟩
  · have a := create_silent env repo n₁ h₁ ctx req r x₁
    have b := create_silent env repo n₂ h₂ ctx req r x₂
    exact ⟨a.1.trans b.1.symm, a.2.trans b.2.symm⟩
  · have a := update_silent env repo n₁ h₁ ctx id req r x₁
    have b := update_silent env repo n₂ h₂ ctx id req r x₂
    exact ⟨a.1.trans b.1.symm, a.2.trans b.2.symm⟩
  · have a := delete_silent repo n₁ h₁ ctx id r x₁
    have b := delete_silent repo n₂ h₂ ctx id r x₂
    exact ⟨a.1.trans b.1.symm, a.2.trans b.2.symm⟩

theorem service_result_independent_of_notifier_witness :
    (UserService.Create (scriptedEnv fun _ => some (GoError.other "connection refused"))
      ⟨memRepo, (testNotifier failingRepo).toUserNotifier
        (scriptedEnv fun _ => some (GoError.other "connection refused"))⟩
      Context.Background ⟨" Ada@Example.COM", "Ada", "Lovelace"⟩ ([], State.init)).1 =
    (UserService.Create (scriptedEnv fun _ => some (GoError.other "connection refused"))
      ⟨memRepo, erroringNotifier⟩
      Context.Background ⟨" Ada@Example.COM", "Ada", "Lovelace"⟩ ([], 0)).1 :=
  ((service_result_independent_of_notifier
    (scriptedEnv fun _ => some (GoError.other "connection refused")) memRepo
    ((testNotifier failingRepo).toUserNotifier
      (scriptedEnv fun _ => some (GoError.other "connection refused")))
    erroringNotifier
    (kafkaNotifier_returns _ _) erroringNotifier_returns
    Context.Background [] State.init 0).1 ⟨" Ada@Example.COM", "Ada", "Lovelace"⟩).1

/-! ## The notifier: claims C12 to C15, C18 to C20 -/

/-- The complete run of `publish` when the first attempt succeeds. -/
theorem publish_first_run (env : Env) (n : KafkaNotifier) (ctx : Context)
    (eventType : EventType) (userID : UUID) (s : State) (payload : String)
    (hm : env.jsonMarshal (envelopeAt env s eventType userID) = Except.ok payload)
    (h1 : env.WriteMessages n.writer s.writeCalls ctx (messageFor eventType userID payload)
      = none) :
    n.publish env ctx eventType userID s =
      (Outcome.ret none,
        { uuidCalls := s.uuidCalls + 1
          nowCalls := s.nowCalls + 1
          writeCalls := s.writeCalls + 1
          saveCalls := s.saveCalls
          trace := s.trace ++
            [Effect.write n.writer ctx (messageFor eventType userID payload),
             publishedLog (envelopeAt env s eventType userID).EventID eventType userID] }) := by
  simp only [envelopeAt, messageFor] at hm h1
  simp only [KafkaNotifier.publish, publishWith, uuidNew, timeNow, hm, maxRetries,
    range'_one_three, publishLoop, writeMessages, h1, logCall,
    envelopeAt, messageFor, publishedLog,
    List.append_assoc, List.singleton_append, List.cons_append, List.nil_append]

/-- The complete run of `publish` when the first attempt fails and the second
succeeds. -/
theorem publish_second_run (env : Env) (n : KafkaNotifier) (ctx : Context)
    (eventType : EventType) (userID : UUID) (s : State) (payload : String) (e1 : GoError)
    (hm : env.jsonMarshal (envelopeAt env s eventType userID) = Except.ok payload)
    (h1 : env.WriteMessages n.writer s.writeCalls ctx (messageFor eventType userID payload)
      = some e1)
    (h2 : env.WriteMessages n.writer (s.writeCalls + 1) ctx (messageFor eventType userID payload)
      = none) :
    n.publish env ctx eventType userID s =
      (Outcome.ret none,
        { uuidCalls := s.uuidCalls + 1
          nowCalls := s.nowCalls + 1
          writeCalls := s.writeCalls + 2
          saveCalls := s.saveCalls
          trace := s.trace ++
            [Effect.write n.writer ctx (messageFor eventType userID payload),
             attemptFailedLog eventType userID 1 e1,
             Effect.sleep Second,
             Effect.write n.writer ctx (messageFor eventType userID payload),
             publishedLog (envelopeAt env s eventType userID).EventID eventType userID] }) := by
  simp only [envelopeAt, messageFor] at hm h1 h2
  simp only [KafkaNotifier.publish, publishWith, uuidNew, timeNow, hm, maxRetries,
    range'_one_three, publishLoop, writeMessages, h1, h2, logCall, timeSleep,
    Nat.reduceLT, Nat.reduceAdd, Nat.add_assoc, ↓reduceIte, Nat.lt_irrefl,
    envelopeAt, messageFor, attemptFailedLog, publishedLog,
    List.append_assoc, List.singleton_append, List.cons_append, List.nil_append]
  have hS : initialDelay = Second := by decide
  rw [hS]

/-- Every run of `publish` is one of five: the serializer fails, or one of the
three attempts is the first to succeed, or all three fail. -/
theorem publish_cases (env : Env) (n : KafkaNotifier) (ctx : Context)
    (eventType : EventType) (userID : UUID) (s : State) :
    (∃ err, env.jsonMarshal (envelopeAt env s eventType userID) = Except.error err) ∨
    (∃ payload, env.jsonMarshal (envelopeAt env s eventType userID) = Except.ok payload ∧
      (env.WriteMessages n.writer s.writeCalls ctx (messageFor eventType userID payload) = none ∨
       (∃ e1,
          env.WriteMessages n.writer s.writeCalls ctx (messageFor eventType userID payload)
            = some e1 ∧
          env.WriteMessages n.writer (s.writeCalls + 1) ctx
            (messageFor eventType userID payload) = none) ∨
       (∃ e1 e2,
          env.WriteMessages n.writer s.writeCalls ctx (messageFor eventType userID payload)
            = some e1 ∧
          env.WriteMessages n.writer (s.writeCalls + 1) ctx
            (messageFor eventType userID payload) = some e2 ∧
          env.WriteMessages n.writer (s.writeCalls + 2) ctx
            (messageFor eventType userID payload) = none) ∨
       (∃ e1 e2 e3,
          env.WriteMessages n.writer s.writeCalls ctx (messageFor eventType userID payload)
            = some e1 ∧
          env.WriteMessages n.writer (s.writeCalls + 1) ctx
            (messageFor eventType userID payload) = some e2 ∧
          env.WriteMessages n.writer (s.writeCalls + 2) ctx
            (messageFor eventType userID payload) = some e3))) := by
  cases hm : env.jsonMarshal (envelopeAt env s eventType userID) with
  | error err => exact Or.inl ⟨err, rfl⟩
  | ok payload =>
    refine Or.inr ⟨payload, rfl, ?_⟩
    cases h1 : env.WriteMessages n.writer s.writeCalls ctx
        (messageFor eventType userID payload) with
    | none => exact Or.inl rfl
    | some e1 =>
      cases h2 : env.WriteMessages n.writer (s.writeCalls + 1) ctx
          (messageFor eventType userID payload) with
      | none => exact Or.inr (Or.inl ⟨e1, rfl, rfl⟩)
      | some e2 =>
        cases h3 : env.WriteMessages n.writer (s.writeCalls + 2) ctx
            (messageFor eventType userID payload) with
        | none => exact Or.inr (Or.inr (Or.inl ⟨e1, e2, rfl, rfl, rfl⟩))
        | some e3 => exact Or.inr (Or.inr (Or.inr ⟨e1, e2, e3, rfl, rfl, rfl⟩))

theorem writesOf_dlqLog (event : UserEvent) (r : Option GoError) (t : List Effect) :
    writesOf (dlqLog event r :: t) = writesOf t := by
  cases r <;> rfl

theorem sleepsOf_dlqLog (event : UserEvent) (r : Option GoError) (t : List Effect) :
    sleepsOf (dlqLog event r :: t) = sleepsOf t := by
  cases r <;> rfl

theorem savesOf_dlqLog (event : UserEvent) (r : Option GoError) (t : List Effect) :
    savesOf (dlqLog event r :: t) = savesOf t := by
  cases r <;> rfl

/-- What one call of `publish` writes, sleeps and saves, whatever the
serializer, the transport and the dead-letter store do. -/
theorem publish_summary (env : Env) (n : KafkaNotifier) (ctx : Context)
    (eventType : EventType) (userID : UUID) (s : State) :
    (∃ err, env.jsonMarshal (envelopeAt env s eventType userID) = Except.error err ∧
      writesOf (newEffects s (n.publish env ctx eventType userID s).2) = [] ∧
      sleepsOf (newEffects s (n.publish env ctx eventType userID s).2) = [] ∧
      savesOf (newEffects s (n.publish env ctx eventType userID s).2) = []) ∨
    (∃ payload, env.jsonMarshal (envelopeAt env s eventType userID) = Except.ok payload ∧
      ((writesOf (newEffects s (n.publish env ctx eventType userID s).2) =
          [messageFor eventType userID payload] ∧
        sleepsOf (newEffects s (n.publish env ctx eventType userID s).2) = [] ∧
        savesOf (newEffects s (n.publish env ctx eventType userID s).2) = []) ∨
       (writesOf (newEffects s (n.publish env ctx eventType userID s).2) =
          [messageFor eventType userID payload, messageFor eventType userID payload] ∧
        sleepsOf (newEffects s (n.publish env ctx eventType userID s).2) = [Second] ∧
        savesOf (newEffects s (n.publish env ctx eventType userID s).2) = []) ∨
       (writesOf (newEffects s (n.publish env ctx eventType userID s).2) =
          [messageFor eventType userID payload, messageFor eventType userID payload,
           messageFor eventType userID payload] ∧
        sleepsOf (newEffects s (n.publish env ctx eventType userID s).2) =
          [Second, 2 * Second] ∧
        savesOf (newEffects s (n.publish env ctx eventType userID s).2) = []) ∨
       (∃ e3, writesOf (newEffects s (n.publish env ctx eventType userID s).2) =
          [messageFor eventType userID payload, messageFor eventType userID payload,
           messageFor eventType userID payload] ∧
        sleepsOf (newEffects s (n.publish env ctx eventType userID s).2) =
          [Second, 2 * Second] ∧
        savesOf (newEffects s (n.publish env ctx eventType userID s).2) =
          [dlqRecordAt env s eventType userID payload e3]))) := by
  rcases publish_cases env n ctx eventType userID s with
    ⟨err, hm⟩ | ⟨payload, hm, h1 | ⟨e1, h1, h2⟩ | ⟨e1, e2, h1, h2, h3⟩ | ⟨e1, e2, e3, h1, h2, h3⟩⟩
  · refine Or.inl ⟨err, hm, ?_⟩
    rw [publish_marshal_error_run env n ctx eventType userID s err hm]
    simp [newEffects, writesOf, sleepsOf, savesOf]
  · refine Or.inr ⟨payload, hm, Or.inl ?_⟩
    rw [publish_first_run env n ctx eventType userID s payload hm h1]
    simp [newEffects, writesOf, sleepsOf, savesOf, publishedLog]
  · refine Or.inr ⟨payload, hm, Or.inr (Or.inl ?_)⟩
    rw [publish_second_run env n ctx eventType userID s payload e1 hm h1 h2]
    simp [newEffects, writesOf, sleepsOf, savesOf, publishedLog, attemptFailedLog]
  · refine Or.inr ⟨payload, hm, Or.inr (Or.inr (Or.inl ?_))⟩
    rw [publish_third_run env n ctx eventType userID s payload e1 e2 hm h1 h2 h3]
    simp [newEffects, writesOf, sleepsOf, savesOf, publishedLog, attemptFailedLog]
  · refine Or.inr ⟨payload, hm, Or.inr (Or.inr (Or.inr ⟨e3, ?_⟩))⟩
    rw [publish_exhausted_run env n ctx eventType userID s payload e1 e2 e3 hm h1 h2 h3]
    simp [newEffects, writesOf, sleepsOf, savesOf, attemptFailedLog, writesOf_dlqLog,
      sleepsOf_dlqLog, savesOf_dlqLog]

theorem publish_uuidCalls (env : Env) (n : KafkaNotifier) (ctx : Context)
    (eventType : EventType) (userID : UUID) (s : State) :
    (n.publish env ctx eventType userID s).2.uuidCalls = s.uuidCalls + 1 ∧
    (n.publish env ctx eventType userID s).2.writeCalls ≤ s.writeCalls + 3 := by
  rcases publish_cases env n ctx eventType userID s with
    ⟨err, hm⟩ | ⟨payload, hm, h1 | ⟨e1, h1, h2⟩ | ⟨e1, e2, h1, h2, h3⟩ | ⟨e1, e2, e3, h1, h2, h3⟩⟩
  · rw [publish_marshal_error_run env n ctx eventType userID s err hm]
    exact ⟨rfl, by simp⟩
  · rw [publish_first_run env n ctx eventType userID s payload hm h1]
    exact ⟨rfl, by simp⟩
  · rw [publish_second_run env n ctx eventType userID s payload e1 hm h1 h2]
    exact ⟨rfl, by simp⟩
  · rw [publish_third_run env n ctx eventType userID s payload e1 e2 hm h1 h2 h3]
    exact ⟨rfl, by simp⟩
  · rw [publish_exhausted_run env n ctx eventType userID s payload e1 e2 e3 hm h1 h2 h3]
    exact ⟨rfl, by simp⟩

/-- C13: for every transport, serializer and dead-letter store, one call of
`publish` returns, makes at most `maxRetries = 3` writes, and the durations of
its sleeps add up to at most `initialDelay * (backoffFactor ^ maxRetries - 1)`,
which is 7 seconds (they add up to at most 3 seconds, in fact). -/
theorem publish_backoff_total_bounded (env : Env) (n : KafkaNotifier) (ctx : Context)
    (eventType : EventType) (userID : UUID) (s : State) :
    (n.publish env ctx eventType userID s).1 = Outcome.ret none ∧
    (writesOf (newEffects s (n.publish env ctx eventType userID s).2)).length ≤ maxRetries ∧
    (n.publish env ctx eventType userID s).2.writeCalls ≤ s.writeCalls + maxRetries ∧
    (sleepsOf (newEffects s (n.publish env ctx eventType userID s).2)).sum ≤
      initialDelay * (backoffFactor ^ maxRetries - 1) ∧
    initialDelay * (backoffFactor ^ maxRetries - 1) = 7 * Second ∧
    (sleepsOf (newEffects s (n.publish env ctx eventType userID s).2)).sum ≤ 3 * Second := by
  have hbound : initialDelay * (backoffFactor ^ maxRetries - 1) = 7 * Second := by decide
  refine ⟨publishWith_fst maxRetries (by decide) env n ctx eventType userID s, ?_,
    (publish_uuidCalls env n ctx eventType userID s).2, ?_, hbound, ?_⟩
  · rcases publish_summary env n ctx eventType userID s with
      ⟨_, _, hw, _, _⟩ | ⟨_, _, ⟨hw, _, _⟩ | ⟨hw, _, _⟩ | ⟨hw, _, _⟩ | ⟨_, hw, _, _⟩⟩ <;>
      rw [hw] <;> simp [maxRetries]
  · rw [hbound]
    rcases publish_summary env n ctx eventType userID s with
      ⟨_, _, _, hs, _⟩ | ⟨_, _, ⟨_, hs, _⟩ | ⟨_, hs, _⟩ | ⟨_, hs, _⟩ | ⟨_, _, hs, _⟩⟩ <;>
      rw [hs] <;> simp [Second]
  · rcases publish_summary env n ctx eventType userID s with
      ⟨_, _, _, hs, _⟩ | ⟨_, _, ⟨_, hs, _⟩ | ⟨_, hs, _⟩ | ⟨_, hs, _⟩ | ⟨_, _, hs, _⟩⟩ <;>
      rw [hs] <;> simp [Second]

/-- C14: all the writes of one call of `publish` carry the same message, whose
value is the serialization of the one envelope built on entry (event ID from
the single `uuid.New()` call, timestamp from the first `time.Now()`). -/
theorem publish_attempts_identical (env : Env) (n : KafkaNotifier) (ctx : Context)
    (eventType : EventType) (userID : UUID) (s : State) :
    (∀ m ∈ writesOf (newEffects s (n.publish env ctx eventType userID s).2),
      ∀ m' ∈ writesOf (newEffects s (n.publish env ctx eventType userID s).2), m = m') ∧
    (∀ m ∈ writesOf (newEffects s (n.publish env ctx eventType userID s).2),
      env.jsonMarshal
        { EventID := env.uuidNew s.uuidCalls
          EventType := eventType
          Timestamp := (env.timeNow s.nowCalls).UTC
          Data := { UserID := userID } } = Except.ok m.Value) ∧
    (n.publish env ctx eventType userID s).2.uuidCalls = s.uuidCalls + 1 := by
  refine ⟨?_, ?_, (publish_uuidCalls env n ctx eventType userID s).1⟩
  · rcases publish_summary env n ctx eventType userID s with
      ⟨_, _, hw, _, _⟩ | ⟨_, _, ⟨hw, _, _⟩ | ⟨hw, _, _⟩ | ⟨hw, _, _⟩ | ⟨_, hw, _, _⟩⟩ <;>
      rw [hw] <;> intro m hmem m' hmem' <;> simp at hmem hmem' <;> simp [hmem, hmem']
  · rcases publish_summary env n ctx eventType userID s with
      ⟨_, _, hw, _, _⟩ | ⟨_, hm, ⟨hw, _, _⟩ | ⟨hw, _, _⟩ | ⟨hw, _, _⟩ | ⟨_, hw, _, _⟩⟩ <;>
      rw [hw] <;> intro m hmem <;> simp at hmem <;> subst hmem <;> exact hm

/-- C15: every message `publish` hands to the transport has as key the
canonical string of the user ID, as value the serialized envelope, and exactly
the two headers `content-type = application/json` and `event-type = ` the event
type; and when the envelope serializes, at least one message is handed over. -/
theorem publish_message_shape (env : Env) (n : KafkaNotifier) (ctx : Context)
    (eventType : EventType) (userID : UUID) (s : State) :
    (∀ m ∈ writesOf (newEffects s (n.publish env ctx eventType userID s).2),
      m.Key = userID.String ∧
      env.jsonMarshal (envelopeAt env s eventType userID) = Except.ok m.Value ∧
      m.Headers = [⟨"content-type", "application/json"⟩, ⟨"event-type", eventType⟩]) ∧
    ((∃ payload, env.jsonMarshal (envelopeAt env s eventType userID) = Except.ok payload) ↔
      writesOf (newEffects s (n.publish env ctx eventType userID s).2) ≠ []) := by
  constructor
  · rcases publish_summary env n ctx eventType userID s with
      ⟨_, _, hw, _, _⟩ | ⟨_, hm, ⟨hw, _, _⟩ | ⟨hw, _, _⟩ | ⟨hw, _, _⟩ | ⟨_, hw, _, _⟩⟩ <;>
      rw [hw] <;> intro m hmem <;> simp at hmem <;> subst hmem <;> exact ⟨rfl, hm, rfl⟩
  · rcases publish_summary env n ctx eventType userID s with
      ⟨_, hm, hw, _, _⟩ | ⟨_, hm, ⟨hw, _, _⟩ | ⟨hw, _, _⟩ | ⟨hw, _, _⟩ | ⟨_, hw, _, _⟩⟩ <;>
      rw [hw] <;> simp [hm]

/-- C19: if attempt `k` (1 ≤ k ≤ 3) is the first to succeed, `publish` makes
exactly `k` writes and `k - 1` sleeps, its last effect apart from logging is
the successful write (no attempt and no sleep follows it), its last effect is
the "event published" log call, and `Save` is never called. -/
theorem publish_stops_at_first_success (env : Env) (n : KafkaNotifier) (ctx : Context)
    (eventType : EventType) (userID : UUID) (s : State) (payload : String)
    (k : Nat) (errs : Nat → GoError) (hk1 : 1 ≤ k) (hk3 : k ≤ 3)
    (hm : env.jsonMarshal (envelopeAt env s eventType userID) = Except.ok payload)
    (hfail : ∀ j, j + 1 < k →
      env.WriteMessages n.writer (s.writeCalls + j) ctx (messageFor eventType userID payload)
        = some (errs j))
    (hok : env.WriteMessages n.writer (s.writeCalls + (k - 1)) ctx
      (messageFor eventType userID payload) = none) :
    writesOf (newEffects s (n.publish env ctx eventType userID s).2) =
      List.replicate k (messageFor eventType userID payload) ∧
    (n.publish env ctx eventType userID s).2.writeCalls = s.writeCalls + k ∧
    sleepsOf (newEffects s (n.publish env ctx eventType userID s).2) =
      List.take (k - 1) [Second, 2 * Second] ∧
    (ioOf (newEffects s (n.publish env ctx eventType userID s).2)).getLast? =
      some (Effect.write n.writer ctx (messageFor eventType userID payload)) ∧
    (newEffects s (n.publish env ctx eventType userID s).2).getLast? =
      some (publishedLog (envelopeAt env s eventType userID).EventID eventType userID) ∧
    savesOf (newEffects s (n.publish env ctx eventType userID s).2) = [] ∧
    (n.publish env ctx eventType userID s).2.saveCalls = s.saveCalls := by
  have hk : k = 1 ∨ k = 2 ∨ k = 3 := by omega
  rcases hk with rfl | rfl | rfl
  · rw [publish_first_run env n ctx eventType userID s payload hm (by simpa using hok)]
    simp [newEffects, writesOf, sleepsOf, savesOf, ioOf, Effect.isLog, publishedLog]
  · have h1 := hfail 0 (by omega)
    rw [publish_second_run env n ctx eventType userID s payload (errs 0) hm
      (by simpa using h1) (by simpa using hok)]
    simp [newEffects, writesOf, sleepsOf, savesOf, ioOf, Effect.isLog, publishedLog,
      attemptFailedLog, List.replicate]
  · have h1 := hfail 0 (by omega)
    have h2 := hfail 1 (by omega)
    rw [publish_third_run env n ctx eventType userID s payload (errs 0) (errs 1) hm
      (by simpa using h1) h2 (by simpa using hok)]
    simp [newEffects, writesOf, sleepsOf, savesOf, ioOf, Effect.isLog, publishedLog,
      attemptFailedLog, List.replicate]

theorem publish_stops_at_first_success_witness :
    writesOf (newEffects State.init
      (KafkaNotifier.publish (scriptedEnv fun _ => none) (testNotifier okRepo)
        Context.Background EventTypeUserCreated (UUID.ofNat 7) State.init).2) =
      [messageFor EventTypeUserCreated (UUID.ofNat 7) "payload"] ∧
    sleepsOf (newEffects State.init
      (KafkaNotifier.publish (scriptedEnv fun _ => none) (testNotifier okRepo)
        Context.Background EventTypeUserCreated (UUID.ofNat 7) State.init).2) = [] :=
  have h := publish_stops_at_first_success (scriptedEnv fun _ => none) (testNotifier okRepo)
    Context.Background EventTypeUserCreated (UUID.ofNat 7) State.init "payload" 1
    (fun _ => GoError.other "unused") (by decide) (by decide) rfl
    (fun j hj => absurd hj (by omega)) rfl
  ⟨h.1, h.2.2.1⟩

theorem publish_publishedAs (env : Env) (n : KafkaNotifier) (ctx : Context)
    (eventType : EventType) (userID : UUID) (s : State) :
    PublishedAs env s (n.publish env ctx eventType userID s) eventType userID := by
  unfold PublishedAs
  rcases publish_summary env n ctx eventType userID s with
    ⟨_, hm, hw, _, hs⟩ | ⟨_, hm, ⟨hw, _, hs⟩ | ⟨hw, _, hs⟩ | ⟨hw, _, hs⟩ | ⟨_, hw, _, hs⟩⟩ <;>
    rw [hw, hs] <;> refine ⟨?_, ?_, ?_⟩
  all_goals first
    | (intro m hmem
       simp at hmem
       try subst hmem
       first
        | exact ⟨rfl, envelopeAt env s eventType userID, rfl, rfl, hm⟩
        | exact ⟨rfl, rfl⟩)
    | simp [hm]

/-- C20: `NotifyCreated`, `NotifyUpdated` and `NotifyDeleted` publish the
event type of their name, "user.created", "user.updated" and "user.deleted"
(three different strings), for the user ID passed in: the `event-type` header,
the serialized envelope and a dead-letter record all carry that event type, and
the envelope and the record carry that user ID. -/
theorem notify_event_types (env : Env) (n : KafkaNotifier) (ctx : Context)
    (userID : UUID) (s : State) :
    PublishedAs env s (n.NotifyCreated env ctx userID s) "user.created" userID ∧
    PublishedAs env s (n.NotifyUpdated env ctx userID s) "user.updated" userID ∧
    PublishedAs env s (n.NotifyDeleted env ctx userID s) "user.deleted" userID ∧
    EventTypeUserCreated = "user.created" ∧ EventTypeUserUpdated = "user.updated" ∧
    EventTypeUserDeleted = "user.deleted" ∧
    EventTypeUserCreated ≠ EventTypeUserUpdated ∧ EventTypeUserCreated ≠ EventTypeUserDeleted ∧
    EventTypeUserUpdated ≠ EventTypeUserDeleted :=
  ⟨publish_publishedAs env n ctx EventTypeUserCreated userID s,
   publish_publishedAs env n ctx EventTypeUserUpdated userID s,
   publish_publishedAs env n ctx EventTypeUserDeleted userID s,
   rfl, rfl, rfl, by decide, by decide, by decide⟩

/-- Counterexample to C12: with a context that is already cancelled and a
transport that honours it (every write fails at once with "context canceled"),
`publish` still sleeps 1 second and 2 seconds and makes all three attempts
before the dead-letter write. -/
theorem publish_sleeps_under_cancelled_context :
    cancelledCtx.done = true ∧
    sleepsOf (newEffects State.init
      (KafkaNotifier.publish ctxAwareEnv (testNotifier okRepo) cancelledCtx
        EventTypeUserCreated (UUID.ofNat 7) State.init).2) = [1000000000, 2000000000] ∧
    (writesOf (newEffects State.init
      (KafkaNotifier.publish ctxAwareEnv (testNotifier okRepo) cancelledCtx
        EventTypeUserCreated (UUID.ofNat 7) State.init).2)).length = 3 ∧
    (savesOf (newEffects State.init
      (KafkaNotifier.publish ctxAwareEnv (testNotifier okRepo) cancelledCtx
        EventTypeUserCreated (UUID.ofNat 7) State.init).2)).length = 1 := by
  rw [publish_exhausted_run ctxAwareEnv (testNotifier okRepo) cancelledCtx
    EventTypeUserCreated (UUID.ofNat 7) State.init "payload"
    (GoError.other "context canceled") (GoError.other "context canceled")
    (GoError.other "context canceled") rfl rfl rfl rfl]
  refine ⟨rfl, ?_⟩
  simp [newEffects, State.init, writesOf, sleepsOf, savesOf, attemptFailedLog,
    writesOf_dlqLog, sleepsOf_dlqLog, savesOf_dlqLog, Second]

/-- C12, amended: `publish` hands the caller's context to every write and to
`Save` and looks at it nowhere else; the backoff sleep is unconditional. For
two contexts under which the transport answers alike, the writes and the sleeps
of `publish` are the same, whether or not either context is cancelled. -/
theorem publish_context_only_reaches_collaborators (env : Env) (n : KafkaNotifier)
    (ctx₁ ctx₂ : Context) (eventType : EventType) (userID : UUID) (s : State)
    (hw : ∀ k m, env.WriteMessages n.writer k ctx₁ m = env.WriteMessages n.writer k ctx₂ m) :
    sleepsOf (newEffects s (n.publish env ctx₁ eventType userID s).2) =
      sleepsOf (newEffects s (n.publish env ctx₂ eventType userID s).2) ∧
    writesOf (newEffects s (n.publish env ctx₁ eventType userID s).2) =
      writesOf (newEffects s (n.publish env ctx₂ eventType userID s).2) ∧
    (∀ w c m, Effect.write w c m ∈ newEffects s (n.publish env ctx₁ eventType userID s).2 →
      c = ctx₁) ∧
    (∀ c r, Effect.save c r ∈ newEffects s (n.publish env ctx₁ eventType userID s).2 →
      c = ctx₁) := by
  rcases publish_cases env n ctx₁ eventType userID s with
    ⟨err, hm⟩ | ⟨payload, hm, h1 | ⟨e1, h1, h2⟩ | ⟨e1, e2, h1, h2, h3⟩ | ⟨e1, e2, e3, h1, h2, h3⟩⟩
  · rw [publish_marshal_error_run env n ctx₁ eventType userID s err hm,
      publish_marshal_error_run env n ctx₂ eventType userID s err hm]
    simp [newEffects]
  · rw [publish_first_run env n ctx₁ eventType userID s payload hm h1,
      publish_first_run env n ctx₂ eventType userID s payload hm (hw _ _ ▸ h1)]
    simp [newEffects, writesOf, sleepsOf, publishedLog]
    intros
    assumption
  · rw [publish_second_run env n ctx₁ eventType userID s payload e1 hm h1 h2,
      publish_second_run env n ctx₂ eventType userID s payload e1 hm (hw _ _ ▸ h1)
        (hw _ _ ▸ h2)]
    simp [newEffects, writesOf, sleepsOf, publishedLog, attemptFailedLog]
    intros
    assumption
  · rw [publish_third_run env n ctx₁ eventType userID s payload e1 e2 hm h1 h2 h3,
      publish_third_run env n ctx₂ eventType userID s payload e1 e2 hm (hw _ _ ▸ h1)
        (hw _ _ ▸ h2) (hw _ _ ▸ h3)]
    simp [newEffects, writesOf, sleepsOf, publishedLog, attemptFailedLog]
    intros
    assumption
  · rw [publish_exhausted_run env n ctx₁ eventType userID s payload e1 e2 e3 hm h1 h2 h3,
      publish_exhausted_run env n ctx₂ eventType userID s payload e1 e2 e3 hm (hw _ _ ▸ h1)
        (hw _ _ ▸ h2) (hw _ _ ▸ h3)]
    simp [newEffects, writesOf, sleepsOf, attemptFailedLog, writesOf_dlqLog, sleepsOf_dlqLog]
    refine ⟨?_, ?_⟩
    · intro w c m hmem
      cases hs : n.failedEventRepo.Save s.saveCalls ctx₁
        (dlqRecordAt env s eventType userID payload e3) <;> simp [hs, dlqLog] at hmem <;>
        exact hmem.2.1
    · intro c r hmem
      cases hs : n.failedEventRepo.Save s.saveCalls ctx₁
        (dlqRecordAt env s eventType userID payload e3) <;> simp [hs, dlqLog] at hmem <;>
        exact hmem.1

theorem publish_context_only_reaches_collaborators_witness :
    sleepsOf (newEffects State.init
      (KafkaNotifier.publish (scriptedEnv fun _ => some (GoError.other "context canceled"))
        (testNotifier okRepo) Context.Background EventTypeUserCreated (UUID.ofNat 7)
        State.init).2) =
    sleepsOf (newEffects State.init
      (KafkaNotifier.publish (scriptedEnv fun _ => some (GoError.other "context canceled"))
        (testNotifier okRepo) cancelledCtx EventTypeUserCreated (UUID.ofNat 7)
        State.init).2) :=
  (publish_context_only_reaches_collaborators
    (scriptedEnv fun _ => some (GoError.other "context canceled")) (testNotifier okRepo)
    Context.Background cancelledCtx EventTypeUserCreated (UUID.ofNat 7) State.init
    (fun _ _ => rfl)).1

/-! ### The retry loop for any attempt limit -/

/-- With an empty list of attempts left, the loop does not look at the delay. -/
theorem publishLoop_nil_delay (limit : Nat) (env : Env) (n : KafkaNotifier) (ctx : Context)
    (event : UserEvent) (payload : String) (msg : Message) (d d' : Int)
    (le : Option GoError) (s : State) :
    publishLoop limit env n ctx event payload msg [] d le s =
      publishLoop limit env n ctx event payload msg [] d' le s := by
  simp only [publishLoop]

/-- While every attempt fails, the loop appends `failedAttempts` to the trace
and reaches its exit with the error of the last attempt. -/
theorem publishLoop_all_fail (limit : Nat) (env : Env) (n : KafkaNotifier) (ctx : Context)
    (event : UserEvent) (payload : String) (msg : Message) (errs : Nat → GoError)
    (l : List Nat) :
    ∀ (d : Int) (le : Option GoError) (s : State),
      (∀ j, j < l.length →
        env.WriteMessages n.writer (s.writeCalls + j) ctx msg = some (errs (s.writeCalls + j))) →
      publishLoop limit env n ctx event payload msg l d le s =
        publishLoop limit env n ctx event payload msg [] 0
          (lastErrAfter errs l s.writeCalls le)
          { s with
            writeCalls := s.writeCalls + l.length
            trace := s.trace ++
              failedAttempts limit n.writer ctx msg event.EventType event.Data.UserID errs
                l s.writeCalls d } := by
  induction l with
  | nil =>
    intro d le s _
    simp only [failedAttempts, lastErrAfter, List.length_nil, Nat.add_zero, List.append_nil]
    exact publishLoop_nil_delay limit env n ctx event payload msg d 0 le s
  | cons a rest ih =>
    intro d le s hfail
    have h0 := hfail 0 (by simp)
    simp only [Nat.add_zero] at h0
    have hrest : ∀ (t : State), t.writeCalls = s.writeCalls + 1 →
        ∀ j, j < rest.length →
          env.WriteMessages n.writer (t.writeCalls + j) ctx msg
            = some (errs (t.writeCalls + j)) := by
      intro t ht j hj
      have := hfail (j + 1) (by simp; omega)
      rw [ht]
      have e : s.writeCalls + 1 + j = s.writeCalls + (j + 1) := by omega
      rw [e]
      exact this
    by_cases hlt : a < limit
    · have step : publishLoop limit env n ctx event payload msg (a :: rest) d le s =
          publishLoop limit env n ctx event payload msg rest (wrapInt64 (d * backoffFactor))
            (some (errs s.writeCalls))
            (timeSleep d (logCall Level.error "failed to publish event"
              [Attr.String "event_type" event.EventType,
               Attr.String "user_id" event.Data.UserID.String,
               Attr.Int "attempt" (a : Int),
               Attr.String "error" (errs s.writeCalls).Error]
              (writeMessages env n.writer ctx msg s).2)) := by
        rw [publishLoop.eq_2]
        simp only [writeMessages, h0, hlt, ↓reduceIte]
      rw [step, ih _ _ _ (hrest _ rfl)]
      congr 1
      simp only [timeSleep, logCall, writeMessages, failedAttempts, hlt, ↓reduceIte,
        attemptFailedLog, List.length_cons, List.append_assoc, List.singleton_append,
        List.cons_append, List.nil_append, State.mk.injEq, true_and, and_true]
      omega
    · have step : publishLoop limit env n ctx event payload msg (a :: rest) d le s =
          publishLoop limit env n ctx event payload msg rest d
            (some (errs s.writeCalls))
            (logCall Level.error "failed to publish event"
              [Attr.String "event_type" event.EventType,
               Attr.String "user_id" event.Data.UserID.String,
               Attr.Int "attempt" (a : Int),
               Attr.String "error" (errs s.writeCalls).Error]
              (writeMessages env n.writer ctx msg s).2) := by
        rw [publishLoop.eq_2]
        simp only [writeMessages, h0, hlt, ↓reduceIte]
      rw [step, ih _ _ _ (hrest _ rfl)]
      congr 1
      simp only [logCall, writeMessages, failedAttempts, hlt, ↓reduceIte,
        attemptFailedLog, List.length_cons, List.append_assoc, List.singleton_append,
        List.cons_append, List.nil_append, State.mk.injEq, true_and, and_true]
      omega

theorem lastErrAfter_eq (errs : Nat → GoError) (l : List Nat) :
    ∀ (k : Nat) (le : Option GoError),
      lastErrAfter errs l k le = if l = [] then le else some (errs (k + (l.length - 1))) := by
  induction l with
  | nil => intro k le; rfl
  | cons a rest ih =>
    intro k le
    rw [lastErrAfter, ih]
    cases rest with
    | nil => simp
    | cons b r =>
      simp only [reduceCtorEq, ↓reduceIte, List.length_cons, Nat.add_sub_cancel]
      congr 2
      omega

theorem writesOf_failedAttempts (limit : Nat) (w : KafkaWriter) (ctx : Context) (msg : Message)
    (eventType : EventType) (userID : UUID) (errs : Nat → GoError) (l : List Nat) :
    ∀ (k : Nat) (d : Int),
      writesOf (failedAttempts limit w ctx msg eventType userID errs l k d) =
        List.replicate l.length msg := by
  induction l with
  | nil => intro k d; rfl
  | cons a rest ih =>
    intro k d
    by_cases hlt : a < limit <;>
      simp [failedAttempts, hlt, writesOf, attemptFailedLog, ih, List.replicate]

theorem savesOf_failedAttempts (limit : Nat) (w : KafkaWriter) (ctx : Context) (msg : Message)
    (eventType : EventType) (userID : UUID) (errs : Nat → GoError) (l : List Nat) :
    ∀ (k : Nat) (d : Int),
      savesOf (failedAttempts limit w ctx msg eventType userID errs l k d) = [] := by
  induction l with
  | nil => intro k d; rfl
  | cons a rest ih =>
    intro k d
    by_cases hlt : a < limit <;>
      simp [failedAttempts, hlt, savesOf, attemptFailedLog, ih]

theorem failedAttempts_cons_lt (limit : Nat) (w : KafkaWriter) (ctx : Context) (msg : Message)
    (eventType : EventType) (userID : UUID) (errs : Nat → GoError) (a : Nat) (rest : List Nat)
    (k : Nat) (d : Int) (hlt : a < limit) :
    failedAttempts limit w ctx msg eventType userID errs (a :: rest) k d =
      Effect.write w ctx msg :: attemptFailedLog eventType userID a (errs k) ::
        Effect.sleep d ::
          failedAttempts limit w ctx msg eventType userID errs rest (k + 1)
            (wrapInt64 (d * backoffFactor)) := by
  rw [failedAttempts, if_pos hlt]

theorem failedAttempts_cons_ge (limit : Nat) (w : KafkaWriter) (ctx : Context) (msg : Message)
    (eventType : EventType) (userID : UUID) (errs : Nat → GoError) (a : Nat) (rest : List Nat)
    (k : Nat) (d : Int) (hge : ¬ a < limit) :
    failedAttempts limit w ctx msg eventType userID errs (a :: rest) k d =
      Effect.write w ctx msg :: attemptFailedLog eventType userID a (errs k) ::
        failedAttempts limit w ctx msg eventType userID errs rest (k + 1) d := by
  rw [failedAttempts, if_neg hge]

theorem sleepsOf_failedAttempts (limit : Nat) (w : KafkaWriter) (ctx : Context) (msg : Message)
    (eventType : EventType) (userID : UUID) (errs : Nat → GoError) (m : Nat) :
    ∀ (a k : Nat) (d : Int), a + m = limit + 1 →
      sleepsOf (failedAttempts limit w ctx msg eventType userID errs (List.range' a m) k d) =
        backoffDelays (m - 1) d := by
  induction m with
  | zero => intro a k d _; rfl
  | succ m ih =>
    intro a k d ha
    rw [List.range'_succ]
    by_cases hlt : a < limit
    · obtain ⟨m', rfl⟩ : ∃ m', m = m' + 1 := ⟨m - 1, by omega⟩
      rw [failedAttempts_cons_lt _ _ _ _ _ _ _ _ _ _ _ hlt]
      have h := ih (a + 1) (k + 1) (wrapInt64 (d * backoffFactor)) (by omega)
      simp only [Nat.add_sub_cancel] at h ⊢
      rw [backoffDelays, ← h]
      rfl
    · have hm : m = 0 := by omega
      subst hm
      rw [failedAttempts_cons_ge _ _ _ _ _ _ _ _ _ _ _ hlt]
      rfl

theorem ioOf_failedAttempts (limit : Nat) (w : KafkaWriter) (ctx : Context) (msg : Message)
    (eventType : EventType) (userID : UUID) (errs : Nat → GoError) (m : Nat) :
    ∀ (a k : Nat) (d : Int), a + (m + 1) = limit + 1 →
      ioOf (failedAttempts limit w ctx msg eventType userID errs (List.range' a (m + 1)) k d) =
        writesSeparatedBy w ctx msg (backoffDelays m d) := by
  induction m with
  | zero =>
    intro a k d ha
    have hlt : ¬ a < limit := by omega
    rw [List.range'_succ, failedAttempts_cons_ge _ _ _ _ _ _ _ _ _ _ _ hlt]
    simp [List.range', failedAttempts, ioOf, Effect.isLog, attemptFailedLog,
      backoffDelays, writesSeparatedBy]
  | succ m ih =>
    intro a k d ha
    have hlt : a < limit := by omega
    rw [List.range'_succ, failedAttempts_cons_lt _ _ _ _ _ _ _ _ _ _ _ hlt]
    have := ih (a + 1) (k + 1) (wrapInt64 (d * backoffFactor)) (by omega)
    rw [backoffDelays, writesSeparatedBy, ← this]
    simp only [ioOf, attemptFailedLog]
    rfl

theorem wrapInt64_of_range (x : Int) (h0 : 0 ≤ x) (h1 : x < 2 ^ 63) : wrapInt64 x = x := by
  unfold wrapInt64
  omega

theorem backoffDelays_exact :
    ∀ (j : Nat) (d : Int), 0 ≤ d → (∀ i, i + 1 < j → d * 2 ^ (i + 1) < 2 ^ 63) →
      backoffDelays j d = (List.range j).map (fun i => d * 2 ^ i) := by
  intro j
  induction j with
  | zero => intro d _ _; rfl
  | succ j ih =>
    intro d h0 hb
    rw [backoffDelays, List.range_succ_eq_map, List.map_cons, List.map_map]
    simp only [pow_zero, mul_one, List.cons.injEq, true_and]
    cases j with
    | zero => rfl
    | succ j =>
      have h2 : d * backoffFactor < 2 ^ 63 := by
        have := hb 0 (by omega)
        simpa [backoffFactor] using this
      rw [wrapInt64_of_range _ (by simp [backoffFactor]; omega) h2]
      rw [ih (d * backoffFactor) (by simp [backoffFactor]; omega)]
      · apply List.map_congr_left
        intro i _
        simp only [Function.comp, backoffFactor, pow_succ]
        ring
      · intro i hi
        have := hb (i + 1) (by omega)
        simp only [backoffFactor]
        calc d * 2 * 2 ^ (i + 1) = d * 2 ^ (i + 1 + 1) := by ring
          _ < 2 ^ 63 := this

/-- The run of `publishWith limit` when all `limit` attempts fail. -/
theorem publishWith_all_fail (limit : Nat) (hl : 1 ≤ limit) (env : Env) (n : KafkaNotifier)
    (ctx : Context) (eventType : EventType) (userID : UUID) (s : State) (payload : String)
    (errs : Nat → GoError)
    (hm : env.jsonMarshal (envelopeAt env s eventType userID) = Except.ok payload)
    (hfail : ∀ j, j < limit →
      env.WriteMessages n.writer (s.writeCalls + j) ctx (messageFor eventType userID payload)
        = some (errs (s.writeCalls + j))) :
    ∃ lg : Effect, lg.isLog = true ∧
      (publishWith limit env n ctx eventType userID s).2.trace = s.trace ++
        (failedAttempts limit n.writer ctx (messageFor eventType userID payload) eventType userID
            errs (List.range' 1 limit) s.writeCalls initialDelay ++
          [Effect.save ctx (dlqRecordWith limit env s eventType userID payload
              (errs (s.writeCalls + (limit - 1)))), lg]) := by
  simp only [envelopeAt, messageFor] at hm hfail
  have hne : List.range' 1 limit ≠ [] := by
    intro h
    have := congrArg List.length h
    simp at this
    omega
  simp only [publishWith, uuidNew, timeNow, hm]
  rw [publishLoop_all_fail limit env n ctx _ payload _ errs (List.range' 1 limit) initialDelay
    none _ (by simpa using hfail)]
  rw [lastErrAfter_eq]
  simp only [hne, ↓reduceIte, List.length_range', publishLoop, saveToDLQWith, timeNow,
    repoSave, logCall, messageFor, dlqRecordWith]
  cases hsave : n.failedEventRepo.Save s.saveCalls ctx _ with
  | none =>
    refine ⟨Effect.log Level.warn "event saved to DLQ"
      [Attr.String "event_id" (env.uuidNew s.uuidCalls).String,
       Attr.String "event_type" eventType,
       Attr.String "user_id" userID.String,
       Attr.Int "attempts" (limit : Int)], rfl, ?_⟩
    simp [List.append_assoc]
  | some e =>
    refine ⟨Effect.log Level.error "failed to save event to DLQ"
      [Attr.String "event_id" (env.uuidNew s.uuidCalls).String,
       Attr.String "event_type" eventType,
       Attr.String "user_id" userID.String,
       Attr.String "error" e.Error], rfl, ?_⟩
    simp [List.append_assoc]

theorem writesOf_append (a b : List Effect) : writesOf (a ++ b) = writesOf a ++ writesOf b := by
  induction a with
  | nil => rfl
  | cons e t ih => cases e <;> simp [writesOf, ih]

theorem sleepsOf_append (a b : List Effect) : sleepsOf (a ++ b) = sleepsOf a ++ sleepsOf b := by
  induction a with
  | nil => rfl
  | cons e t ih => cases e <;> simp [sleepsOf, ih]

theorem savesOf_append (a b : List Effect) : savesOf (a ++ b) = savesOf a ++ savesOf b := by
  induction a with
  | nil => rfl
  | cons e t ih => cases e <;> simp [savesOf, ih]

theorem projections_of_log (lg : Effect) (h : lg.isLog = true) :
    writesOf [lg] = [] ∧ sleepsOf [lg] = [] ∧ savesOf [lg] = [] ∧ ioOf [lg] = [] := by
  cases lg <;> simp [Effect.isLog] at h
  simp [writesOf, sleepsOf, savesOf, ioOf, Effect.isLog]

/-- What `publishWith limit` writes, sleeps and saves when all `limit` attempts
fail. -/
theorem publishWith_all_fail_effects (limit : Nat) (hl : 1 ≤ limit) (env : Env)
    (n : KafkaNotifier) (ctx : Context) (eventType : EventType) (userID : UUID) (s : State)
    (payload : String) (errs : Nat → GoError)
    (hm : env.jsonMarshal (envelopeAt env s eventType userID) = Except.ok payload)
    (hfail : ∀ j, j < limit →
      env.WriteMessages n.writer (s.writeCalls + j) ctx (messageFor eventType userID payload)
        = some (errs (s.writeCalls + j))) :
    writesOf (newEffects s (publishWith limit env n ctx eventType userID s).2) =
      List.replicate limit (messageFor eventType userID payload) ∧
    sleepsOf (newEffects s (publishWith limit env n ctx eventType userID s).2) =
      backoffDelays (limit - 1) initialDelay ∧
    savesOf (newEffects s (publishWith limit env n ctx eventType userID s).2) =
      [dlqRecordWith limit env s eventType userID payload (errs (s.writeCalls + (limit - 1)))] ∧
    ioOf (newEffects s (publishWith limit env n ctx eventType userID s).2) =
      writesSeparatedBy n.writer ctx (messageFor eventType userID payload)
          (backoffDelays (limit - 1) initialDelay) ++
        [Effect.save ctx (dlqRecordWith limit env s eventType userID payload
          (errs (s.writeCalls + (limit - 1))))] := by
  obtain ⟨lg, hlg, htrace⟩ :=
    publishWith_all_fail limit hl env n ctx eventType userID s payload errs hm hfail
  obtain ⟨hw, hs, hv, hio⟩ := projections_of_log lg hlg
  have hδ := newEffects_append s _ _ htrace
  obtain ⟨m, rfl⟩ : ∃ m, limit = m + 1 := ⟨limit - 1, by omega⟩
  have hw' : writesOf [Effect.save ctx (dlqRecordWith (m + 1) env s eventType userID payload
      (errs (s.writeCalls + (m + 1 - 1)))), lg] = [] := by
    rw [show ∀ (x y : Effect), [x, y] = [x] ++ [y] from fun _ _ => rfl, writesOf_append, hw]
    rfl
  have hs' : sleepsOf [Effect.save ctx (dlqRecordWith (m + 1) env s eventType userID payload
      (errs (s.writeCalls + (m + 1 - 1)))), lg] = [] := by
    rw [show ∀ (x y : Effect), [x, y] = [x] ++ [y] from fun _ _ => rfl, sleepsOf_append, hs]
    rfl
  have hv' : savesOf [Effect.save ctx (dlqRecordWith (m + 1) env s eventType userID payload
      (errs (s.writeCalls + (m + 1 - 1)))), lg] =
      [dlqRecordWith (m + 1) env s eventType userID payload
        (errs (s.writeCalls + (m + 1 - 1)))] := by
    rw [show ∀ (x y : Effect), [x, y] = [x] ++ [y] from fun _ _ => rfl, savesOf_append, hv]
    rfl
  have hio' : ioOf [Effect.save ctx (dlqRecordWith (m + 1) env s eventType userID payload
      (errs (s.writeCalls + (m + 1 - 1)))), lg] =
      [Effect.save ctx (dlqRecordWith (m + 1) env s eventType userID payload
        (errs (s.writeCalls + (m + 1 - 1))))] := by
    simp only [ioOf] at hio ⊢
    rw [show ∀ (x y : Effect), [x, y] = [x] ++ [y] from fun _ _ => rfl, List.filter_append, hio]
    rfl
  rw [hδ]
  refine ⟨?_, ?_, ?_, ?_⟩
  · rw [writesOf_append, writesOf_failedAttempts, hw']
    simp
  · rw [sleepsOf_append, sleepsOf_failedAttempts _ _ _ _ _ _ _ _ _ _ _ (by omega), hs']
    simp
  · rw [savesOf_append, savesOf_failedAttempts, hv']
    simp
  · have := ioOf_failedAttempts (m + 1) n.writer ctx (messageFor eventType userID payload)
      eventType userID errs m 1 s.writeCalls initialDelay (by omega)
    simp only [ioOf] at this hio' ⊢
    rw [List.filter_append, this, hio']
    simp

theorem wrapInt64_double (x : Int) :
    wrapInt64 (wrapInt64 x * backoffFactor) = wrapInt64 (x * 2) := by
  unfold wrapInt64 backoffFactor
  omega

/-- The delays of the retry loop in closed form: the `i`-th is the first one
times `2 ^ i`, taken as a 64-bit duration. -/
theorem backoffDelays_closed : ∀ (j : Nat) (d : Int),
    backoffDelays j (wrapInt64 d) = (List.range j).map (fun i => wrapInt64 (d * 2 ^ i)) := by
  intro j
  induction j with
  | zero => intro d; rfl
  | succ j ih =>
    intro d
    rw [backoffDelays, wrapInt64_double, ih (d * 2), List.range_succ_eq_map, List.map_cons,
      List.map_map]
    simp only [pow_zero, mul_one, List.cons.injEq, true_and]
    apply List.map_congr_left
    intro i _
    simp only [Function.comp, pow_succ]
    congr 1
    ring

/-- Claim C18: the retry loop handles any attempt limit without a special case.
For every `limit ≥ 1`, when all attempts fail `publishWith limit` (the loop of
`publish` with `limit` for the constant `maxRetries`) returns nil after exactly
`limit` writes of the one message, separated by `limit - 1` sleeps of
`initialDelay * 2 ^ i`, `i = 0..limit-2`, and then one dead-letter save with
`limit` as `Attempts` and the last error. The delay is a `time.Duration`, so
the product is the 64-bit one; up to `limit = 35`, which includes the 3 of the
code, it is the plain product. For `limit = 1` there is one write, no sleep,
and the save. -/
theorem publishWith_exhausts_any_limit (limit : Nat) (hl : 1 ≤ limit) (env : Env)
    (n : KafkaNotifier) (ctx : Context) (eventType : EventType) (userID : UUID) (s : State)
    (payload : String) (errs : Nat → GoError)
    (hm : env.jsonMarshal (envelopeAt env s eventType userID) = Except.ok payload)
    (hfail : ∀ j, j < limit →
      env.WriteMessages n.writer (s.writeCalls + j) ctx (messageFor eventType userID payload)
        = some (errs j)) :
    n.publish env ctx eventType userID s = publishWith maxRetries env n ctx eventType userID s ∧
    (publishWith limit env n ctx eventType userID s).1 = Outcome.ret none ∧
    writesOf (newEffects s (publishWith limit env n ctx eventType userID s).2) =
      List.replicate limit (messageFor eventType userID payload) ∧
    sleepsOf (newEffects s (publishWith limit env n ctx eventType userID s).2) =
      (List.range (limit - 1)).map (fun i => wrapInt64 (initialDelay * 2 ^ i)) ∧
    (limit ≤ 35 →
      sleepsOf (newEffects s (publishWith limit env n ctx eventType userID s).2) =
        (List.range (limit - 1)).map (fun i => initialDelay * 2 ^ i)) ∧
    savesOf (newEffects s (publishWith limit env n ctx eventType userID s).2) =
      [dlqRecordWith limit env s eventType userID payload (errs (limit - 1))] ∧
    (dlqRecordWith limit env s eventType userID payload (errs (limit - 1))).Attempts = limit ∧
    (dlqRecordWith limit env s eventType userID payload (errs (limit - 1))).Error =
      (errs (limit - 1)).Error ∧
    ioOf (newEffects s (publishWith limit env n ctx eventType userID s).2) =
      writesSeparatedBy n.writer ctx (messageFor eventType userID payload)
          ((List.range (limit - 1)).map (fun i => wrapInt64 (initialDelay * 2 ^ i))) ++
        [Effect.save ctx (dlqRecordWith limit env s eventType userID payload
          (errs (limit - 1)))] ∧
    (limit = 1 →
      ioOf (newEffects s (publishWith limit env n ctx eventType userID s).2) =
        [Effect.write n.writer ctx (messageFor eventType userID payload),
         Effect.save ctx (dlqRecordWith limit env s eventType userID payload (errs 0))]) := by
  have hfail' : ∀ j, j < limit →
      env.WriteMessages n.writer (s.writeCalls + j) ctx (messageFor eventType userID payload)
        = some ((fun k => errs (k - s.writeCalls)) (s.writeCalls + j)) := by
    intro j hj
    simpa using hfail j hj
  obtain ⟨hw, hs, hv, hio⟩ := publishWith_all_fail_effects limit hl env n ctx eventType userID s
    payload (fun k => errs (k - s.writeCalls)) hm hfail'
  simp only [Nat.add_sub_cancel_left] at hv hio
  have hclosed : backoffDelays (limit - 1) initialDelay =
      (List.range (limit - 1)).map (fun i => wrapInt64 (initialDelay * 2 ^ i)) := by
    have h0 : wrapInt64 initialDelay = initialDelay := by decide
    rw [← backoffDelays_closed, h0]
  refine ⟨rfl, publishWith_fst limit hl env n ctx eventType userID s, hw, hclosed ▸ hs, ?_, hv,
    rfl, rfl, hclosed ▸ hio, ?_⟩
  · intro h35
    rw [hs]
    apply backoffDelays_exact
    · decide
    · intro i hi
      have hi' : i + 1 ≤ 33 := by omega
      calc initialDelay * 2 ^ (i + 1) ≤ initialDelay * 2 ^ 33 := by
            apply mul_le_mul_of_nonneg_left _ (by decide)
            exact pow_le_pow_right₀ (by decide) hi'
        _ < 2 ^ 63 := by decide
  · intro h1
    subst h1
    rw [hio]
    rfl

theorem publishWith_exhausts_any_limit_witness :
    sleepsOf (newEffects State.init
        (publishWith 5 (scriptedEnv fun _ => some (GoError.other "connection refused"))
          (testNotifier okRepo) Context.Background EventTypeUserCreated (UUID.ofNat 7)
          State.init).2) =
      [1000000000, 2000000000, 4000000000, 8000000000] ∧
    ioOf (newEffects State.init
        (publishWith 1 (scriptedEnv fun _ => some (GoError.other "connection refused"))
          (testNotifier okRepo) Context.Background EventTypeUserCreated (UUID.ofNat 7)
          State.init).2) =
      [Effect.write (testNotifier okRepo).writer Context.Background
         (messageFor EventTypeUserCreated (UUID.ofNat 7) "payload"),
       Effect.save Context.Background
         (dlqRecordWith 1 (scriptedEnv fun _ => some (GoError.other "connection refused"))
           State.init EventTypeUserCreated (UUID.ofNat 7) "payload"
           (GoError.other "connection refused"))] :=
  ⟨(publishWith_exhausts_any_limit 5 (by decide)
      (scriptedEnv fun _ => some (GoError.other "connection refused"))
      (testNotifier okRepo) Context.Background EventTypeUserCreated (UUID.ofNat 7) State.init
      "payload" (fun _ => GoError.other "connection refused") rfl (fun _ _ => rfl)).2.2.2.2.1
      (by decide),
   (publishWith_exhausts_any_limit 1 (by decide)
      (scriptedEnv fun _ => some (GoError.other "connection refused"))
      (testNotifier okRepo) Context.Background EventTypeUserCreated (UUID.ofNat 7) State.init
      "payload" (fun _ => GoError.other "connection refused") rfl
      (fun _ _ => rfl)).2.2.2.2.2.2.2.2.2 rfl⟩

/-! ## The service: claim C11 -/

theorem create_notifications {ρ ν : Type} (env : Env) (repo : UserRepository ρ)
    (n : UserNotifier ν) (ctx : Context) (req : CreateUserRequest) (r : ρ) (x : ν) :
    ((UserService.Create env ⟨recordingRepo repo, n⟩ ctx req ((r, []), x)).2.1.2 = [] ∨
      ∃ u e, (UserService.Create env ⟨recordingRepo repo, n⟩ ctx req ((r, []), x)).2.1.2 =
        [RepoCall.create u e]) ∧
    (UserService.Create env ⟨recordingRepo repo, n⟩ ctx req ((r, []), x)).2.2 =
      notifierAfter n ctx
        ((UserService.Create env ⟨recordingRepo repo, n⟩ ctx req ((r, []), x)).2.1.2.flatMap
          RepoCall.notification) x := by
  simp only [UserService.Create, recordingRepo]
  repeat' split
  all_goals simp_all [notifierAfter, RepoCall.notification]
  all_goals
    obtain ⟨h1, rfl⟩ := ‹_ ∧ _›
    simp [h1, notifierAfter, RepoCall.notification, *]

theorem delete_notifications {ρ ν : Type} (repo : UserRepository ρ)
    (n : UserNotifier ν) (ctx : Context) (id : UUID) (r : ρ) (x : ν) :
    (∃ e, (UserService.Delete ⟨recordingRepo repo, n⟩ ctx id ((r, []), x)).2.1.2 =
        [RepoCall.delete id e]) ∧
    (UserService.Delete ⟨recordingRepo repo, n⟩ ctx id ((r, []), x)).2.2 =
      notifierAfter n ctx
        ((UserService.Delete ⟨recordingRepo repo, n⟩ ctx id ((r, []), x)).2.1.2.flatMap
          RepoCall.notification) x := by
  simp only [UserService.Delete, recordingRepo]
  repeat' split
  all_goals simp_all [notifierAfter, RepoCall.notification]
  all_goals
    obtain ⟨h1, rfl⟩ := ‹_ ∧ _›
    simp [h1, notifierAfter, RepoCall.notification, *]

theorem update_notifications {ρ ν : Type} (env : Env) (repo : UserRepository ρ)
    (n : UserNotifier ν) (ctx : Context) (id : UUID) (req : UpdateUserRequest) (r : ρ) (x : ν) :
    ((UserService.Update env ⟨recordingRepo repo, n⟩ ctx id req ((r, []), x)).2.1.2 = [] ∨
      ∃ u e, (UserService.Update env ⟨recordingRepo repo, n⟩ ctx id req ((r, []), x)).2.1.2 =
        [RepoCall.update u e]) ∧
    (UserService.Update env ⟨recordingRepo repo, n⟩ ctx id req ((r, []), x)).2.2 =
      notifierAfter n ctx
        ((UserService.Update env ⟨recordingRepo repo, n⟩ ctx id req ((r, []), x)).2.1.2.flatMap
          RepoCall.notification) x := by
  simp only [UserService.Update, recordingRepo]
  split
  next r1 heq =>
    obtain ⟨_, rfl⟩ := Prod.mk.inj heq
    simp [notifierAfter]
  next user0 r1 heq =>
    obtain ⟨_, rfl⟩ := Prod.mk.inj heq
    split
    next out r' hE =>
      have hr : r'.2 = [] := by
        repeat' split at hE
        all_goals first
          | (obtain ⟨_, rfl⟩ := Flow.done.inj hE |> Prod.mk.inj; rfl)
          | cases hE
      simp [hr, notifierAfter]
    next user1 r2 hE =>
      have hr : r2.2 = [] := by
        repeat' split at hE
        all_goals first
          | (obtain ⟨_, rfl⟩ := Flow.next.inj hE |> Prod.mk.inj; rfl)
          | cases hE
      obtain ⟨ρ2, l2⟩ := r2
      simp only at hr
      subst hr
      clear hE
      split
      next => simp [notifierAfter]
      next =>
        split
        next => simp [notifierAfter]
        next =>
          split
          next => simp [notifierAfter]
          next =>
            split
            next => simp [notifierAfter]
            next u4 =>
              split
              next hU =>
                obtain ⟨_, rfl⟩ := Prod.mk.inj hU
                simp_all [notifierAfter, RepoCall.notification]
              next hU =>
                obtain ⟨h1, rfl⟩ := Prod.mk.inj hU
                split <;> simp_all [notifierAfter, RepoCall.notification]

theorem notifierAfter_recording (ctx : Context) (calls : List NotifyCall) :
    ∀ log : List NotifyCall, notifierAfter recordingNotifier ctx calls log = log ++ calls := by
  induction calls with
  | nil => intro log; simp [notifierAfter]
  | cons c rest ih =>
    intro log
    cases c <;> rw [notifierAfter, ih] <;> simp [recordingNotifier]

/-- C11: `Create`, `Update` and `Delete` make at most one mutating call on the
repository (`repo.Create`, `repo.Update`, `repo.Delete` respectively), and the
notifier ends in the state that the notifications belonging to the logged
mutations leave it in: one call of the operation of the same name, with the ID
of the user as the mutation left it, when the mutation returned nil, and no
call at all when the mutation returned an error or was never reached. The
argument of the call is taken from the result of the mutation, so the call
follows it. For the recording notifier the calls received are exactly those
notifications. -/
theorem service_notifies_iff_mutation_succeeded {ρ ν : Type} (env : Env)
    (repo : UserRepository ρ) (n : UserNotifier ν) (ctx : Context) (r : ρ) (x : ν) :
    (∀ req : CreateUserRequest,
      ((UserService.Create env ⟨recordingRepo repo, n⟩ ctx req ((r, []), x)).2.1.2 = [] ∨
        ∃ u e, (UserService.Create env ⟨recordingRepo repo, n⟩ ctx req ((r, []), x)).2.1.2 =
          [RepoCall.create u e]) ∧
      (UserService.Create env ⟨recordingRepo repo, n⟩ ctx req ((r, []), x)).2.2 =
        notifierAfter n ctx
          ((UserService.Create env ⟨recordingRepo repo, n⟩ ctx req ((r, []), x)).2.1.2.flatMap
            RepoCall.notification) x) ∧
    (∀ (id : UUID) (req : UpdateUserRequest),
      ((UserService.Update env ⟨recordingRepo repo, n⟩ ctx id req ((r, []), x)).2.1.2 = [] ∨
        ∃ u e, (UserService.Update env ⟨recordingRepo repo, n⟩ ctx id req ((r, []), x)).2.1.2 =
          [RepoCall.update u e]) ∧
      (UserService.Update env ⟨recordingRepo repo, n⟩ ctx id req ((r, []), x)).2.2 =
        notifierAfter n ctx
          ((UserService.Update env ⟨recordingRepo repo, n⟩ ctx id req
            ((r, []), x)).2.1.2.flatMap RepoCall.notification) x) ∧
    (∀ id : UUID,
      (∃ e, (UserService.Delete ⟨recordingRepo repo, n⟩ ctx id ((r, []), x)).2.1.2 =
        [RepoCall.delete id e]) ∧
      (UserService.Delete ⟨recordingRepo repo, n⟩ ctx id ((r, []), x)).2.2 =
        notifierAfter n ctx
          ((UserService.Delete ⟨recordingRepo repo, n⟩ ctx id ((r, []), x)).2.1.2.flatMap
            RepoCall.notification) x) ∧
    (∀ (u : User) (id : UUID) (e : GoError),
      RepoCall.notification (RepoCall.create u none) = [NotifyCall.created u.ID] ∧
      RepoCall.notification (RepoCall.update u none) = [NotifyCall.updated u.ID] ∧
      RepoCall.notification (RepoCall.delete id none) = [NotifyCall.deleted id] ∧
      RepoCall.notification (RepoCall.create u (some e)) = [] ∧
      RepoCall.notification (RepoCall.update u (some e)) = [] ∧
      RepoCall.notification (RepoCall.delete id (some e)) = []) ∧
    (∀ calls : List NotifyCall, notifierAfter recordingNotifier ctx calls [] = calls) :=
  ⟨fun req => create_notifications env repo n ctx req r x,
   fun id req => update_notifications env repo n ctx id req r x,
   fun id => delete_notifications repo n ctx id r x,
   fun _ _ _ => ⟨rfl, rfl, rfl, rfl, rfl, rfl⟩,
   fun calls => by simpa using notifierAfter_recording ctx calls []⟩

theorem service_notifies_iff_mutation_succeeded_witness :
    (UserService.Create serviceEnv ⟨recordingRepo memRepo, recordingNotifier⟩
      Context.Background ⟨"Ada@Example.com", "Ada", "Lovelace"⟩ (([], []), [])).2.2 =
      [NotifyCall.created (UUID.ofNat 1)] ∧
    (UserService.Create serviceEnv ⟨recordingRepo memRepo, recordingNotifier⟩
      Context.Background ⟨"not-an-address", "Ada", "Lovelace"⟩ (([], []), [])).2.2 = [] ∧
    (UserService.Delete ⟨recordingRepo memRepo, recordingNotifier⟩
      Context.Background (UUID.ofNat 4) (([], []), [])).2.2 = [] :=
  have h := service_notifies_iff_mutation_succeeded serviceEnv memRepo
    recordingNotifier Context.Background [] []
  ⟨(h.1 ⟨"Ada@Example.com", "Ada", "Lovelace"⟩).2.trans (by decide),
   (h.1 ⟨"not-an-address", "Ada", "Lovelace"⟩).2.trans (by decide),
   (h.2.2.1 (UUID.ofNat 4)).2.trans (by decide)⟩

/-! ## Digits: writing and reading back -/

theorem toDigitsCore_append (b : Nat) : ∀ (f n : Nat) (ds : List Char),
    Nat.toDigitsCore b f n ds = Nat.toDigitsCore b f n [] ++ ds := by
  intro f
  induction f with
  | zero => intro n ds; simp [Nat.toDigitsCore]
  | succ f ih =>
    intro n ds
    simp only [Nat.toDigitsCore]
    split
    · simp
    · rw [ih (n / b) (Nat.digitChar (n % b) :: ds), ih (n / b) [Nat.digitChar (n % b)]]
      simp

theorem fixedDigits_length (b : Nat) : ∀ (w n : Nat), (fixedDigits b w n).length = w := by
  intro w
  induction w with
  | zero => intro n; rfl
  | succ w ih => intro n; simp [fixedDigits, ih]

theorem fixedDigits_zero (b : Nat) : ∀ w : Nat, fixedDigits b w 0 = List.replicate w '0' := by
  intro w
  induction w with
  | zero => rfl
  | succ w ih =>
    simp only [fixedDigits, Nat.zero_div, Nat.zero_mod, ih]
    rw [List.replicate_succ']
    rfl

theorem pad_toDigitsCore (b : Nat) (hb : 2 ≤ b) : ∀ (w n f : Nat), n < b ^ (w + 1) → n < f →
    List.replicate (w + 1 - (Nat.toDigitsCore b f n []).length) '0' ++
      Nat.toDigitsCore b f n [] = fixedDigits b (w + 1) n := by
  intro w
  induction w with
  | zero =>
    intro n f hn hf
    obtain ⟨f, rfl⟩ : ∃ f', f = f' + 1 := ⟨f - 1, by omega⟩
    have hdiv : n / b = 0 := Nat.div_eq_of_lt (by simpa using hn)
    simp [Nat.toDigitsCore, hdiv, fixedDigits]
  | succ w ih =>
    intro n f hn hf
    obtain ⟨f, rfl⟩ : ∃ f', f = f' + 1 := ⟨f - 1, by omega⟩
    by_cases hdiv : n / b = 0
    · simp only [Nat.toDigitsCore, hdiv, ↓reduceIte, List.length_singleton]
      rw [fixedDigits, hdiv, fixedDigits_zero]
      simp
    · simp only [Nat.toDigitsCore, hdiv, ↓reduceIte]
      rw [toDigitsCore_append]
      have hlt : n / b < b ^ (w + 1) := by
        rw [Nat.div_lt_iff_lt_mul (by omega)]
        calc n < b ^ (w + 1 + 1) := hn
          _ = b ^ (w + 1) * b := by rw [pow_succ]
      have hf' : n / b < f := by
        have : n / b < n := Nat.div_lt_self (by
          rcases Nat.eq_zero_or_pos n with h | h
          · simp [h] at hdiv
          · exact h) (by omega)
        omega
      have := ih (n / b) f hlt hf'
      rw [fixedDigits, ← this]
      simp only [List.length_append, List.length_singleton, List.append_assoc]
      congr 2
      omega

theorem padDigits_eq_fixedDigits (b : Nat) (hb : 2 ≤ b) (w n : Nat) (hw : 1 ≤ w)
    (hn : n < b ^ w) : padDigits b w n = fixedDigits b w n := by
  obtain ⟨w, rfl⟩ : ∃ w', w = w' + 1 := ⟨w - 1, by omega⟩
  exact pad_toDigitsCore b hb w n (n + 1) hn (by omega)

theorem hexPad_eq_fixedDigits (n : Nat) (hn : n < 2 ^ 128) :
    hexPad 32 n = fixedDigits 16 32 n :=
  padDigits_eq_fixedDigits 16 (by decide) 32 n (by decide) (by
    calc n < 2 ^ 128 := hn
      _ = 16 ^ 32 := by norm_num)

theorem fixedDigits_split (b : Nat) (w₁ : Nat) : ∀ (w₂ n : Nat),
    fixedDigits b (w₁ + w₂) n = fixedDigits b w₁ (n / b ^ w₂) ++ fixedDigits b w₂ n := by
  intro w₂
  induction w₂ with
  | zero => intro n; simp [fixedDigits]
  | succ w ih =>
    intro n
    rw [← Nat.add_assoc, fixedDigits, fixedDigits, ih, List.append_assoc, Nat.div_div_eq_div_mul,
      pow_succ, Nat.mul_comm b]

theorem parseDigits_append (b : Nat) (value : Char → Option Nat) : ∀ (l₁ l₂ : List Char)
    (acc : Nat), parseDigits b value acc (l₁ ++ l₂) =
      (parseDigits b value acc l₁).bind (fun a => parseDigits b value a l₂) := by
  intro l₁
  induction l₁ with
  | nil => intro l₂ acc; rfl
  | cons c cs ih =>
    intro l₂ acc
    simp only [List.cons_append, parseDigits]
    cases value c with
    | none => rfl
    | some v => exact ih l₂ _

theorem parseDigits_fixedDigits (b : Nat) (value : Char → Option Nat)
    (hv : ∀ d, d < b → value (Nat.digitChar d) = some d) (hb : 0 < b) : ∀ (w n acc : Nat),
    parseDigits b value acc (fixedDigits b w n) = some (acc * b ^ w + n % b ^ w) := by
  intro w
  induction w with
  | zero => intro n acc; simp [fixedDigits, parseDigits, Nat.mod_one]
  | succ w ih =>
    intro n acc
    rw [fixedDigits, parseDigits_append, ih]
    simp only [Option.some_bind, parseDigits, hv (n % b) (Nat.mod_lt _ hb)]
    congr 1
    rw [pow_succ', Nat.mod_mul]
    ring

theorem decValue_digitChar : ∀ d, d < 10 → decValue (Nat.digitChar d) = some d := by
  decide

theorem hexValue_digitChar : ∀ d, d < 16 → hexValue (Nat.digitChar d) = some d := by
  decide

theorem digitChar_isDigit : ∀ d, d < 10 → (Nat.digitChar d).isDigit = true := by
  decide

theorem digitChar_ascii : ∀ d, d < 16 → (Nat.digitChar d).toNat < 128 := by
  decide

theorem fixedDigits_all (b : Nat) (p : Char → Bool) (hp : ∀ d, d < b → p (Nat.digitChar d) = true)
    (hb : 0 < b) : ∀ (w n : Nat), (fixedDigits b w n).all p = true := by
  intro w
  induction w with
  | zero => intro n; rfl
  | succ w ih =>
    intro n
    rw [fixedDigits, List.all_append, ih]
    simp [hp (n % b) (Nat.mod_lt _ hb)]

/-! ## `uuid.Parse` reads back `UUID.String` -/

theorem uuidParse_layout (h : List Char) (hl : h.length = 32)
    (hascii : h.all (fun c => decide (c.toNat < 128)) = true) :
    uuidParse (String.mk (h.take 8 ++ ['-'] ++ (h.drop 8).take 4 ++ ['-'] ++ (h.drop 12).take 4
      ++ ['-'] ++ (h.drop 16).take 4 ++ ['-'] ++ h.drop 20)) =
      (parseDigits 16 hexValue 0 h).map UUID.ofNat := by
  iterate 32
    rcases h with _ | ⟨a, h⟩
    · simp at hl
    simp only [List.length_cons] at hl
  obtain rfl := List.length_eq_zero.mp (by omega : h.length = 0)
  simp only [List.all_cons, List.all_nil, Bool.and_true, Bool.and_eq_true,
    decide_eq_true_eq] at hascii
  simp [uuidParse, parseUUID36, hascii]
  cases parseDigits 16 hexValue 0 _ <;> rfl

theorem UUID.ofNat_val (u : UUID) : UUID.ofNat u.val = u := by
  cases u with
  | mk v hv =>
    show UUID.mk (v % 2 ^ 128) _ = UUID.mk v hv
    congr 1
    exact Nat.mod_eq_of_lt hv

theorem uuidParse_String (u : UUID) : uuidParse u.String = some u := by
  have hl : (fixedDigits 16 32 u.val).length = 32 := fixedDigits_length 16 32 u.val
  have ha := fixedDigits_all 16 (fun c => decide (c.toNat < 128))
    (fun d hd => by simpa using digitChar_ascii d hd) (by decide) 32 u.val
  have hp := parseDigits_fixedDigits 16 hexValue hexValue_digitChar (by decide) 32 u.val 0
  simp only [UUID.String, hexPad_eq_fixedDigits u.val u.isLt]
  rw [uuidParse_layout _ hl ha, hp]
  simp only [Nat.zero_mul, Nat.zero_add, Option.map_some']
  have : u.val % 16 ^ 32 = u.val := Nat.mod_eq_of_lt (by
    calc u.val < 2 ^ 128 := u.isLt
      _ = 16 ^ 32 := by norm_num)
  rw [this, UUID.ofNat_val]

/-! ## The calendar: from a day number to a date and back -/

theorem civil_decomp (d : Int) :
    ∃ b i c j yd : Int, civilYearDay d = (400 * b + 100 * i + 4 * c + j + 1, yd.toNat) ∧
      d = 146097 * b + 36524 * i + 1461 * c + 365 * j + yd ∧
      0 ≤ i ∧ i ≤ 3 ∧ 0 ≤ c ∧ c ≤ 24 ∧ 0 ≤ j ∧ j ≤ 3 ∧ 0 ≤ yd ∧ yd ≤ 365 ∧
      (yd = 365 → j = 3 ∧ (c = 24 → i = 3)) := by
  simp only [civilYearDay]
  generalize hb : d / 146097 = b
  generalize hr : d % 146097 = r400
  have hr0 : 0 ≤ r400 ∧ r400 < 146097 ∧ d = 146097 * b + r400 := by omega
  generalize hi : min (r400 / 36524) 3 = i
  have hi0 : 0 ≤ i ∧ i ≤ 3 ∧ 0 ≤ r400 - i * 36524 ∧ r400 - i * 36524 ≤ 36524 ∧
      (i < 3 → r400 - i * 36524 < 36524) := by omega
  generalize hr1 : r400 - i * 36524 = r100 at hi0 ⊢
  generalize hc : r100 / 1461 = c
  generalize hr4 : r100 % 1461 = r4
  have hc0 : 0 ≤ c ∧ c ≤ 24 ∧ 0 ≤ r4 ∧ r4 < 1461 ∧ r100 = 1461 * c + r4 := by omega
  generalize hj : min (r4 / 365) 3 = j
  have hj0 : 0 ≤ j ∧ j ≤ 3 ∧ 0 ≤ r4 - j * 365 ∧ r4 - j * 365 ≤ 365 ∧
      (j < 3 → r4 - j * 365 < 365) := by omega
  refine ⟨b, i, c, j, r4 - j * 365, rfl, ?_⟩
  omega

theorem year_arith (b i c j : Int) (hi : 0 ≤ i ∧ i ≤ 3) (hc : 0 ≤ c ∧ c ≤ 24)
    (hj : 0 ≤ j ∧ j ≤ 3) :
    daysBeforeYear (400 * b + 100 * i + 4 * c + j + 1) =
      146097 * b + 36524 * i + 1461 * c + 365 * j ∧
    (isLeap (400 * b + 100 * i + 4 * c + j + 1) = true ↔ (j = 3 ∧ (c = 24 → i = 3))) := by
  have e1 : 400 * b + 100 * i + 4 * c + j + 1 - 1 = 400 * b + 100 * i + 4 * c + j := by ring
  have h4 : (400 * b + 100 * i + 4 * c + j) / 4 = 100 * b + 25 * i + c := by omega
  have h100 : (400 * b + 100 * i + 4 * c + j) / 100 = 4 * b + i := by omega
  have h400 : (400 * b + 100 * i + 4 * c + j) / 400 = b := by omega
  constructor
  · simp only [daysBeforeYear, e1, h4, h100, h400]; omega
  · simp only [isLeap, Bool.and_eq_true, Bool.or_eq_true, decide_eq_true_eq, ne_eq]; omega

theorem civilYearDay_spec (d : Int) :
    daysBeforeYear (civilYearDay d).1 + ((civilYearDay d).2 : Int) = d ∧
    (civilYearDay d).2 < 365 + (if isLeap (civilYearDay d).1 = true then 1 else 0) := by
  obtain ⟨b, i, c, j, yd, h, hd, hi0, hi3, hc0, hc24, hj0, hj3, hy0, hy365, hleap⟩ := civil_decomp d
  obtain ⟨hdb, hl⟩ := year_arith b i c j ⟨hi0, hi3⟩ ⟨hc0, hc24⟩ ⟨hj0, hj3⟩
  rw [h]
  simp only
  refine ⟨by omega, ?_⟩
  by_cases hL : isLeap (400 * b + 100 * i + 4 * c + j + 1) = true
  · simp only [hL, if_true]; omega
  · simp only [hL]
    have : ¬ (j = 3 ∧ (c = 24 → i = 3)) := fun h => hL (hl.2 h)
    have : yd ≠ 365 := fun h => this (hleap h)
    simp
    omega

set_option maxRecDepth 100000 in
theorem monthDay_spec (leap : Bool) : ∀ yday : Nat,
    yday < 365 + (if leap = true then 1 else 0) →
    dayOfYear leap (monthDay leap yday).1 (monthDay leap yday).2 = yday ∧
    1 ≤ (monthDay leap yday).1 ∧ (monthDay leap yday).1 ≤ 12 ∧
    1 ≤ (monthDay leap yday).2 ∧
    (monthDay leap yday).2 ≤ (monthDays leap).getD ((monthDay leap yday).1 - 1) 0 ∧
    (monthDay leap yday).2 < 100 := by
  cases leap <;> decide

/-! ## The RFC 3339 text of a time -/

/-- The text of RFC 3339 put together from its six fields and what follows the
seconds. -/
theorem rfc3339_layout (Y M D H Mi S rest : List Char) (hY : Y.length = 4) (hM : M.length = 2)
    (hD : D.length = 2) (hH : H.length = 2) (hMi : Mi.length = 2) (hS : S.length = 2) :
    ∀ cs, cs = Y ++ '-' :: (M ++ '-' :: (D ++ 'T' :: (H ++ ':' :: (Mi ++ ':' :: (S ++ rest))))) →
      ¬ cs.length < 19 ∧ cs.take 4 = Y ∧ (cs.drop 5).take 2 = M ∧ (cs.drop 8).take 2 = D ∧
      (cs.drop 11).take 2 = H ∧ (cs.drop 14).take 2 = Mi ∧ (cs.drop 17).take 2 = S ∧
      cs.get? 4 = some '-' ∧ cs.get? 7 = some '-' ∧ cs.get? 10 = some 'T' ∧
      cs.get? 13 = some ':' ∧ cs.get? 16 = some ':' ∧ cs.drop 19 = rest := by
  intro cs hcs
  subst hcs
  iterate 4
    rcases Y with _ | ⟨a, Y⟩
    · simp at hY
    simp only [List.length_cons] at hY
  obtain rfl := List.length_eq_zero.mp (by omega : Y.length = 0)
  iterate 2
    rcases M with _ | ⟨a, M⟩
    · simp at hM
    simp only [List.length_cons] at hM
  obtain rfl := List.length_eq_zero.mp (by omega : M.length = 0)
  iterate 2
    rcases D with _ | ⟨a, D⟩
    · simp at hD
    simp only [List.length_cons] at hD
  obtain rfl := List.length_eq_zero.mp (by omega : D.length = 0)
  iterate 2
    rcases H with _ | ⟨a, H⟩
    · simp at hH
    simp only [List.length_cons] at hH
  obtain rfl := List.length_eq_zero.mp (by omega : H.length = 0)
  iterate 2
    rcases Mi with _ | ⟨a, Mi⟩
    · simp at hMi
    simp only [List.length_cons] at hMi
  obtain rfl := List.length_eq_zero.mp (by omega : Mi.length = 0)
  iterate 2
    rcases S with _ | ⟨a, S⟩
    · simp at hS
    simp only [List.length_cons] at hS
  obtain rfl := List.length_eq_zero.mp (by omega : S.length = 0)
  simp

theorem appendInt_nat (n w : Nat) (hw : 1 ≤ w) (hn : n < 10 ^ w) :
    appendInt (n : Int) w = fixedDigits 10 w n := by
  have h : ¬ ((n : Int) < 0) := by omega
  simp only [appendInt, h, ↓reduceIte, List.nil_append, Int.natAbs_ofNat]
  exact padDigits_eq_fixedDigits 10 (by decide) w n hw hn

theorem appendInt_year (y : Int) (h0 : 0 ≤ y) (h1 : y ≤ 9999) :
    appendInt y 4 = fixedDigits 10 4 y.toNat := by
  obtain ⟨n, rfl⟩ := Int.eq_ofNat_of_zero_le h0
  rw [appendInt_nat n 4 (by decide) (by norm_num; omega)]
  rfl

/-- Date and clock of a time, with all the bounds and the way back to the
instant. -/
theorem Time.fields_spec (t : Time) (hloc : t.loc = Location.utc) :
    t.Date.2.1 < 100 ∧ t.Date.2.2 < 100 ∧ t.Clock.1 < 100 ∧ t.Clock.2.1 < 100 ∧
    t.Clock.2.2 < 100 ∧ t.Nanosecond < 10 ^ 9 ∧
    1 ≤ t.Date.2.1 ∧ t.Date.2.1 ≤ 12 ∧ 1 ≤ t.Date.2.2 ∧
    t.Date.2.2 ≤ daysIn t.Date.2.1 t.Date.1 ∧
    t.Clock.1 ≤ 23 ∧ t.Clock.2.1 ≤ 59 ∧ t.Clock.2.2 ≤ 59 ∧
    (goDate t.Date.1 t.Date.2.1 t.Date.2.2 t.Clock.1 t.Clock.2.1 t.Clock.2.2
      t.Nanosecond).unixNano = t.unixNano := by
  obtain ⟨hd, hy⟩ := civilYearDay_spec t.absDay
  obtain ⟨m1, m2, m3, m4, m5, m6⟩ := monthDay_spec (isLeap (civilYearDay t.absDay).1)
    (civilYearDay t.absDay).2 hy
  have hsod : t.secOfDay < 86400 := by
    simp only [Time.secOfDay]
    omega
  have hns : t.Nanosecond < 10 ^ 9 := by
    simp only [Time.Nanosecond]
    omega
  simp only [Time.Date, Time.Clock, daysIn, goDate, m1]
  refine ⟨by omega, m6, by omega, by omega, by omega, hns, m2, m3, m4, m5, by omega, by omega,
    by omega, ?_⟩
  have habs : t.absDay = t.Unix / 86400 + 719162 := by
    simp [Time.absDay, hloc, Location.offset]
  have hsod2 : (t.secOfDay : Int) = t.Unix % 86400 := by
    simp only [Time.secOfDay, hloc, Location.offset, add_zero]
    omega
  have hclock : t.secOfDay / 3600 * 3600 + t.secOfDay % 3600 / 60 * 60 + t.secOfDay % 60 =
      t.secOfDay := by omega
  have hnano : (t.Nanosecond : Int) = t.unixNano % 1000000000 := by
    simp only [Time.Nanosecond]
    omega
  rw [hclock, hsod2, hnano]
  have hu : t.Unix = t.unixNano / 1000000000 := rfl
  omega

theorem Time.appendFormat_utc (t : Time) (hloc : t.loc = Location.utc) (h0 : 0 ≤ t.Year)
    (h1 : t.Year ≤ 9999) : t.appendFormatRFC3339 = rfc3339UTC t := by
  obtain ⟨b1, b2, b3, b4, b5, -⟩ := Time.fields_spec t hloc
  simp only [Time.appendFormatRFC3339, rfc3339UTC, appendInt_year t.Date.1 h0 h1,
    appendInt_nat _ 2 (by decide) b1, appendInt_nat _ 2 (by decide) b2,
    appendInt_nat _ 2 (by decide) b3, appendInt_nat _ 2 (by decide) b4,
    appendInt_nat _ 2 (by decide) b5, hloc, Location.offset, appendZone, ↓reduceIte]

theorem rfc3339UTC_layout (t : Time) :
    ¬ (rfc3339UTC t).length < 19 ∧
    (rfc3339UTC t).take 4 = fixedDigits 10 4 t.Date.1.toNat ∧
    ((rfc3339UTC t).drop 5).take 2 = fixedDigits 10 2 t.Date.2.1 ∧
    ((rfc3339UTC t).drop 8).take 2 = fixedDigits 10 2 t.Date.2.2 ∧
    ((rfc3339UTC t).drop 11).take 2 = fixedDigits 10 2 t.Clock.1 ∧
    ((rfc3339UTC t).drop 14).take 2 = fixedDigits 10 2 t.Clock.2.1 ∧
    ((rfc3339UTC t).drop 17).take 2 = fixedDigits 10 2 t.Clock.2.2 ∧
    (rfc3339UTC t).get? 4 = some '-' ∧ (rfc3339UTC t).get? 7 = some '-' ∧
    (rfc3339UTC t).get? 10 = some 'T' ∧ (rfc3339UTC t).get? 13 = some ':' ∧
    (rfc3339UTC t).get? 16 = some ':' ∧
    (rfc3339UTC t).drop 19 = appendNano t.Nanosecond ++ ['Z'] :=
  rfc3339_layout _ _ _ _ _ _ _ (fixedDigits_length _ _ _) (fixedDigits_length _ _ _)
    (fixedDigits_length _ _ _) (fixedDigits_length _ _ _) (fixedDigits_length _ _ _)
    (fixedDigits_length _ _ _) _ rfl

theorem rfc3339UTC_getLast (t : Time) : (rfc3339UTC t).getLast? = some 'Z' := by
  have h := (rfc3339UTC_layout t).2.2.2.2.2.2.2.2.2.2.2.2
  have e : rfc3339UTC t = ((rfc3339UTC t).take 19 ++ appendNano t.Nanosecond) ++ ['Z'] := by
    rw [List.append_assoc, ← h, List.take_append_drop]
  rw [e]
  simp

theorem Time.appendStrict_utc (t : Time) (hloc : t.loc = Location.utc) (h0 : 0 ≤ t.Year)
    (h1 : t.Year ≤ 9999) : t.appendStrictRFC3339 = Except.ok (rfc3339UTC t) := by
  have h4 := (rfc3339UTC_layout t).2.2.2.2.2.2.2.1
  have hl := rfc3339UTC_getLast t
  unfold Time.appendStrictRFC3339
  rw [Time.appendFormat_utc t hloc h0 h1]
  simp only [h4, hl, ne_eq, not_true_eq_false, ↓reduceIte]

theorem Time.MarshalJSON_utc (t : Time) (hloc : t.loc = Location.utc) (h0 : 0 ≤ t.Year)
    (h1 : t.Year ≤ 9999) : t.MarshalJSON = Except.ok (String.mk (rfc3339UTC t)) := by
  unfold Time.MarshalJSON
  rw [Time.appendStrict_utc t hloc h0 h1]

/-! ## `parseRFC3339` reads back the text -/

theorem parseUint_fixedDigits (w n lo hi : Nat) (hn : n < 10 ^ w) (hlo : lo ≤ n)
    (hhi : n ≤ hi) : parseUint (fixedDigits 10 w n) lo hi = some n := by
  have h : ¬ (n < lo ∨ hi < n) := by omega
  simp only [parseUint, parseDigits_fixedDigits 10 decValue decValue_digitChar (by decide) w n 0,
    Nat.zero_mul, Nat.zero_add, Nat.mod_eq_of_lt hn, h, ↓reduceIte]

theorem dropTrailingZeros_spec (l : List Char) :
    ∃ k, l = dropTrailingZeros l ++ List.replicate k '0' := by
  refine ⟨(l.reverse.takeWhile (fun c => c == '0')).length, ?_⟩
  have h1 : l.reverse.takeWhile (fun c => c == '0') =
      List.replicate (l.reverse.takeWhile (fun c => c == '0')).length '0' := by
    rw [List.eq_replicate_iff]
    refine ⟨rfl, fun c hc => ?_⟩
    simpa using List.mem_takeWhile_imp hc
  have h2 := List.takeWhile_append_dropWhile (fun c => c == '0') l.reverse
  have h3 : l = (l.reverse.dropWhile (fun c => c == '0')).reverse ++
      (l.reverse.takeWhile (fun c => c == '0')).reverse := by
    rw [← List.reverse_append, h2, List.reverse_reverse]
  rw [h1, List.reverse_replicate] at h3
  exact h3

theorem parseDigits_zeros (acc : Nat) : ∀ k : Nat,
    parseDigits 10 decValue acc (List.replicate k '0') = some (acc * 10 ^ k) := by
  intro k
  induction k generalizing acc with
  | zero => simp [parseDigits]
  | succ k ih =>
    have h0 : decValue '0' = some 0 := by decide
    rw [List.replicate_succ, parseDigits, h0]
    simp only []
    rw [ih, pow_succ]
    congr 1
    ring

theorem takeWhile_append_stop (p : Char → Bool) (z : Char) (hz : p z = false) :
    ∀ l : List Char, l.all p = true →
      (l ++ [z]).takeWhile p = l ∧ (l ++ [z]).dropWhile p = [z] := by
  intro l
  induction l with
  | nil => intro _; simp [List.takeWhile, List.dropWhile, hz]
  | cons c cs ih =>
    intro h
    simp only [List.all_cons, Bool.and_eq_true] at h
    simp [List.takeWhile, List.dropWhile, h.1, ih h.2]

/-- The fraction written by `appendNano` is read back by `parseFraction`. -/
theorem parseFraction_appendNano (ns : Nat) (hns : ns < 10 ^ 9) :
    parseFraction (appendNano ns ++ ['Z']) = some (ns, ['Z']) := by
  by_cases h0 : ns = 0
  · subst h0
    simp [parseFraction, appendNano]
  · obtain ⟨k, hk⟩ := dropTrailingZeros_spec (fixedDigits 10 9 ns)
    have hpad : padDigits 10 9 ns = fixedDigits 10 9 ns :=
      padDigits_eq_fixedDigits 10 (by decide) 9 ns (by decide) hns
    have hall := fixedDigits_all 10 Char.isDigit digitChar_isDigit (by decide) 9 ns
    have hlen := fixedDigits_length 10 9 ns
    have hparse := parseDigits_fixedDigits 10 decValue decValue_digitChar (by decide) 9 ns 0
    generalize hd : dropTrailingZeros (fixedDigits 10 9 ns) = dtz at hk
    rw [hk] at hall hlen hparse
    rw [List.all_append] at hall
    simp only [Bool.and_eq_true] at hall
    rw [parseDigits_append] at hparse
    simp only [List.length_append, List.length_replicate] at hlen
    cases hp : parseDigits 10 decValue 0 dtz with
    | none => simp [hp] at hparse
    | some v =>
      rw [hp] at hparse
      simp only [Option.some_bind, parseDigits_zeros, Nat.zero_mul, Nat.zero_add,
        Nat.mod_eq_of_lt hns, Option.some.injEq] at hparse
      rcases dtz with _ | ⟨c, tl⟩
      · simp [parseDigits] at hp
        subst hp
        omega
      · obtain ⟨ht, hdw⟩ := takeWhile_append_stop Char.isDigit 'Z' (by decide) (c :: tl) hall.1
        have hc : c.isDigit = true := by
          have := hall.1
          simp only [List.all_cons, Bool.and_eq_true] at this
          exact this.1
        have htake : List.take 9 (c :: tl) = c :: tl := List.take_of_length_le (by omega)
        have hk9 : 9 - (c :: tl).length = k := by omega
        simp only [appendNano, h0, ↓reduceIte, hpad, hd, parseFraction, List.cons_append,
          List.length_cons, List.get?_cons_zero, List.getD_cons_succ, List.getD_cons_zero,
          List.drop_succ_cons, List.drop_zero, hc, and_true, true_and]
        rw [← List.cons_append, ht, hdw]
        simp only [parseNanoseconds, htake, hp, hk9, hparse]
        simp

theorem parseZone_Z : parseZone ['Z'] = some Location.utc := by
  simp [parseZone]

/-- Reading back the RFC 3339 text of a UTC time gives the time. -/
theorem parseRFC3339_rfc3339UTC (t : Time) (hloc : t.loc = Location.utc) (h0 : 0 ≤ t.Year)
    (h1 : t.Year ≤ 9999) : parseRFC3339 (rfc3339UTC t) = some t := by
  obtain ⟨l0, l1, l2, l3, l4, l5, l6, g4, g7, g10, g13, g16, ldrop⟩ := rfc3339UTC_layout t
  obtain ⟨-, b2, -, -, -, bn, m1, m12, d1, dmax, hh, hm, hs, hgo⟩ := Time.fields_spec t hloc
  have hy0 : 0 ≤ t.Date.1 := h0
  have hy1 : t.Date.1 ≤ 9999 := h1
  have hcast : ((t.Date.1.toNat : Nat) : Int) = t.Date.1 := Int.toNat_of_nonneg hy0
  have py := parseUint_fixedDigits 4 t.Date.1.toNat 0 9999 (by norm_num; omega) (by omega)
    (by omega)
  have pm := parseUint_fixedDigits 2 t.Date.2.1 1 12 (by norm_num; omega) m1 m12
  have pd := parseUint_fixedDigits 2 t.Date.2.2 1 (daysIn t.Date.2.1 t.Date.1)
    (by norm_num; omega) d1 dmax
  have ph := parseUint_fixedDigits 2 t.Clock.1 0 23 (by norm_num; omega) (by omega) hh
  have pmi := parseUint_fixedDigits 2 t.Clock.2.1 0 59 (by norm_num; omega) (by omega) hm
  have ps := parseUint_fixedDigits 2 t.Clock.2.2 0 59 (by norm_num; omega) (by omega) hs
  unfold parseRFC3339
  rw [if_neg l0, l1, l2, l3, l4, l5, l6, ldrop, py, pm]
  simp only [hcast, pd, ph, pmi, ps, g4, g7, g10, g13, g16, and_self, ↓reduceIte,
    parseFraction_appendNano t.Nanosecond bn, parseZone_Z, hgo, Location.offset, zero_mul,
    sub_zero]
  rw [← hloc]

/-! ## The wire shape of an event and its round trip -/

theorem timeUnmarshalJSON_rfc3339UTC (timeParse : String → Except GoError Time) (t : Time)
    (hloc : t.loc = Location.utc) (h0 : 0 ≤ t.Year) (h1 : t.Year ≤ 9999) :
    timeUnmarshalJSON timeParse (String.mk (rfc3339UTC t)) = Except.ok t := by
  unfold timeUnmarshalJSON
  rw [show (String.mk (rfc3339UTC t)).toList = rfc3339UTC t from rfl,
    parseRFC3339_rfc3339UTC t hloc h0 h1]

theorem decodeUUID_String (u old : UUID) : decodeUUID (Json.str u.String) old = Except.ok u := by
  simp only [decodeUUID, uuidParse_String]

theorem UserEvent.toJson_utc (e : UserEvent) (hloc : e.Timestamp.loc = Location.utc)
    (h0 : 0 ≤ e.Timestamp.Year) (h1 : e.Timestamp.Year ≤ 9999) :
    e.toJson = Except.ok (Json.obj
      [("eventId", Json.str e.EventID.String),
       ("eventType", Json.str e.EventType),
       ("timestamp", Json.str (String.mk (rfc3339UTC e.Timestamp))),
       ("data", Json.obj [("userId", Json.str e.Data.UserID.String)])]) := by
  unfold UserEvent.toJson
  rw [Time.MarshalJSON_utc e.Timestamp hloc h0 h1]

theorem equalFold_tags :
    equalFold "eventId" "eventId" = true ∧ equalFold "eventType" "eventId" = false ∧
    equalFold "eventType" "eventType" = true ∧ equalFold "timestamp" "eventId" = false ∧
    equalFold "timestamp" "eventType" = false ∧ equalFold "timestamp" "timestamp" = true ∧
    equalFold "data" "eventId" = false ∧ equalFold "data" "eventType" = false ∧
    equalFold "data" "timestamp" = false ∧ equalFold "data" "data" = true ∧
    equalFold "userId" "userId" = true := by
  decide

theorem UserEvent.ofJson_members (timeParse : String → Except GoError Time) (e : UserEvent)
    (hloc : e.Timestamp.loc = Location.utc) (h0 : 0 ≤ e.Timestamp.Year)
    (h1 : e.Timestamp.Year ≤ 9999) :
    UserEvent.ofJson timeParse (Json.obj
      [("eventId", Json.str e.EventID.String),
       ("eventType", Json.str e.EventType),
       ("timestamp", Json.str (String.mk (rfc3339UTC e.Timestamp))),
       ("data", Json.obj [("userId", Json.str e.Data.UserID.String)])]) = Except.ok e := by
  obtain ⟨f1, f2, f3, f4, f5, f6, f7, f8, f9, f10, f11⟩ := equalFold_tags
  simp only [UserEvent.ofJson, List.foldlM_cons, List.foldlM_nil, decodeEventMember,
    decodeEventData, f1, f2, f3, f4, f5, f6, f7, f8, f9, f10, f11, ↓reduceIte,
    decodeUUID_String, timeUnmarshalJSON_rfc3339UTC timeParse e.Timestamp hloc h0 h1,
    bind, Except.bind, pure, Except.pure, Bool.false_eq_true]

/-- Claim C17, counterexample: the encoder writes whatever the event holds. An
event of type `user.archived` whose timestamp is in a zone one hour east of UTC
is encoded with that type string and with the offset `+01:00`, so the member
`eventType` is none of the three enumerated strings and the timestamp is not in
UTC. -/
theorem event_json_shape_not_for_every_event :
    UserEvent.toJson ⟨UUID.ofNat 1, "user.archived",
      ⟨1768244400 * 1000000000, Location.zone "CET" 3600⟩, ⟨UUID.ofNat 2⟩⟩ =
      Except.ok (Json.obj
        [("eventId", Json.str "00000000-0000-0000-0000-000000000001"),
         ("eventType", Json.str "user.archived"),
         ("timestamp", Json.str "2026-01-12T20:00:00+01:00"),
         ("data", Json.obj [("userId", Json.str "00000000-0000-0000-0000-000000000002")])]) := by
  rfl

/-- Claim C17, amended: for every event whose timestamp is in UTC with a year
from 0 to 9999 and whose type is one of the three event type constants, the
JSON encoding is an object with exactly the four members `eventId` (the
canonical string of the event id), `eventType` (one of `user.created`,
`user.updated`, `user.deleted`), `timestamp` (the ISO 8601 text in UTC) and
`data`, an object whose only member `userId` is the canonical string of the
subject id. -/
theorem event_json_shape (e : UserEvent) (hloc : e.Timestamp.loc = Location.utc)
    (h0 : 0 ≤ e.Timestamp.Year) (h1 : e.Timestamp.Year ≤ 9999)
    (hty : e.EventType = EventTypeUserCreated ∨ e.EventType = EventTypeUserUpdated ∨
      e.EventType = EventTypeUserDeleted) :
    ∃ ty : String, (ty = "user.created" ∨ ty = "user.updated" ∨ ty = "user.deleted") ∧
      e.toJson = Except.ok (Json.obj
        [("eventId", Json.str e.EventID.String),
         ("eventType", Json.str ty),
         ("timestamp", Json.str (String.mk (rfc3339UTC e.Timestamp))),
         ("data", Json.obj [("userId", Json.str e.Data.UserID.String)])]) :=
  ⟨e.EventType, hty, UserEvent.toJson_utc e hloc h0 h1⟩

theorem event_json_shape_witness :
    ∃ ty : String, (ty = "user.created" ∨ ty = "user.updated" ∨ ty = "user.deleted") ∧
      UserEvent.toJson ⟨UUID.ofNat 7, EventTypeUserUpdated,
        ⟨1768244400 * 1000000000, Location.utc⟩, ⟨UUID.ofNat 8⟩⟩ = Except.ok (Json.obj
        [("eventId", Json.str (UUID.ofNat 7).String),
         ("eventType", Json.str ty),
         ("timestamp", Json.str (String.mk
           (rfc3339UTC ⟨1768244400 * 1000000000, Location.utc⟩))),
         ("data", Json.obj [("userId", Json.str (UUID.ofNat 8).String)])]) :=
  event_json_shape ⟨UUID.ofNat 7, EventTypeUserUpdated,
    ⟨1768244400 * 1000000000, Location.utc⟩, ⟨UUID.ofNat 8⟩⟩ rfl (by decide) (by decide)
    (Or.inr (Or.inl rfl))

/-- Claim C16, counterexample: an event whose timestamp is midnight UTC of
1 January of the year 10000 has no JSON encoding at all, `Time.MarshalJSON`
refuses the year, so there is nothing to decode. -/
theorem event_json_year_10000_not_encoded :
    (⟨253402300800 * 1000000000, Location.utc⟩ : Time).loc = Location.utc ∧
    UserEvent.toJson ⟨UUID.Nil, EventTypeUserCreated,
      ⟨253402300800 * 1000000000, Location.utc⟩, ⟨UUID.Nil⟩⟩ =
      Except.error (GoError.wrap
        ("json: error calling MarshalJSON for type time.Time: " ++
          "Time.MarshalJSON: year outside of range [0,9999]")
        (GoError.other "Time.MarshalJSON: year outside of range [0,9999]")) :=
  ⟨rfl, rfl⟩

/-- Claim C16, amended: for every event whose timestamp is in UTC with a year
from 0 to 9999, the event has a JSON encoding, and decoding that encoding
gives back the event itself: same `EventID`, `EventType`, `Timestamp` and
`Data.UserID`. -/
theorem event_json_round_trip (timeParse : String → Except GoError Time) (e : UserEvent)
    (hloc : e.Timestamp.loc = Location.utc) (h0 : 0 ≤ e.Timestamp.Year)
    (h1 : e.Timestamp.Year ≤ 9999) :
    ∃ j, e.toJson = Except.ok j ∧ UserEvent.ofJson timeParse j = Except.ok e :=
  ⟨_, UserEvent.toJson_utc e hloc h0 h1, UserEvent.ofJson_members timeParse e hloc h0 h1⟩

theorem event_json_round_trip_witness :
    ∃ j, UserEvent.toJson ⟨UUID.ofNat 1, EventTypeUserCreated,
      ⟨1768244400 * 1000000000 + 120000000, Location.utc⟩, ⟨UUID.ofNat 2⟩⟩ = Except.ok j ∧
      UserEvent.ofJson (fun _ => Except.error (GoError.other "no fallback")) j =
        Except.ok ⟨UUID.ofNat 1, EventTypeUserCreated,
          ⟨1768244400 * 1000000000 + 120000000, Location.utc⟩, ⟨UUID.ofNat 2⟩⟩ :=
  event_json_round_trip _ _ rfl (by decide) (by decide)

/-! ## Paging, validation, error mapping -/

/-- Claim C29: `List` clamps its paging arguments before it uses them. Whatever
`limit` and `offset` are, the one query the repository gets carries
`limit' = 20` for `limit ≤ 0`, `100` for `limit > 100`, else `limit`, and
`offset' = max offset 0`, so `1 ≤ limit' ≤ 100` and `0 ≤ offset'`; the
`Pagination` returned reports these two values and the total of the repository,
and an error of the repository is returned as it is. -/
theorem list_clamps_paging {ρ ν : Type} (svc : UserService ρ ν) (ctx : Context)
    (limit offset : Int) (st : ρ × ν) :
    ∃ limit' offset' : Int,
      limit' = (if limit ≤ 0 then 20 else if limit > 100 then 100 else limit) ∧
      offset' = max offset 0 ∧ 1 ≤ limit' ∧ limit' ≤ 100 ∧ 0 ≤ offset' ∧
      (UserService.List svc ctx limit offset st).2 =
        ((svc.repo.List ctx limit' offset' st.1).2, st.2) ∧
      (∀ users total, (svc.repo.List ctx limit' offset' st.1).1 = (users, total, none) →
        (UserService.List svc ctx limit offset st).1 =
          Outcome.ret (some { Data := users
                              Pagination := { Total := total, Limit := limit', Offset := offset' } },
            none)) ∧
      (∀ users total err, (svc.repo.List ctx limit' offset' st.1).1 = (users, total, some err) →
        (UserService.List svc ctx limit offset st).1 = Outcome.ret (none, some err)) := by
  refine ⟨if limit ≤ 0 then 20 else if limit > 100 then 100 else limit, max offset 0, rfl, rfl,
    ?_, ?_, ?_, ?_⟩
  · split <;> [skip; split] <;> omega
  · split <;> [skip; split] <;> omega
  · omega
  · have hl : (if (if limit ≤ 0 then (20 : Int) else limit) > 100 then 100
        else (if limit ≤ 0 then (20 : Int) else limit)) =
        (if limit ≤ 0 then 20 else if limit > 100 then 100 else limit) := by
      split <;> split <;> first | rfl | omega
    have ho : (if offset < 0 then (0 : Int) else offset) = max offset 0 := by
      split <;> omega
    simp only [UserService.List, hl, ho]
    refine ⟨?_, ?_, ?_⟩
    · split <;> simp_all
    · intro users total h
      split <;> simp_all
    · intro users total err h
      split <;> simp_all

/-- Claim C21: `Create` returns `ErrInvalidInput` and leaves the repository (and
the notifier) as they are whenever the normalised request is invalid: the
trimmed, lower-cased email is empty, longer than 255 bytes, or lacks an `@` or
a `.`, or the trimmed first name or last name is empty or longer than 100
bytes. -/
theorem create_rejects_invalid_request {ρ ν : Type} (env : Env) (svc : UserService ρ ν)
    (ctx : Context) (req : CreateUserRequest) (st : ρ × ν)
    (h : stringsTrimSpace (env.stringsToLower req.Email) = "" ∨
      goLen (stringsTrimSpace (env.stringsToLower req.Email)) > 255 ∨
      stringsContains (stringsTrimSpace (env.stringsToLower req.Email)) "@" = false ∨
      stringsContains (stringsTrimSpace (env.stringsToLower req.Email)) "." = false ∨
      stringsTrimSpace req.FirstName = "" ∨ goLen (stringsTrimSpace req.FirstName) > 100 ∨
      stringsTrimSpace req.LastName = "" ∨ goLen (stringsTrimSpace req.LastName) > 100) :
    UserService.Create env svc ctx req st =
      (Outcome.ret (none, some GoError.ErrInvalidInput), st) := by
  have hv : ∀ email, validateEmail email = none ∨
      validateEmail email = some GoError.ErrInvalidInput := by
    intro email
    simp only [validateEmail]
    repeat' split
    all_goals simp
  have hn : ∀ name field, validateName name field = none ∨
      validateName name field = some GoError.ErrInvalidInput := by
    intro name field
    simp only [validateName]
    repeat' split
    all_goals simp
  have he : (stringsTrimSpace (env.stringsToLower req.Email) = "" ∨
      goLen (stringsTrimSpace (env.stringsToLower req.Email)) > 255 ∨
      stringsContains (stringsTrimSpace (env.stringsToLower req.Email)) "@" = false ∨
      stringsContains (stringsTrimSpace (env.stringsToLower req.Email)) "." = false) →
      validateEmail (stringsTrimSpace (env.stringsToLower req.Email)) =
        some GoError.ErrInvalidInput := by
    intro h
    simp only [validateEmail]
    repeat' split
    all_goals simp_all
  have hname : ∀ name field, (name = "" ∨ goLen name > 100) →
      validateName name field = some GoError.ErrInvalidInput := by
    intro name field h
    simp only [validateName]
    repeat' split
    all_goals simp_all
  simp only [UserService.Create]
  rcases hv (stringsTrimSpace (env.stringsToLower req.Email)) with h1 | h1
  · rcases hn (stringsTrimSpace req.FirstName) "firstName" with h2 | h2
    · rcases hn (stringsTrimSpace req.LastName) "lastName" with h3 | h3
      · exfalso
        rcases h with h | h | h | h | h | h | h | h
        · rw [he (Or.inl h)] at h1; cases h1
        · rw [he (Or.inr (Or.inl h))] at h1; cases h1
        · rw [he (Or.inr (Or.inr (Or.inl h)))] at h1; cases h1
        · rw [he (Or.inr (Or.inr (Or.inr h)))] at h1; cases h1
        · rw [hname _ _ (Or.inl h)] at h2; cases h2
        · rw [hname _ _ (Or.inr h)] at h2; cases h2
        · rw [hname _ _ (Or.inl h)] at h3; cases h3
        · rw [hname _ _ (Or.inr h)] at h3; cases h3
      · simp only [h1, h2, h3]
    · simp only [h1, h2]
  · simp only [h1]

theorem create_rejects_invalid_request_witness :
    UserService.Create serviceEnv ⟨memRepo, silentNotifier⟩ Context.Background
      ⟨"  Not-An-Address ", "Ada", "Lovelace"⟩ ([], ()) =
      (Outcome.ret (none, some GoError.ErrInvalidInput), ([], ())) :=
  create_rejects_invalid_request serviceEnv ⟨memRepo, silentNotifier⟩ Context.Background
    ⟨"  Not-An-Address ", "Ada", "Lovelace"⟩ ([], ()) (Or.inr (Or.inr (Or.inl (by decide))))

/-- An error matches at most one of two different sentinels. -/
theorem GoError.Is_sentinel_unique (e a b : GoError)
    (ha : ∀ m i, a ≠ GoError.wrap m i) (hb : ∀ m i, b ≠ GoError.wrap m i) (hab : a ≠ b)
    (h : e.Is a = true) : e.Is b = false := by
  induction e with
  | wrap msg inner ih =>
    simp only [GoError.Is, Bool.or_eq_true, decide_eq_true_eq] at h
    rcases h with h | h
    · exact absurd h.symm (ha msg inner)
    · simp only [GoError.Is, Bool.or_eq_false_iff, decide_eq_false_iff_not]
      exact ⟨fun h' => hb msg inner h'.symm, ih h⟩
  | ErrUserNotFound | ErrEmailExists | ErrInvalidInput | other msg =>
    simp only [GoError.Is, decide_eq_true_eq] at h
    simp only [GoError.Is, decide_eq_false_iff_not]
    exact fun h' => hab (h.symm.trans h')

theorem errorsIs_sentinel_unique (err : Option GoError) (a b : GoError)
    (ha : ∀ m i, a ≠ GoError.wrap m i) (hb : ∀ m i, b ≠ GoError.wrap m i) (hab : a ≠ b)
    (h : errorsIs err a = true) : errorsIs err b = false := by
  cases err with
  | none => rfl
  | some e => exact GoError.Is_sentinel_unique e a b ha hb hab h

/-- Claim C27: `handler.Error` answers every error with one status and one
code. An error that is `ErrUserNotFound` gives 404 and `USER_NOT_FOUND`, one
that is `ErrEmailExists` gives 409 and `EMAIL_EXISTS`, one that is
`ErrInvalidInput` gives 400 and `INVALID_REQUEST`, and every other error (nil
included) gives 500 and `INTERNAL_ERROR`. The cases are tried in this order; an
error has one unwrap chain, so it is at most one of the three. The answer is
what `JSON` writes: on a writer whose header has not been written yet the
status is that code and the body gets the error response. -/
theorem error_maps_to_status_and_code (w : ResponseWriter ErrorResponse)
    (err : Option GoError) :
    (errorsIs err GoError.ErrUserNotFound = true →
      Error w err = JSON w 404 (some ⟨"USER_NOT_FOUND", "User not found", []⟩)) ∧
    (errorsIs err GoError.ErrEmailExists = true →
      Error w err = JSON w 409 (some ⟨"EMAIL_EXISTS", "Email already exists", []⟩)) ∧
    (errorsIs err GoError.ErrInvalidInput = true →
      Error w err = JSON w 400 (some ⟨"INVALID_REQUEST", "Invalid request data", []⟩)) ∧
    (errorsIs err GoError.ErrUserNotFound = false → errorsIs err GoError.ErrEmailExists = false →
      errorsIs err GoError.ErrInvalidInput = false →
      Error w err = JSON w 500 (some ⟨"INTERNAL_ERROR", "Internal server error", []⟩)) ∧
    (∀ (status : Int) (resp : ErrorResponse), w.status = none →
      (JSON w status (some resp)).status = some status ∧
      (JSON w status (some resp)).body = w.body ++ [resp]) := by
  refine ⟨fun h => ?_, fun h => ?_, fun h => ?_, fun h1 h2 h3 => ?_, fun status resp hw => ?_⟩
  · simp only [Error, h, ↓reduceIte]
    rfl
  · have h1 := errorsIs_sentinel_unique err _ GoError.ErrUserNotFound
      (fun _ _ => by simp) (fun _ _ => by simp) (by simp) h
    simp only [Error, h, h1, ↓reduceIte, Bool.false_eq_true]
    rfl
  · have h1 := errorsIs_sentinel_unique err _ GoError.ErrUserNotFound
      (fun _ _ => by simp) (fun _ _ => by simp) (by simp) h
    have h2 := errorsIs_sentinel_unique err _ GoError.ErrEmailExists
      (fun _ _ => by simp) (fun _ _ => by simp) (by simp) h
    simp only [Error, h, h1, h2, ↓reduceIte, Bool.false_eq_true]
    rfl
  · simp only [Error, h1, h2, h3, ↓reduceIte, Bool.false_eq_true]
    rfl
  · simp [JSON, ResponseWriter.headerSet, ResponseWriter.WriteHeader, ResponseWriter.encode, hw]

theorem error_maps_to_status_and_code_witness :
    (Error ⟨[], none, []⟩ (some (GoError.wrap "lookup failed" GoError.ErrUserNotFound))).status =
      some 404 ∧
    (Error ⟨[], none, []⟩ (some GoError.ErrEmailExists)).status = some 409 ∧
    (Error ⟨[], none, []⟩ (some GoError.ErrInvalidInput)).body =
      [⟨"INVALID_REQUEST", "Invalid request data", []⟩] ∧
    (Error ⟨[], none, []⟩ (some (GoError.other "connection refused"))).status = some 500 :=
  ⟨((error_maps_to_status_and_code ⟨[], none, []⟩
      (some (GoError.wrap "lookup failed" GoError.ErrUserNotFound))).1 (by decide)).symm ▸
      (by decide),
   ((error_maps_to_status_and_code ⟨[], none, []⟩ (some GoError.ErrEmailExists)).2.1
      (by decide)).symm ▸ (by decide),
   ((error_maps_to_status_and_code ⟨[], none, []⟩ (some GoError.ErrInvalidInput)).2.2.1
      (by decide)).symm ▸ (by decide),
   ((error_maps_to_status_and_code ⟨[], none, []⟩
      (some (GoError.other "connection refused"))).2.2.2.1 (by decide) (by decide)
      (by decide)).symm ▸ (by decide)⟩

/-- Claim C28: `Delete` of the dead-letter repository returns `ErrUserNotFound`
exactly when the delete statement succeeds and affects no row; it returns nil
when the statement succeeds and affects a row, and an error of the database is
returned as it is. On a database that holds the table as a list of rows this
means: without a fault, `ErrUserNotFound` exactly when no row has the
identifier, else nil with the rows of that identifier removed. -/
theorem failed_event_delete_not_found_iff_no_row {δ : Type}
    (r : Postgres.FailedEventRepository δ) (ctx : Context) (id : UUID) (db : δ) :
    ((r.Delete ctx id db).1 = some GoError.ErrUserNotFound ↔
      (r.pool.Exec ctx "DELETE FROM failed_events WHERE id = $1" id db).1.2 = none ∧
      (r.pool.Exec ctx "DELETE FROM failed_events WHERE id = $1" id db).1.1.RowsAffected = 0) ∧
    ((r.pool.Exec ctx "DELETE FROM failed_events WHERE id = $1" id db).1.2 = none →
      (r.pool.Exec ctx "DELETE FROM failed_events WHERE id = $1" id db).1.1.RowsAffected ≠ 0 →
      (r.Delete ctx id db).1 = none) ∧
    (∀ e, (r.pool.Exec ctx "DELETE FROM failed_events WHERE id = $1" id db).1.2 = some e →
      (r.Delete ctx id db).1 = some e.toError) ∧
    (r.Delete ctx id db).2 =
      (r.pool.Exec ctx "DELETE FROM failed_events WHERE id = $1" id db).2 ∧
    (∀ rows : List FailedEvent,
      (((Postgres.NewFailedEventRepository (tablePool none)).Delete ctx id rows).1 =
          some GoError.ErrUserNotFound ↔ ∀ e ∈ rows, e.ID ≠ id) ∧
      ((∃ e ∈ rows, e.ID = id) →
        (Postgres.NewFailedEventRepository (tablePool none)).Delete ctx id rows =
          (none, rows.filter (fun e => e.ID ≠ id)))) := by
  refine ⟨?_, ?_, ?_, ?_, ?_⟩
  · simp only [Postgres.FailedEventRepository.Delete]
    split
    next err db1 heq => simp [heq, PgError.toError]
    next result db1 heq => split <;> simp_all
  · intro h1 h2
    simp only [Postgres.FailedEventRepository.Delete]
    split
    next err db1 heq => simp [heq] at h1
    next result db1 heq => split <;> simp_all
  · intro e h
    simp only [Postgres.FailedEventRepository.Delete]
    split
    next err db1 heq => simp_all
    next result db1 heq => simp [heq] at h
  · simp only [Postgres.FailedEventRepository.Delete]
    split
    next err db1 heq => simp [heq]
    next result db1 heq => split <;> simp [heq]
  · intro rows
    have hlen : ((rows.filter (fun e => e.ID = id)).length : Int) = 0 ↔ ∀ e ∈ rows, e.ID ≠ id := by
      rw [Int.natCast_eq_zero, List.length_eq_zero, List.filter_eq_nil_iff]
      simp
    constructor
    · by_cases h0 : ((rows.filter (fun e => e.ID = id)).length : Int) = 0
      · simp only [Postgres.FailedEventRepository.Delete, Postgres.NewFailedEventRepository,
          tablePool, h0, ↓reduceIte, true_iff]
        exact hlen.mp h0
      · simp only [Postgres.FailedEventRepository.Delete, Postgres.NewFailedEventRepository,
          tablePool, h0, ↓reduceIte]
        constructor
        · intro h
          cases h
        · intro h
          exact absurd (hlen.mpr h) h0
    · intro hex
      have hne : ¬ ((rows.filter (fun e => e.ID = id)).length : Int) = 0 := by
        rw [hlen]
        obtain ⟨e, he, hid⟩ := hex
        exact fun h => h e he hid
      simp only [Postgres.FailedEventRepository.Delete, Postgres.NewFailedEventRepository,
        tablePool, hne, ↓reduceIte]

theorem failed_event_delete_not_found_iff_no_row_witness :
    ((Postgres.NewFailedEventRepository (tablePool none)).Delete Context.Background
        (UUID.ofNat 6)
        [⟨UUID.ofNat 5, UUID.ofNat 1, EventTypeUserCreated, UUID.ofNat 2, "payload", "timeout", 3,
          Time.zero, Time.zero⟩]).1 = some GoError.ErrUserNotFound ∧
    (Postgres.NewFailedEventRepository (tablePool none)).Delete Context.Background
        (UUID.ofNat 5)
        [⟨UUID.ofNat 5, UUID.ofNat 1, EventTypeUserCreated, UUID.ofNat 2, "payload", "timeout", 3,
          Time.zero, Time.zero⟩] = (none, []) ∧
    ((Postgres.NewFailedEventRepository (tablePool (some ⟨"connection refused"⟩))).Delete
        Context.Background (UUID.ofNat 5) []).1 = some (GoError.other "connection refused") :=
  ⟨((failed_event_delete_not_found_iff_no_row (Postgres.NewFailedEventRepository (tablePool none))
      Context.Background (UUID.ofNat 6) []).2.2.2.2 _).1.mpr (by decide),
   ((failed_event_delete_not_found_iff_no_row (Postgres.NewFailedEventRepository (tablePool none))
      Context.Background (UUID.ofNat 5) []).2.2.2.2 _).2 (by decide),
   (failed_event_delete_not_found_iff_no_row
      (Postgres.NewFailedEventRepository (tablePool (some ⟨"connection refused"⟩)))
      Context.Background (UUID.ofNat 5) []).2.2.1 ⟨"connection refused"⟩ rfl⟩

/-! ## `contains` and `isDuplicateKeyError` -/

theorem goSlice_window (s : List UInt8) (i n : Nat) (h : i + n ≤ s.length) :
    goSlice s i (i + n) = some ((s.drop i).take n) := by
  have h1 : (0 : Int) ≤ (i : Int) ∧ (i : Int) ≤ (i : Int) + (n : Int) ∧
      (i : Int) + (n : Int) ≤ (s.length : Int) := by omega
  have h2 : ((i : Int) + (n : Int) - (i : Int)).toNat = n := by omega
  simp only [goSlice, h1, and_self, ↓reduceIte, Int.toNat_ofNat, h2]

theorem searchStringLoop_spec (s substr : List UInt8) : ∀ l : List Nat,
    (∀ i ∈ l, i + substr.length ≤ s.length) →
    ∃ b, searchStringLoop s substr l = Outcome.ret b ∧
      (b = true ↔ ∃ i ∈ l, (s.drop i).take substr.length = substr) := by
  intro l
  induction l with
  | nil => intro _; exact ⟨false, rfl, by simp⟩
  | cons i rest ih =>
    intro h
    obtain ⟨b, hb, hiff⟩ := ih (fun j hj => h j (List.mem_cons_of_mem _ hj))
    have hs := goSlice_window s i substr.length (h i (List.mem_cons_self _ _))
    by_cases hw : (s.drop i).take substr.length = substr
    · refine ⟨true, ?_, ?_⟩
      · rw [searchStringLoop]
        simp only [Nat.cast_inj, hs, hw, ↓reduceIte]
      · simp only [true_iff]
        exact ⟨i, List.mem_cons_self _ _, hw⟩
    · refine ⟨b, ?_, ?_⟩
      · rw [searchStringLoop]
        simp only [hs, hw, ↓reduceIte]
        exact hb
      · rw [hiff]
        constructor
        · rintro ⟨j, hj, hjw⟩
          exact ⟨j, List.mem_cons_of_mem _ hj, hjw⟩
        · rintro ⟨j, hj, hjw⟩
          rcases List.mem_cons.mp hj with rfl | hj
          · exact absurd hjw hw
          · exact ⟨j, hj, hjw⟩

theorem occursIn_iff_window (substr s : List UInt8) :
    occursIn substr s ↔
      ∃ i, i + substr.length ≤ s.length ∧ (s.drop i).take substr.length = substr := by
  constructor
  · rintro ⟨pre, post, rfl⟩
    refine ⟨pre.length, ?_, ?_⟩
    · simp only [List.length_append]
      omega
    · simp [List.append_assoc]
  · rintro ⟨i, _, hw⟩
    refine ⟨s.take i, (s.drop i).drop substr.length, ?_⟩
    have h1 : s = s.take i ++ s.drop i := (List.take_append_drop i s).symm
    have h2 : s.drop i = (s.drop i).take substr.length ++ (s.drop i).drop substr.length :=
      (List.take_append_drop _ _).symm
    rw [hw] at h2
    rw [List.append_assoc, ← h2]
    exact h1

/-- The function `contains` never panics, and it answers whether `substr`
occurs in `s`. -/
theorem contains_spec (s substr : List UInt8) :
    ∃ b, contains s substr = Outcome.ret b ∧ (b = true ↔ occursIn substr s) := by
  by_cases hlen : s.length ≥ substr.length
  · have hn : (((s.length : Int) - substr.length) + 1).toNat = s.length - substr.length + 1 := by
      omega
    obtain ⟨b, hb, hiff⟩ := searchStringLoop_spec s substr
      (List.range (s.length - substr.length + 1)) (fun i hi => by
        have := List.mem_range.mp hi
        omega)
    refine ⟨b, ?_, ?_⟩
    · simp only [contains, hlen, ↓reduceIte, searchString, hn]
      exact hb
    · rw [hiff, occursIn_iff_window]
      constructor
      · rintro ⟨i, hi, hw⟩
        have := List.mem_range.mp hi
        exact ⟨i, by omega, hw⟩
      · rintro ⟨i, hi, hw⟩
        exact ⟨i, List.mem_range.mpr (by omega), hw⟩
  · refine ⟨false, ?_, ?_⟩
    · simp only [contains, hlen, ↓reduceIte]
    · simp only [Bool.false_eq_true, false_iff]
      rintro ⟨pre, post, rfl⟩
      simp only [List.length_append] at hlen
      omega

/-- Claim C30: for all strings `s` and `substr`, `contains` returns, without a
slice out of bounds, and its answer is true exactly when `substr` occurs in `s`
as a contiguous piece; so `isDuplicateKeyError` returns as well, and is true
exactly when the error is not nil and its message contains `duplicate key` or
`unique constraint`. -/
theorem contains_iff_substring_occurs :
    (∀ s substr : List UInt8,
      ∃ b, contains s substr = Outcome.ret b ∧ (b = true ↔ occursIn substr s)) ∧
    (∀ err : Option GoError,
      ∃ b, isDuplicateKeyError err = Outcome.ret b ∧
        (b = true ↔ ∃ e, err = some e ∧
          (occursIn (goBytes "duplicate key") (goBytes e.Error) ∨
            occursIn (goBytes "unique constraint") (goBytes e.Error)))) := by
  refine ⟨contains_spec, fun err => ?_⟩
  cases err with
  | none => exact ⟨false, rfl, by simp⟩
  | some e =>
    obtain ⟨b1, hb1, h1⟩ := contains_spec (goBytes e.Error) (goBytes "duplicate key")
    obtain ⟨b2, hb2, h2⟩ := contains_spec (goBytes e.Error) (goBytes "unique constraint")
    by_cases hmsg : e.Error = ""
    · refine ⟨false, ?_, ?_⟩
      · simp only [isDuplicateKeyError, hmsg, ne_eq, not_true_eq_false, ↓reduceIte]
      · simp only [Bool.false_eq_true, Option.some.injEq, exists_eq_left', false_iff, not_or]
        have hnil : goBytes e.Error = [] := by rw [hmsg]; rfl
        rw [hnil]
        constructor
        · rintro ⟨pre, post, h⟩
          have := congrArg List.length h
          simp only [List.length_nil, List.length_append] at this
          have : (goBytes "duplicate key").length = 0 := by omega
          revert this
          decide
        · rintro ⟨pre, post, h⟩
          have := congrArg List.length h
          simp only [List.length_nil, List.length_append] at this
          have : (goBytes "unique constraint").length = 0 := by omega
          revert this
          decide
    · cases b1 with
      | true =>
        refine ⟨true, ?_, ?_⟩
        · simp only [isDuplicateKeyError, ne_eq, hmsg, not_false_eq_true, ↓reduceIte, hb1]
        · simp only [true_iff]
          exact ⟨e, rfl, Or.inl (h1.mp rfl)⟩
      | false =>
        refine ⟨b2, ?_, ?_⟩
        · simp only [isDuplicateKeyError, ne_eq, hmsg, not_false_eq_true, ↓reduceIte, hb1, hb2]
        · rw [h2]
          simp only [Option.some.injEq, exists_eq_left']
          constructor
          · exact Or.inr
          · rintro (h | h)
            · exact absurd (h1.mpr h) (by simp)
            · exact h

/-! ## `Update`: what a successful run has done -/

/-- A successful `Update` has found the user, has passed every check, and has
handed the repository the stored user with every field of the request that is
present put in, normalised; it returns the user as the repository left it. -/
theorem update_success_inv {ρ ν : Type} (env : Env) (repo : UserRepository ρ)
    (n : UserNotifier ν) (ctx : Context) (id : UUID) (req : UpdateUserRequest) (r : ρ) (x : ν)
    (u' : User) (st' : ρ × ν)
    (h : UserService.Update env ⟨repo, n⟩ ctx id req (r, x) = (Outcome.ret (some u', none), st')) :
    ∃ u0 r1 r2,
      repo.GetByID ctx id r = ((some u0, none), r1) ∧
      repo.Update ctx
        { ID := u0.ID
          Email := (req.Email.map (fun e => stringsTrimSpace (env.stringsToLower e))).getD u0.Email
          FirstName := (req.FirstName.map stringsTrimSpace).getD u0.FirstName
          LastName := (req.LastName.map stringsTrimSpace).getD u0.LastName
          Status := req.Status.getD u0.Status
          CreatedAt := u0.CreatedAt
          UpdatedAt := u0.UpdatedAt } r2 = ((u', none), st'.1) ∧
      (∀ s, req.Status = some s → validateStatus s = none) := by
  simp only [UserService.Update] at h
  split at h
  next => simp at h
  next user0 r1 hget =>
    split at h
    next out r' hE =>
      exfalso
      obtain ⟨h1, -⟩ := Prod.mk.inj h
      subst h1
      repeat' split at hE
      all_goals simp at hE
    next user1 r2 hE =>
      split at h
      next out hF =>
        exfalso
        obtain ⟨h1, -⟩ := Prod.mk.inj h
        subst h1
        repeat' split at hF
        all_goals simp at hF
      next user2 hF =>
        split at h
        next out hL =>
          exfalso
          obtain ⟨h1, -⟩ := Prod.mk.inj h
          subst h1
          repeat' split at hL
          all_goals simp at hL
        next user3 hL =>
          split at h
          next out hS =>
            exfalso
            obtain ⟨h1, -⟩ := Prod.mk.inj h
            subst h1
            repeat' split at hS
            all_goals simp at hS
          next user4 hS =>
            split at h
            next => simp at h
            next u4 =>
              split at h
              next => simp at h
              next u5 r3 hU =>
                split at h
                next => simp at h
                next o n1 hN =>
                  obtain ⟨h1, h2⟩ := Prod.mk.inj h
                  obtain rfl : u5 = u' := by simpa using h1
                  subst h2
                  have hSt : ∃ u3, user3 = some u3 ∧
                      u4 = { u3 with Status := req.Status.getD u3.Status } ∧
                      (∀ s, req.Status = some s → validateStatus s = none) := by
                    repeat' split at hS
                    all_goals simp_all
                  obtain ⟨u3, rfl, rfl, hvalid⟩ := hSt
                  have hLn : ∃ u2, user2 = some u2 ∧
                      u3 = { u2 with
                        LastName := (req.LastName.map stringsTrimSpace).getD u2.LastName } := by
                    repeat' split at hL
                    all_goals simp_all
                  obtain ⟨u2, rfl, rfl⟩ := hLn
                  have hFn : ∃ u1, user1 = some u1 ∧
                      u2 = { u1 with
                        FirstName := (req.FirstName.map stringsTrimSpace).getD u1.FirstName } := by
                    repeat' split at hF
                    all_goals simp_all
                  obtain ⟨u1, rfl, rfl⟩ := hFn
                  have hEm : ∃ u0, user0 = some u0 ∧
                      u1 = { u0 with
                        Email := (req.Email.map
                          (fun e => stringsTrimSpace (env.stringsToLower e))).getD u0.Email } := by
                    repeat' split at hE
                    all_goals simp_all
                  obtain ⟨u0, rfl, rfl⟩ := hEm
                  exact ⟨u0, r1, r2, hget, hU, hvalid⟩

/-- With a status that `validateStatus` rejects, `Update` returns
`ErrInvalidInput` whenever the same request without its status goes through. -/
theorem update_invalid_status_after_checks {ρ ν : Type} (env : Env) (repo : UserRepository ρ)
    (n : UserNotifier ν) (ctx : Context) (id : UUID) (req : UpdateUserRequest) (r : ρ) (x : ν)
    (s : UserStatus) (hs : req.Status = some s)
    (hv : validateStatus s = some GoError.ErrInvalidInput) (u : User) (st' : ρ × ν)
    (h : UserService.Update env ⟨repo, n⟩ ctx id { req with Status := none } (r, x) =
      (Outcome.ret (some u, none), st')) :
    (UserService.Update env ⟨repo, n⟩ ctx id req (r, x)).1 =
      Outcome.ret (none, some GoError.ErrInvalidInput) := by
  simp only [UserService.Update] at h
  split at h
  next => simp at h
  next user0 r1 hget =>
    split at h
    next out r' hE =>
      exfalso
      obtain ⟨h1, -⟩ := Prod.mk.inj h
      subst h1
      repeat' split at hE
      all_goals simp at hE
    next user1 r2 hE =>
      split at h
      next out hF =>
        exfalso
        obtain ⟨h1, -⟩ := Prod.mk.inj h
        subst h1
        repeat' split at hF
        all_goals simp at hF
      next user2 hF =>
        split at h
        next out hL =>
          exfalso
          obtain ⟨h1, -⟩ := Prod.mk.inj h
          subst h1
          repeat' split at hL
          all_goals simp at hL
        next user3 hL =>
          simp only [UserService.Update, hget, hE, hF, hL, hs, hv]

/-- With a status that `validateStatus` rejects, `Update` makes no mutating
call to the repository and no call to the notifier. -/
theorem update_invalid_status_no_write {ρ ν : Type} (env : Env) (repo : UserRepository ρ)
    (n : UserNotifier ν) (ctx : Context) (id : UUID) (req : UpdateUserRequest) (r : ρ) (x : ν)
    (s : UserStatus) (hs : req.Status = some s)
    (hv : validateStatus s = some GoError.ErrInvalidInput) :
    (UserService.Update env ⟨recordingRepo repo, n⟩ ctx id req ((r, []), x)).2.1.2 = [] ∧
    (UserService.Update env ⟨recordingRepo repo, n⟩ ctx id req ((r, []), x)).2.2 = x := by
  simp only [UserService.Update, recordingRepo, hs, hv]
  split
  next r1 heq =>
    obtain ⟨_, rfl⟩ := Prod.mk.inj heq
    exact ⟨rfl, rfl⟩
  next user0 r1 heq =>
    obtain ⟨_, rfl⟩ := Prod.mk.inj heq
    split
    next out r' hE =>
      have hr : r'.2 = [] := by
        repeat' split at hE
        all_goals first
          | (obtain ⟨_, rfl⟩ := Flow.done.inj hE |> Prod.mk.inj; rfl)
          | cases hE
      exact ⟨hr, rfl⟩
    next user1 r2 hE =>
      have hr : r2.2 = [] := by
        repeat' split at hE
        all_goals first
          | (obtain ⟨_, rfl⟩ := Flow.next.inj hE |> Prod.mk.inj; rfl)
          | cases hE
      split
      next => exact ⟨hr, rfl⟩
      next =>
        split
        next => exact ⟨hr, rfl⟩
        next => exact ⟨hr, rfl⟩

/-! ## The in-memory repository -/

theorem memRepo_getByEmail_free (ctx : Context) (email : String) (us : List User)
    (h : ∀ u ∈ us, u.Email ≠ email) :
    memRepo.GetByEmail ctx email us = ((none, some GoError.ErrUserNotFound), us) := by
  have hf : us.find? (fun u => decide (u.Email = email)) = none := by
    rw [List.find?_eq_none]
    intro u hu
    simpa using h u hu
  simp only [memRepo, hf]

theorem memRepo_getByEmail_stored (ctx : Context) (email : String) (us : List User)
    (h : ∃ u ∈ us, u.Email = email) :
    ∃ w, memRepo.GetByEmail ctx email us = ((some w, none), us) := by
  cases hf : us.find? (fun u => decide (u.Email = email)) with
  | none =>
    rw [List.find?_eq_none] at hf
    obtain ⟨u, hu, he⟩ := h
    exact absurd he (by simpa using hf u hu)
  | some w => exact ⟨w, by simp only [memRepo, hf]⟩

theorem memRepo_getByID_missing (ctx : Context) (id : UUID) (us : List User)
    (h : ∀ u ∈ us, u.ID ≠ id) :
    memRepo.GetByID ctx id us = ((none, some GoError.ErrUserNotFound), us) := by
  have hf : us.find? (fun u => decide (u.ID = id)) = none := by
    rw [List.find?_eq_none]
    intro u hu
    simpa using h u hu
  simp only [memRepo, hf]

theorem memRepo_delete_missing (ctx : Context) (id : UUID) (us : List User)
    (h : ∀ u ∈ us, u.ID ≠ id) :
    memRepo.Delete ctx id us = (some GoError.ErrUserNotFound, us) := by
  have hf : us.any (fun u => decide (u.ID = id)) = false := by
    rw [List.any_eq_false]
    intro u hu
    simpa using h u hu
  simp only [memRepo, hf, Bool.false_eq_true, ↓reduceIte]

theorem memRepo_delete_stored (ctx : Context) (id : UUID) (us : List User)
    (h : ∃ u ∈ us, u.ID = id) :
    memRepo.Delete ctx id us = (none, us.filter (fun u => u.ID ≠ id)) := by
  have hf : us.any (fun u => decide (u.ID = id)) = true := by
    rw [List.any_eq_true]
    obtain ⟨u, hu, he⟩ := h
    exact ⟨u, hu, by simpa using he⟩
  simp only [memRepo, hf, ↓reduceIte]

theorem memRepo_create_frame (ctx : Context) (u : User) (us : List User) :
    (memRepo.Create ctx u us).1.2 = none ∧
    (memRepo.Create ctx u us).1.1.Email = u.Email ∧
    (memRepo.Create ctx u us).1.1.FirstName = u.FirstName ∧
    (memRepo.Create ctx u us).1.1.LastName = u.LastName ∧
    (memRepo.Create ctx u us).1.1.Status = u.Status ∧
    (memRepo.Create ctx u us).2 = us ++ [(memRepo.Create ctx u us).1.1] := by
  simp [memRepo]

theorem memRepo_update_frame (ctx : Context) (u : User) (us : List User) :
    (memRepo.Update ctx u us).1.1 = u := by
  simp only [memRepo]
  split <;> rfl

/-! ## `Create`, `GetByID`, `Delete` against a repository -/

/-- A valid request whose email the repository finds is refused with
`ErrEmailExists` after the lookup. -/
theorem create_email_found {ρ ν : Type} (env : Env) (repo : UserRepository ρ)
    (n : UserNotifier ν) (ctx : Context) (req : CreateUserRequest) (r : ρ) (x : ν)
    (h1 : validateEmail (stringsTrimSpace (env.stringsToLower req.Email)) = none)
    (h2 : validateName (stringsTrimSpace req.FirstName) "firstName" = none)
    (h3 : validateName (stringsTrimSpace req.LastName) "lastName" = none)
    (u : User) (r1 : ρ)
    (hfound : repo.GetByEmail ctx (stringsTrimSpace (env.stringsToLower req.Email)) r =
      ((some u, none), r1)) :
    UserService.Create env ⟨repo, n⟩ ctx req (r, x) =
      (Outcome.ret (none, some GoError.ErrEmailExists), (r1, x)) := by
  simp [UserService.Create, h1, h2, h3, hfound]

/-- A valid request whose email the repository does not find, and whose insert
the repository accepts, returns the user as the repository left it. -/
theorem create_email_free {ρ ν : Type} (env : Env) (repo : UserRepository ρ)
    (n : UserNotifier ν) (hn : n.Returns) (ctx : Context) (req : CreateUserRequest) (r : ρ)
    (x : ν)
    (h1 : validateEmail (stringsTrimSpace (env.stringsToLower req.Email)) = none)
    (h2 : validateName (stringsTrimSpace req.FirstName) "firstName" = none)
    (h3 : validateName (stringsTrimSpace req.LastName) "lastName" = none)
    (e : Option GoError) (r1 : ρ)
    (hfree : repo.GetByEmail ctx (stringsTrimSpace (env.stringsToLower req.Email)) r =
      ((none, e), r1))
    (he : e = none ∨ errorsIs e GoError.ErrUserNotFound = true)
    (u1 : User) (r2 : ρ)
    (hcreate : repo.Create ctx
      { ID := UUID.Nil
        Email := stringsTrimSpace (env.stringsToLower req.Email)
        FirstName := stringsTrimSpace req.FirstName
        LastName := stringsTrimSpace req.LastName
        Status := UserStatusActive
        CreatedAt := Time.zero
        UpdatedAt := Time.zero } r1 = ((u1, none), r2)) :
    ∃ x1, UserService.Create env ⟨repo, n⟩ ctx req (r, x) =
      (Outcome.ret (some u1, none), (r2, x1)) := by
  have hcond : (e.isSome && !errorsIs e GoError.ErrUserNotFound) = false := by
    rcases he with rfl | he
    · rfl
    · simp [he]
  obtain ⟨o, ho⟩ := (hn ctx u1.ID x).1
  refine ⟨(n.NotifyCreated ctx u1.ID x).2, ?_⟩
  simp only [UserService.Create, h1, h2, h3, hfree, hcond, Bool.false_eq_true, ↓reduceIte,
    Option.isSome_none, hcreate]
  split
  next p n1 heq =>
    rw [heq] at ho
    cases ho
  next o' n1 heq =>
    rw [heq]

/-! ## The contract of the user service -/

/-- Claim C22: `Create` with a valid request whose normalised email the
repository finds for a stored user returns `ErrEmailExists` right after the
lookup, so no second user is created; and on the in-memory repository, creating
the same valid request twice succeeds the first time and fails with
`ErrEmailExists` the second time, leaving the one user stored. -/
theorem create_duplicate_email {ρ ν : Type} (env : Env) (ctx : Context)
    (req : CreateUserRequest)
    (h1 : validateEmail (stringsTrimSpace (env.stringsToLower req.Email)) = none)
    (h2 : validateName (stringsTrimSpace req.FirstName) "firstName" = none)
    (h3 : validateName (stringsTrimSpace req.LastName) "lastName" = none) :
    (∀ (repo : UserRepository ρ) (n : UserNotifier ν) (r : ρ) (x : ν) (u : User) (r1 : ρ),
      repo.GetByEmail ctx (stringsTrimSpace (env.stringsToLower req.Email)) r =
        ((some u, none), r1) →
      UserService.Create env ⟨repo, n⟩ ctx req (r, x) =
        (Outcome.ret (none, some GoError.ErrEmailExists), (r1, x))) ∧
    (∀ (n : UserNotifier ν), n.Returns → ∀ (us : List User) (x : ν),
      (∀ u ∈ us, u.Email ≠ stringsTrimSpace (env.stringsToLower req.Email)) →
      ∃ u x1,
        UserService.Create env ⟨memRepo, n⟩ ctx req (us, x) =
          (Outcome.ret (some u, none), (us ++ [u], x1)) ∧
        UserService.Create env ⟨memRepo, n⟩ ctx req (us ++ [u], x1) =
          (Outcome.ret (none, some GoError.ErrEmailExists), (us ++ [u], x1))) := by
  refine ⟨fun repo n r x u r1 hfound => create_email_found env repo n ctx req r x h1 h2 h3 u r1
    hfound, fun n hn us x hfree => ?_⟩
  obtain ⟨c0, c1, -, -, -, c5⟩ := memRepo_create_frame ctx
    { ID := UUID.Nil
      Email := stringsTrimSpace (env.stringsToLower req.Email)
      FirstName := stringsTrimSpace req.FirstName
      LastName := stringsTrimSpace req.LastName
      Status := UserStatusActive
      CreatedAt := Time.zero
      UpdatedAt := Time.zero } us
  generalize hc : memRepo.Create ctx _ us = res at c0 c1 c5
  obtain ⟨⟨u1, e1⟩, r2⟩ := res
  simp only at c0 c1 c5
  subst c0 c5
  obtain ⟨x1, hrun⟩ := create_email_free env memRepo n hn ctx req us x h1 h2 h3 _ us
    (memRepo_getByEmail_free ctx _ us hfree) (Or.inr rfl) u1 _ hc
  refine ⟨u1, x1, hrun, ?_⟩
  obtain ⟨w, hw⟩ := memRepo_getByEmail_stored ctx
    (stringsTrimSpace (env.stringsToLower req.Email)) (us ++ [u1])
    ⟨u1, List.mem_append_right _ (List.mem_singleton_self _), c1⟩
  exact create_email_found env memRepo n ctx req _ x1 h1 h2 h3 w _ hw

theorem create_duplicate_email_witness :
    ∃ u x1,
      UserService.Create serviceEnv ⟨memRepo, silentNotifier⟩ Context.Background
          ⟨" Ada@Example.com", "Ada", "Lovelace"⟩ ([], ()) =
        (Outcome.ret (some u, none), ([] ++ [u], x1)) ∧
      UserService.Create serviceEnv ⟨memRepo, silentNotifier⟩ Context.Background
          ⟨" Ada@Example.com", "Ada", "Lovelace"⟩ ([] ++ [u], x1) =
        (Outcome.ret (none, some GoError.ErrEmailExists), ([] ++ [u], x1)) :=
  (@create_duplicate_email Unit Unit serviceEnv Context.Background
    ⟨" Ada@Example.com", "Ada", "Lovelace"⟩ (by decide) (by decide) (by decide)).2
    silentNotifier silentNotifier_returns [] () (by simp)

/-- Claim C23: for every valid request whose email the repository does not
find, with a repository that accepts the insert and keeps the fields it is
given (and a notifier that returns), `Create` succeeds and returns a user whose
`Email` is the trimmed, lower-cased request email, whose `FirstName` and
`LastName` are the trimmed request names and whose `Status` is active. -/
theorem create_returns_normalised_user {ρ ν : Type} (env : Env) (repo : UserRepository ρ)
    (n : UserNotifier ν) (hn : n.Returns) (ctx : Context) (req : CreateUserRequest) (r : ρ)
    (x : ν)
    (h1 : validateEmail (stringsTrimSpace (env.stringsToLower req.Email)) = none)
    (h2 : validateName (stringsTrimSpace req.FirstName) "firstName" = none)
    (h3 : validateName (stringsTrimSpace req.LastName) "lastName" = none)
    (hframe : ∀ (c : Context) (u : User) (s : ρ),
      (repo.Create c u s).1.1.Email = u.Email ∧ (repo.Create c u s).1.1.FirstName = u.FirstName ∧
      (repo.Create c u s).1.1.LastName = u.LastName ∧ (repo.Create c u s).1.1.Status = u.Status)
    (e : Option GoError) (r1 : ρ)
    (hfree : repo.GetByEmail ctx (stringsTrimSpace (env.stringsToLower req.Email)) r =
      ((none, e), r1))
    (he : e = none ∨ errorsIs e GoError.ErrUserNotFound = true)
    (haccept : (repo.Create ctx
      { ID := UUID.Nil
        Email := stringsTrimSpace (env.stringsToLower req.Email)
        FirstName := stringsTrimSpace req.FirstName
        LastName := stringsTrimSpace req.LastName
        Status := UserStatusActive
        CreatedAt := Time.zero
        UpdatedAt := Time.zero } r1).1.2 = none) :
    ∃ u st', UserService.Create env ⟨repo, n⟩ ctx req (r, x) = (Outcome.ret (some u, none), st') ∧
      u.Email = stringsTrimSpace (env.stringsToLower req.Email) ∧
      u.FirstName = stringsTrimSpace req.FirstName ∧
      u.LastName = stringsTrimSpace req.LastName ∧
      u.Status = UserStatusActive := by
  obtain ⟨f1, f2, f3, f4⟩ := hframe ctx
    { ID := UUID.Nil
      Email := stringsTrimSpace (env.stringsToLower req.Email)
      FirstName := stringsTrimSpace req.FirstName
      LastName := stringsTrimSpace req.LastName
      Status := UserStatusActive
      CreatedAt := Time.zero
      UpdatedAt := Time.zero } r1
  generalize hc : repo.Create ctx _ r1 = res at haccept f1 f2 f3 f4
  obtain ⟨⟨u1, e1⟩, r2⟩ := res
  simp only at haccept f1 f2 f3 f4
  subst haccept
  obtain ⟨x1, hrun⟩ := create_email_free env repo n hn ctx req r x h1 h2 h3 e r1 hfree he u1 r2 hc
  exact ⟨u1, (r2, x1), hrun, f1, f2, f3, f4⟩

theorem create_returns_normalised_user_witness :
    ∃ u st',
      UserService.Create serviceEnv ⟨memRepo, silentNotifier⟩ Context.Background
        ⟨"  Grace@Example.COM ", " Grace", "Hopper  "⟩ ([ada], ()) =
        (Outcome.ret (some u, none), st') ∧
      u.Email = stringsTrimSpace (serviceEnv.stringsToLower "  Grace@Example.COM ") ∧
      u.FirstName = stringsTrimSpace " Grace" ∧
      u.LastName = stringsTrimSpace "Hopper  " ∧
      u.Status = UserStatusActive :=
  create_returns_normalised_user serviceEnv memRepo silentNotifier silentNotifier_returns
    Context.Background ⟨"  Grace@Example.COM ", " Grace", "Hopper  "⟩ [ada] ()
    (by decide) (by decide) (by decide)
    (fun c u s => (memRepo_create_frame c u s).2.1 |> fun h =>
      ⟨h, (memRepo_create_frame c u s).2.2.1, (memRepo_create_frame c u s).2.2.2.1,
        (memRepo_create_frame c u s).2.2.2.2.1⟩)
    (some GoError.ErrUserNotFound) [ada] (by decide) (Or.inr (by decide)) (by decide)

/-- Claim C24: for an ID that the repository does not hold, `GetByID`, `Update`
and `Delete` each return `ErrUserNotFound`. Whenever a repository answers the
lookup (the delete) for the ID with `ErrUserNotFound`, the service returns that
error; the in-memory repository answers so for every ID it does not hold; and
after a successful `Delete` of a stored user on it, `GetByID` of that ID
returns `ErrUserNotFound`. -/
theorem missing_user_not_found {ρ ν : Type} (env : Env) (n : UserNotifier ν) (ctx : Context)
    (id : UUID) :
    (∀ (repo : UserRepository ρ) (r : ρ) (x : ν) (o : Option User) (r1 : ρ),
      repo.GetByID ctx id r = ((o, some GoError.ErrUserNotFound), r1) →
      UserService.GetByID ⟨repo, n⟩ ctx id (r, x) =
        (Outcome.ret (o, some GoError.ErrUserNotFound), (r1, x)) ∧
      ∀ req, UserService.Update env ⟨repo, n⟩ ctx id req (r, x) =
        (Outcome.ret (none, some GoError.ErrUserNotFound), (r1, x))) ∧
    (∀ (repo : UserRepository ρ) (r : ρ) (x : ν) (r1 : ρ),
      repo.Delete ctx id r = (some GoError.ErrUserNotFound, r1) →
      UserService.Delete ⟨repo, n⟩ ctx id (r, x) =
        (Outcome.ret (some GoError.ErrUserNotFound), (r1, x))) ∧
    (∀ (us : List User) (x : ν), (∀ u ∈ us, u.ID ≠ id) →
      UserService.GetByID ⟨memRepo, n⟩ ctx id (us, x) =
        (Outcome.ret (none, some GoError.ErrUserNotFound), (us, x)) ∧
      (∀ req, UserService.Update env ⟨memRepo, n⟩ ctx id req (us, x) =
        (Outcome.ret (none, some GoError.ErrUserNotFound), (us, x))) ∧
      UserService.Delete ⟨memRepo, n⟩ ctx id (us, x) =
        (Outcome.ret (some GoError.ErrUserNotFound), (us, x))) ∧
    (n.Returns → ∀ (us : List User) (x : ν), (∃ u ∈ us, u.ID = id) →
      ∃ us' x', UserService.Delete ⟨memRepo, n⟩ ctx id (us, x) = (Outcome.ret none, (us', x')) ∧
        UserService.GetByID ⟨memRepo, n⟩ ctx id (us', x') =
          (Outcome.ret (none, some GoError.ErrUserNotFound), (us', x'))) := by
  have hget : ∀ {σ : Type} (repo : UserRepository σ) (r : σ) (x : ν) (o : Option User) (r1 : σ),
      repo.GetByID ctx id r = ((o, some GoError.ErrUserNotFound), r1) →
      UserService.GetByID ⟨repo, n⟩ ctx id (r, x) =
        (Outcome.ret (o, some GoError.ErrUserNotFound), (r1, x)) ∧
      ∀ req, UserService.Update env ⟨repo, n⟩ ctx id req (r, x) =
        (Outcome.ret (none, some GoError.ErrUserNotFound), (r1, x)) := by
    intro σ repo r x o r1 h
    refine ⟨?_, fun req => ?_⟩
    · simp only [UserService.GetByID, h]
    · simp only [UserService.Update, h]
  have hdel : ∀ {σ : Type} (repo : UserRepository σ) (r : σ) (x : ν) (r1 : σ),
      repo.Delete ctx id r = (some GoError.ErrUserNotFound, r1) →
      UserService.Delete ⟨repo, n⟩ ctx id (r, x) =
        (Outcome.ret (some GoError.ErrUserNotFound), (r1, x)) := by
    intro σ repo r x r1 h
    simp only [UserService.Delete, h]
  refine ⟨fun repo r x o r1 h => hget repo r x o r1 h, fun repo r x r1 h => hdel repo r x r1 h,
    fun us x hmiss => ?_, fun hn us x hheld => ?_⟩
  · obtain ⟨g1, g2⟩ := hget memRepo us x none us (memRepo_getByID_missing ctx id us hmiss)
    exact ⟨g1, g2, hdel memRepo us x us (memRepo_delete_missing ctx id us hmiss)⟩
  · have hd := memRepo_delete_stored ctx id us hheld
    obtain ⟨o, ho⟩ := (hn ctx id x).2.2
    refine ⟨us.filter (fun u => u.ID ≠ id), (n.NotifyDeleted ctx id x).2, ?_, ?_⟩
    · simp only [UserService.Delete, hd]
      split
      next p n1 heq =>
        rw [heq] at ho
        cases ho
      next o' n1 heq => rw [heq]
    · refine (hget memRepo _ _ none _ (memRepo_getByID_missing ctx id _ ?_)).1
      intro u hu
      simpa using (List.mem_filter.mp hu).2

theorem missing_user_not_found_witness :
    ∃ us' x', UserService.Delete ⟨memRepo, silentNotifier⟩ Context.Background (UUID.ofNat 1)
        ([ada], ()) = (Outcome.ret none, (us', x')) ∧
      UserService.GetByID ⟨memRepo, silentNotifier⟩ Context.Background (UUID.ofNat 1) (us', x') =
        (Outcome.ret (none, some GoError.ErrUserNotFound), (us', x')) :=
  (@missing_user_not_found Unit Unit serviceEnv silentNotifier Context.Background
    (UUID.ofNat 1)).2.2.2 silentNotifier_returns [ada] () ⟨ada, by decide, by decide⟩

/-- Claim C25: a successful `Update`, with a repository whose `Update` keeps
`ID`, `Email`, `FirstName`, `LastName` and `Status` of the user it is given,
changes only the fields present in the request. In the returned user the ID is
that of the stored user, each of `Email`, `FirstName`, `LastName` and `Status`
whose request field is nil is the stored user's value, and each field provided
holds the request value, trimmed and for the email lower-cased first (the
status as it is: a status that passes has nothing to trim). -/
theorem update_changes_only_given_fields {ρ ν : Type} (env : Env) (repo : UserRepository ρ)
    (n : UserNotifier ν) (ctx : Context) (id : UUID) (req : UpdateUserRequest) (r : ρ) (x : ν)
    (u' : User) (st' : ρ × ν)
    (hframe : ∀ (c : Context) (u : User) (s : ρ),
      (repo.Update c u s).1.1.ID = u.ID ∧ (repo.Update c u s).1.1.Email = u.Email ∧
      (repo.Update c u s).1.1.FirstName = u.FirstName ∧
      (repo.Update c u s).1.1.LastName = u.LastName ∧ (repo.Update c u s).1.1.Status = u.Status)
    (h : UserService.Update env ⟨repo, n⟩ ctx id req (r, x) = (Outcome.ret (some u', none), st')) :
    ∃ u0 r1, repo.GetByID ctx id r = ((some u0, none), r1) ∧
      u'.ID = u0.ID ∧
      (req.Email = none → u'.Email = u0.Email) ∧
      (∀ e, req.Email = some e → u'.Email = stringsTrimSpace (env.stringsToLower e)) ∧
      (req.FirstName = none → u'.FirstName = u0.FirstName) ∧
      (∀ v, req.FirstName = some v → u'.FirstName = stringsTrimSpace v) ∧
      (req.LastName = none → u'.LastName = u0.LastName) ∧
      (∀ v, req.LastName = some v → u'.LastName = stringsTrimSpace v) ∧
      (req.Status = none → u'.Status = u0.Status) ∧
      (∀ s, req.Status = some s → u'.Status = s ∧ stringsTrimSpace s = s) := by
  obtain ⟨u0, r1, r2, hget, hU, hvalid⟩ := update_success_inv env repo n ctx id req r x u' st' h
  obtain ⟨f0, f1, f2, f3, f4⟩ := hframe ctx _ r2
  rw [hU] at f0 f1 f2 f3 f4
  simp only at f0 f1 f2 f3 f4
  refine ⟨u0, r1, hget, f0, ?_, ?_, ?_, ?_, ?_, ?_, ?_, ?_⟩
  · intro h; rw [f1, h]; rfl
  · intro e h; rw [f1, h]; rfl
  · intro h; rw [f2, h]; rfl
  · intro v h; rw [f2, h]; rfl
  · intro h; rw [f3, h]; rfl
  · intro v h; rw [f3, h]; rfl
  · intro h; rw [f4, h]; rfl
  · intro s h
    refine ⟨by rw [f4, h]; rfl, ?_⟩
    have hv := hvalid s h
    simp only [validateStatus] at hv
    split at hv
    next hs =>
      rcases hs with rfl | rfl | rfl <;> decide
    next => cases hv

theorem update_changes_only_given_fields_witness :
    ∃ u0 r1, memRepo.GetByID Context.Background (UUID.ofNat 1) [ada] = ((some u0, none), r1) ∧
      (⟨UUID.ofNat 1, "ada@new.example", "Ada", "Lovelace", "inactive", Time.zero, Time.zero⟩ :
        User).ID = u0.ID ∧
      ((some " Ada@New.example " : Option String) = none → "ada@new.example" = u0.Email) ∧
      (∀ e, (some " Ada@New.example " : Option String) = some e →
        "ada@new.example" = stringsTrimSpace (serviceEnv.stringsToLower e)) ∧
      ((none : Option String) = none → "Ada" = u0.FirstName) ∧
      (∀ v, (none : Option String) = some v → "Ada" = stringsTrimSpace v) ∧
      ((none : Option String) = none → "Lovelace" = u0.LastName) ∧
      (∀ v, (none : Option String) = some v → "Lovelace" = stringsTrimSpace v) ∧
      ((some "inactive" : Option UserStatus) = none → "inactive" = u0.Status) ∧
      (∀ s, (some "inactive" : Option UserStatus) = some s →
        "inactive" = s ∧ stringsTrimSpace s = s) :=
  update_changes_only_given_fields serviceEnv memRepo silentNotifier Context.Background
    (UUID.ofNat 1) ⟨some " Ada@New.example ", none, none, some "inactive"⟩ [ada] ()
    ⟨UUID.ofNat 1, "ada@new.example", "Ada", "Lovelace", "inactive", Time.zero, Time.zero⟩
    ([⟨UUID.ofNat 1, "ada@new.example", "Ada", "Lovelace", "inactive", Time.zero, Time.zero⟩], ())
    (fun c u s => by rw [memRepo_update_frame]; exact ⟨rfl, rfl, rfl, rfl, rfl⟩) (by decide)

/-- Claim C26, counterexample: `Update` with a status outside the three values
does not always return `ErrInvalidInput`. On an empty repository the lookup
fails first, and the request with status `archived` gets `ErrUserNotFound`. -/
theorem update_invalid_status_on_missing_user :
    validateStatus "archived" = some GoError.ErrInvalidInput ∧
    UserService.Update serviceEnv ⟨memRepo, silentNotifier⟩ Context.Background (UUID.ofNat 1)
      ⟨none, none, none, some "archived"⟩ ([], ()) =
      (Outcome.ret (none, some GoError.ErrUserNotFound), ([], ())) := by
  decide

/-- Claim C26, amended: a user status is valid exactly when it is one of
`active`, `inactive`, `suspended`: `validateStatus` returns nil for these three
and `ErrInvalidInput` for every other string, the empty one included. `Update`
with any other status never updates the repository, never notifies and never
succeeds; it returns `ErrInvalidInput` whenever the same request without its
status would succeed (an error met before the status check, such as
`ErrUserNotFound` for an unknown ID, is returned first). -/
theorem update_rejects_invalid_status {ρ ν : Type} (env : Env) (repo : UserRepository ρ)
    (n : UserNotifier ν) (ctx : Context) (id : UUID) (r : ρ) (x : ν) :
    (∀ s : UserStatus, (s = "active" ∨ s = "inactive" ∨ s = "suspended") →
      validateStatus s = none) ∧
    (∀ s : UserStatus, ¬ (s = "active" ∨ s = "inactive" ∨ s = "suspended") →
      validateStatus s = some GoError.ErrInvalidInput) ∧
    (∀ (req : UpdateUserRequest) (s : UserStatus), req.Status = some s →
      ¬ (s = "active" ∨ s = "inactive" ∨ s = "suspended") →
      (UserService.Update env ⟨recordingRepo repo, n⟩ ctx id req ((r, []), x)).2.1.2 = [] ∧
      (UserService.Update env ⟨recordingRepo repo, n⟩ ctx id req ((r, []), x)).2.2 = x ∧
      (∀ u, (UserService.Update env ⟨repo, n⟩ ctx id req (r, x)).1 ≠
        Outcome.ret (some u, none)) ∧
      (∀ u st', UserService.Update env ⟨repo, n⟩ ctx id { req with Status := none } (r, x) =
          (Outcome.ret (some u, none), st') →
        (UserService.Update env ⟨repo, n⟩ ctx id req (r, x)).1 =
          Outcome.ret (none, some GoError.ErrInvalidInput))) := by
  have hok : ∀ s : UserStatus, (s = "active" ∨ s = "inactive" ∨ s = "suspended") →
      validateStatus s = none := by
    intro s hs
    simp only [validateStatus, UserStatusActive, UserStatusInactive, UserStatusSuspended, hs,
      ↓reduceIte]
  have hbad : ∀ s : UserStatus, ¬ (s = "active" ∨ s = "inactive" ∨ s = "suspended") →
      validateStatus s = some GoError.ErrInvalidInput := by
    intro s hs
    simp only [validateStatus, UserStatusActive, UserStatusInactive, UserStatusSuspended, hs,
      ↓reduceIte]
  refine ⟨hok, hbad, fun req s hs hinv => ?_⟩
  obtain ⟨w1, w2⟩ := update_invalid_status_no_write env repo n ctx id req r x s hs (hbad s hinv)
  refine ⟨w1, w2, fun u hsucc => ?_, fun u st' hsucc =>
    update_invalid_status_after_checks env repo n ctx id req r x s hs (hbad s hinv) u st' hsucc⟩
  obtain ⟨_, _, _, _, _, hvalid⟩ := update_success_inv env repo n ctx id req r x u
    (UserService.Update env ⟨repo, n⟩ ctx id req (r, x)).2 (Prod.ext hsucc rfl)
  have := hvalid s hs
  rw [hbad s hinv] at this
  cases this

theorem update_rejects_invalid_status_witness :
    (UserService.Update serviceEnv ⟨memRepo, silentNotifier⟩ Context.Background (UUID.ofNat 1)
      ⟨none, some " Augusta ", none, some "archived"⟩ ([ada], ())).1 =
      Outcome.ret (none, some GoError.ErrInvalidInput) :=
  ((update_rejects_invalid_status serviceEnv memRepo silentNotifier Context.Background
    (UUID.ofNat 1) [ada] ()).2.2 ⟨none, some " Augusta ", none, some "archived"⟩ "archived" rfl
    (by decide)).2.2.2
    ⟨UUID.ofNat 1, "ada@example.com", "Augusta", "Lovelace", "active", Time.zero, Time.zero⟩
    ([⟨UUID.ofNat 1, "ada@example.com", "Augusta", "Lovelace", "active", Time.zero, Time.zero⟩],
      ())
    (by decide)

end UserApi
